import Mathlib

/-! libbsdf: sample sets and BRDF processors.

A shallow embedding of the sample store (`SampleSet.cpp`), the utility
functions (`Utility.h`, `SpectrumUtility.h`), the post-processing operators
(`Processor.cpp`) and the synthesizer (`ReflectanceModelUtility.h`) of
libbsdf, followed by theorems about them.

Conventions of the embedding.

* The source computes with 32-bit floats.  Here every scalar is a rational
  number, and the float constants of the source are the rationals they denote
  (`PI_F` is the float nearest to π, `EPSILON_F` is `2⁻²³`).  The processors
  are embedded with exact arithmetic.  Where a result depends on the single
  roundings, every float operation is rounded to binary32 by `f32` (round to
  nearest, ties to even, subnormal values included): in `isEqualInterval` and
  `findNearestIndex`, and in the definitions of the namespace `Machine`, which
  repeat `isEqual` and the search of `fillSymmetricBrdf` with rounded
  operations.
* The sizes of a sample set are natural numbers.  `Machine.resizeAngles`,
  `Machine.resizeWavelengths` and `Machine.create` compute the number of
  samples in 32-bit `int` arithmetic, as `SampleSet.cpp` does; `resizeAngles`,
  `resizeWavelengths` and `create` use unbounded integers and agree with them
  as long as `N0·N1·N2·N3 < 2³¹`.
* `Arrayf`, `Spectrum` (Eigen arrays) and `SpectrumList` (a `std::vector`)
  are lists.  Reads use `List.getD`, writes use `List.set`; the theorems are
  stated for indices inside the bounds, where `at()` and `operator[]` of the
  source succeed.
* A C++ `for (int i = 0; i < n; ++i)` loop whose body updates a state is
  `forRange n body`.
* Code that is not among the sources (the BRDF classes with their continuous
  lookup, the integrator, the reflectance models, the CIE tables) enters as a
  parameter of the function that calls it.
-/

namespace lb

/-! ## Utility.h -/

/-- The constant `PI_F`: the 32-bit float nearest to π, as an exact rational. -/
def PI_F : ℚ := 13176795 / 4194304

/-- The constant `EPSILON_F`, `std::numeric_limits<float>::epsilon()`. -/
def EPSILON_F : ℚ := 1 / 8388608

/-- The function `lb::isEqual`: true if two values are nearly equal (exact
arithmetic; `Machine.isEqual` rounds the operations). -/
def isEqual (lhs rhs : ℚ) : Bool :=
  decide (|lhs - rhs| ≤ EPSILON_F * |lhs + rhs|)

/-- A counted loop `for (int i = 0; i < n; ++i) s = body(i, s);`. -/
def forRange {σ : Type} (n : Nat) (body : Nat → σ → σ) (s : σ) : σ :=
  (List.range n).foldl (fun acc i => body i acc) s

/-! ## Binary32 arithmetic -/

/-- Rounding of a rational to the nearest integer, ties to the even one. -/
def roundEven (x : ℚ) : Int :=
  if x - ⌊x⌋ < 1 / 2 then ⌊x⌋
  else if 1 / 2 < x - ⌊x⌋ then ⌊x⌋ + 1
  else if ⌊x⌋ % 2 = 0 then ⌊x⌋ else ⌊x⌋ + 1

/-- The exponent `⌊log₂ n⌋` of a positive natural number, by repeated halving
(`fuel` bounds the number of halvings; `fuel = n` is enough). -/
def log2Floor : Nat → Nat → Nat
  | 0, _ => 0
  | fuel + 1, n => if n < 2 then 0 else log2Floor fuel (n / 2) + 1

/-- The exponent of the binade of a non-negative `x` in binary32: `⌊log₂ x⌋`,
and `-126` for the subnormal values and zero. -/
def binadeExponent (x : ℚ) : Int :=
  max ((log2Floor ⌊x * 2 ^ 149⌋.toNat ⌊x * 2 ^ 149⌋.toNat : Int) - 149) (-126)

/-- The spacing of the binary32 values in the binade of a non-negative `x`:
`2^(e-23)` with `e` the exponent of the binade (24 significant bits). -/
def quantum (x : ℚ) : ℚ := 2 ^ (binadeExponent x - 23)

/-- Rounding of a non-negative rational to binary32. -/
def roundMagnitude (x : ℚ) : ℚ := (roundEven (x / quantum x) : ℚ) * quantum x

/-- The binary32 value nearest to `x`, ties to even (the rounding of every
float operation of the source).  The exponent is not bounded above: a result
of magnitude `2^128` or more stands for an overflow to infinity. -/
def f32 (x : ℚ) : ℚ := if 0 ≤ x then roundMagnitude x else -roundMagnitude (-x)

/-- The result of a float operation whose exact value is `x`, when it is a
finite binary32 value; `none` when the operation overflows. -/
def toFloat (x : ℚ) : Option ℚ := if |f32 x| < 2 ^ 128 then some (f32 x) else none

namespace Machine

/-- The function `lb::isEqual` as the machine evaluates it: the difference,
the sum and the tolerance are each rounded to binary32. -/
def isEqual (lhs rhs : ℚ) : Bool :=
  decide (|f32 (lhs - rhs)| ≤ f32 (EPSILON_F * |f32 (lhs + rhs)|))

end Machine

/-! ## The data model -/

/-- A spectrum (`Eigen::ArrayXf`). -/
abbrev Spectrum := List ℚ

/-- An array of angles or wavelengths (`Eigen::ArrayXf`). -/
abbrev Arrayf := List ℚ

/-- A list of spectra (`std::vector<Spectrum>`). -/
abbrev SpectrumList := List Spectrum

/-- The enumeration `lb::ColorModel`. -/
inductive ColorModel where
  | MONOCHROMATIC_MODEL
  | RGB_MODEL
  | XYZ_MODEL
  | SPECTRAL_MODEL
deriving DecidableEq, Repr

/-- The class `lb::SampleSet`: its data members. -/
structure SampleSet where
  numAngles0 : Nat
  numAngles1 : Nat
  numAngles2 : Nat
  numAngles3 : Nat
  angles0 : Arrayf
  angles1 : Arrayf
  angles2 : Arrayf
  angles3 : Arrayf
  spectra : SpectrumList
  colorModel : ColorModel
  wavelengths : Arrayf
  equalIntervalAngles0 : Bool
  equalIntervalAngles1 : Bool
  equalIntervalAngles2 : Bool
  equalIntervalAngles3 : Bool
  oneSide : Bool
deriving DecidableEq, Repr

namespace SampleSet

/-- Modelled from the spec: the flat position of the sample `(i0,i1,i2,i3)`,
row-major, `((i0·N1+i1)·N2+i2)·N3+i3` (the header `SampleSet.h`, which holds
the accessors, is not among the sources). -/
def index (ss : SampleSet) (i0 i1 i2 i3 : Nat) : Nat :=
  ((i0 * ss.numAngles1 + i1) * ss.numAngles2 + i2) * ss.numAngles3 + i3

/-- Modelled from the spec: `getSpectrum(i0,i1,i2,i3)`, the spectrum stored at
the flat position of `(i0,i1,i2,i3)`. -/
def getSpectrum (ss : SampleSet) (i0 i1 i2 i3 : Nat) : Spectrum :=
  ss.spectra.getD (ss.index i0 i1 i2 i3) []

/-- Modelled from the spec: `setSpectrum(i0,i1,i2,i3,sp)`, which overwrites the
spectrum stored at the flat position of `(i0,i1,i2,i3)`. -/
def setSpectrum (ss : SampleSet) (i0 i1 i2 i3 : Nat) (sp : Spectrum) : SampleSet :=
  { ss with spectra := ss.spectra.set (ss.index i0 i1 i2 i3) sp }

/-- Modelled from the spec: the three-index accessor `getSpectrum(i0,i2,i3)` of
isotropic data, which addresses the sample `(i0,0,i2,i3)`. -/
def getSpectrum3 (ss : SampleSet) (i0 i2 i3 : Nat) : Spectrum :=
  ss.getSpectrum i0 0 i2 i3

/-- Modelled from the spec: the three-index mutator `setSpectrum(i0,i2,i3,sp)`
of isotropic data, which addresses the sample `(i0,0,i2,i3)`. -/
def setSpectrum3 (ss : SampleSet) (i0 i2 i3 : Nat) (sp : Spectrum) : SampleSet :=
  ss.setSpectrum i0 0 i2 i3 sp

/-- Modelled from the spec: `getAngle0(i)` is `axis0[i]`. -/
def getAngle0 (ss : SampleSet) (i : Nat) : ℚ := ss.angles0.getD i 0

/-- Modelled from the spec: `getAngle1(i)` is `axis1[i]`. -/
def getAngle1 (ss : SampleSet) (i : Nat) : ℚ := ss.angles1.getD i 0

/-- Modelled from the spec: `getAngle2(i)` is `axis2[i]`. -/
def getAngle2 (ss : SampleSet) (i : Nat) : ℚ := ss.angles2.getD i 0

/-- Modelled from the spec: `getAngle3(i)` is `axis3[i]`. -/
def getAngle3 (ss : SampleSet) (i : Nat) : ℚ := ss.angles3.getD i 0

/-- Modelled from the spec: `setAngle3(i, value)` writes `axis3[i]`. -/
def setAngle3 (ss : SampleSet) (i : Nat) (v : ℚ) : SampleSet :=
  { ss with angles3 := ss.angles3.set i v }

/-- Modelled from the spec: `getNumWavelengths()`, the size `W` of the
wavelength vector. -/
def getNumWavelengths (ss : SampleSet) : Nat := ss.wavelengths.length

/-- Modelled from the spec: `getWavelength(i)` reads the wavelength vector. -/
def getWavelength (ss : SampleSet) (i : Nat) : ℚ := ss.wavelengths.getD i 0

/-- Modelled from the spec: `setWavelength(i, wl)` writes the wavelength
vector. -/
def setWavelength (ss : SampleSet) (i : Nat) (wl : ℚ) : SampleSet :=
  { ss with wavelengths := ss.wavelengths.set i wl }

/-- Modelled from the spec: `isIsotropic()` is true iff `N1 == 1`. -/
def isIsotropic (ss : SampleSet) : Bool := ss.numAngles1 == 1

/-- The index `(i0,i1,i2,i3)` lies inside the four axis sizes. -/
def InRange (ss : SampleSet) (i0 i1 i2 i3 : Nat) : Prop :=
  i0 < ss.numAngles0 ∧ i1 < ss.numAngles1 ∧ i2 < ss.numAngles2 ∧ i3 < ss.numAngles3

/-- The size invariants of the data model: the spectra array has
`N0·N1·N2·N3` entries, every axis has its declared size and every spectrum has
the length of the wavelength vector. -/
def Valid (ss : SampleSet) : Prop :=
  ss.spectra.length = ss.numAngles0 * ss.numAngles1 * ss.numAngles2 * ss.numAngles3 ∧
  ss.angles0.length = ss.numAngles0 ∧
  ss.angles1.length = ss.numAngles1 ∧
  ss.angles2.length = ss.numAngles2 ∧
  ss.angles3.length = ss.numAngles3 ∧
  ∀ sp ∈ ss.spectra, sp.length = ss.wavelengths.length

instance (ss : SampleSet) (i0 i1 i2 i3 : Nat) : Decidable (ss.InRange i0 i1 i2 i3) := by
  unfold InRange; infer_instance

instance (ss : SampleSet) : Decidable ss.Valid := by
  unfold Valid; infer_instance

end SampleSet

/-! ## SampleSet.cpp -/

/-- The call `v.resize(n)` of a `std::vector`: the first elements are kept and
the vector is padded with value-initialised elements `d`. -/
def resizeVector {α : Type} (v : List α) (n : Nat) (d : α) : List α :=
  v.take n ++ List.replicate (n - v.length) d

/-- The call `a.resize(n)` of an Eigen array: nothing happens when the size is
already `n`; otherwise the array is reallocated and its contents are
unspecified, which is rendered here as zeros. -/
def resizeArrayf (a : Arrayf) (n : Nat) : Arrayf :=
  if a.length = n then a else List.replicate n 0

namespace SampleSet

/-- The method `SampleSet::resizeAngles`, with the number of samples as an
unbounded integer (`Machine.resizeAngles` computes it in `int`). -/
def resizeAngles (ss : SampleSet) (numAngles0 numAngles1 numAngles2 numAngles3 : Nat) :
    SampleSet :=
  let numSamples := numAngles0 * numAngles1 * numAngles2 * numAngles3
  { ss with
    numAngles0 := numAngles0, numAngles1 := numAngles1,
    numAngles2 := numAngles2, numAngles3 := numAngles3,
    spectra := resizeVector ss.spectra numSamples [],
    angles0 := resizeArrayf ss.angles0 numAngles0,
    angles1 := resizeArrayf ss.angles1 numAngles1,
    angles2 := resizeArrayf ss.angles2 numAngles2,
    angles3 := resizeArrayf ss.angles3 numAngles3 }

/-- The method `SampleSet::resizeWavelengths`: every spectrum is replaced by a
fresh spectrum of the new size (unspecified contents, rendered as zeros).  The
number of samples is an unbounded integer (`Machine.resizeWavelengths`
computes it in `int`). -/
def resizeWavelengths (ss : SampleSet) (numWavelengths : Nat) : SampleSet :=
  let numSamples := ss.numAngles0 * ss.numAngles1 * ss.numAngles2 * ss.numAngles3
  let s1 := forRange numSamples
    (fun i s => { s with spectra := s.spectra.set i (List.replicate numWavelengths 0) }) ss
  { s1 with wavelengths := resizeArrayf s1.wavelengths numWavelengths }

/-- The members of a `SampleSet` before the body of the constructor runs. -/
def blank (colorModel : ColorModel) : SampleSet :=
  { numAngles0 := 0, numAngles1 := 0, numAngles2 := 0, numAngles3 := 0,
    angles0 := [], angles1 := [], angles2 := [], angles3 := [],
    spectra := [], colorModel := colorModel, wavelengths := [],
    equalIntervalAngles0 := false, equalIntervalAngles1 := false,
    equalIntervalAngles2 := false, equalIntervalAngles3 := false, oneSide := false }

/-- The constructor `SampleSet::SampleSet`, with unbounded integers
(`Machine.create` computes the number of samples in `int`). -/
def create (numAngles0 numAngles1 numAngles2 numAngles3 : Nat) (colorModel : ColorModel)
    (numWavelengths : Nat) : SampleSet :=
  let s1 := (blank colorModel).resizeAngles numAngles0 numAngles1 numAngles2 numAngles3
  let s2 := { s1 with colorModel := colorModel }
  if colorModel = ColorModel.SPECTRAL_MODEL then
    s2.resizeWavelengths numWavelengths
  else if colorModel = ColorModel.MONOCHROMATIC_MODEL then
    { s2.resizeWavelengths 1 with wavelengths := List.replicate 1 0 }
  else
    { s2.resizeWavelengths 3 with wavelengths := List.replicate 3 0 }

/-- The colour-model rule of the data model: `W = 1` for monochromatic data and
`W = 3` for RGB and XYZ data. -/
def ColorOk (ss : SampleSet) : Prop :=
  (ss.colorModel = ColorModel.MONOCHROMATIC_MODEL → ss.wavelengths.length = 1) ∧
  (ss.colorModel = ColorModel.RGB_MODEL → ss.wavelengths.length = 3) ∧
  (ss.colorModel = ColorModel.XYZ_MODEL → ss.wavelengths.length = 3)

instance (ss : SampleSet) : Decidable ss.ColorOk := by
  unfold ColorOk; infer_instance

end SampleSet

namespace Machine

/-- The value of an `int` expression whose exact value is `x`: the
two's-complement wrap-around to 32 bits. -/
def toInt32 (x : Int) : Int := (x + 2147483648) % 4294967296 - 2147483648

/-- The `int` product `numAngles0 * numAngles1 * numAngles2 * numAngles3` of
`SampleSet.cpp`, evaluated from left to right in 32-bit arithmetic. -/
def numSamples (numAngles0 numAngles1 numAngles2 numAngles3 : Nat) : Int :=
  toInt32 (toInt32 (toInt32 ((numAngles0 : Int) * numAngles1) * numAngles2) * numAngles3)

/-- The method `SampleSet::resizeAngles` with the sample count computed in
`int`: a negative count makes `spectra_.resize(numSamples)` throw, which is
rendered as `none`. -/
def resizeAngles (ss : SampleSet) (numAngles0 numAngles1 numAngles2 numAngles3 : Nat) :
    Option SampleSet :=
  let numSamples := numSamples numAngles0 numAngles1 numAngles2 numAngles3
  if numSamples < 0 then none
  else some { ss with
    numAngles0 := numAngles0, numAngles1 := numAngles1,
    numAngles2 := numAngles2, numAngles3 := numAngles3,
    spectra := resizeVector ss.spectra numSamples.toNat [],
    angles0 := resizeArrayf ss.angles0 numAngles0,
    angles1 := resizeArrayf ss.angles1 numAngles1,
    angles2 := resizeArrayf ss.angles2 numAngles2,
    angles3 := resizeArrayf ss.angles3 numAngles3 }

/-- The method `SampleSet::resizeWavelengths` with the sample count computed in
`int` (the loop does not run when the count is negative). -/
def resizeWavelengths (ss : SampleSet) (numWavelengths : Nat) : SampleSet :=
  let numSamples := numSamples ss.numAngles0 ss.numAngles1 ss.numAngles2 ss.numAngles3
  let s1 := forRange numSamples.toNat
    (fun i s => { s with spectra := s.spectra.set i (List.replicate numWavelengths 0) }) ss
  { s1 with wavelengths := resizeArrayf s1.wavelengths numWavelengths }

/-- The constructor `SampleSet::SampleSet` with the sample counts computed in
`int`. -/
def create (numAngles0 numAngles1 numAngles2 numAngles3 : Nat) (colorModel : ColorModel)
    (numWavelengths : Nat) : Option SampleSet :=
  (resizeAngles (SampleSet.blank colorModel) numAngles0 numAngles1 numAngles2 numAngles3).map
    fun s1 =>
      let s2 := { s1 with colorModel := colorModel }
      if colorModel = ColorModel.SPECTRAL_MODEL then
        resizeWavelengths s2 numWavelengths
      else if colorModel = ColorModel.MONOCHROMATIC_MODEL then
        { resizeWavelengths s2 1 with wavelengths := List.replicate 1 0 }
      else
        { resizeWavelengths s2 3 with wavelengths := List.replicate 3 0 }

end Machine

/-! ## Processor.cpp -/

/-- The in-place scalar division `sp /= c` of a spectrum. -/
def Spectrum.divScalar (sp : Spectrum) (c : ℚ) : Spectrum := sp.map (fun x => x / c)

/-- The function `lb::divideByCosineOutTheta`.  The parameter `cosOutTheta`
stands for `outDir.dot(Vec3(0,0,1))` with `outDir` obtained from
`brdf->getInOutDirection(i0,i1,i2,i3)`: the direction is a function of the
four axis values only, which the loop never writes (the coordinate systems are
not among the sources). -/
def divideByCosineOutTheta (cosOutTheta : Nat → Nat → Nat → Nat → ℚ)
    (ss : SampleSet) : SampleSet :=
  forRange ss.numAngles0 (fun i0 =>
  forRange ss.numAngles1 (fun i1 =>
  forRange ss.numAngles2 (fun i2 =>
  forRange ss.numAngles3 (fun i3 s =>
    if cosOutTheta i0 i1 i2 i3 ≤ 0 ∧ 0 < i2 then
      -- `sp = ss->getSpectrum(i0, i1, i2 - 1, i3)` assigns through the reference
      let s1 := s.setSpectrum i0 i1 i2 i3 (s.getSpectrum i0 i1 (i2 - 1) i3)
      s1.setSpectrum i0 i1 i2 i3
        (Spectrum.divScalar (s1.getSpectrum i0 i1 i2 i3) (cosOutTheta i0 i1 (i2 - 1) i3))
    else
      s.setSpectrum i0 i1 i2 i3
        (Spectrum.divScalar (s.getSpectrum i0 i1 i2 i3) (cosOutTheta i0 i1 i2 i3)))))) ss

/-- Modelled from the spec: `SphericalCoordinateSystem::MAX_ANGLE1`, which is
`2π` (the coordinate systems are not among the sources). -/
def MAX_ANGLE1 : ℚ := 2 * PI_F

/-- Modelled from the spec: `SphericalCoordinateSystem::MAX_ANGLE3`, which is
`2π` (the coordinate systems are not among the sources). -/
def MAX_ANGLE3 : ℚ := 2 * PI_F

/-! ### fillSymmetricBrdf -/

/-- The test `angleOmitted` of `lb::fillSymmetricBrdf`. -/
def angleOmitted (outPhi : ℚ) : Bool :=
  decide (outPhi ≠ 0) && !isEqual outPhi PI_F && !isEqual outPhi (2 * PI_F)

/-- The first loop of `lb::fillSymmetricBrdf`, which collects `filledAngles`
(exact arithmetic; `Machine.collectFilledAngles` rounds the difference). -/
def collectFilledAngles (ss : SampleSet) : List ℚ :=
  forRange ss.numAngles3 (fun i filledAngles =>
    let outPhi := ss.getAngle3 i
    if angleOmitted outPhi then filledAngles ++ [MAX_ANGLE3 - outPhi] else filledAngles) []

/-- The test `outPhiEqual` of the search loop of `lb::fillSymmetricBrdf` (exact
arithmetic; `Machine.outPhiEqual` rounds the difference and the comparison). -/
def outPhiEqual (origOutPhi outPhi : ℚ) : Bool :=
  decide (origOutPhi = outPhi) || isEqual origOutPhi (MAX_ANGLE3 - outPhi)

/-- The search loop `for (origIndex = 0; origIndex < N3; ++origIndex)` of
`lb::fillSymmetricBrdf`, resumed at `origIndex` with `remaining` iterations
left; the result is the value of `origIndex` when the loop is left. -/
def searchOrigIndex (ss : SampleSet) (outPhi : ℚ) : Nat → Nat → Nat
  | 0, origIndex => origIndex
  | remaining + 1, origIndex =>
    if outPhiEqual (ss.getAngle3 origIndex) outPhi then origIndex
    else searchOrigIndex ss outPhi remaining (origIndex + 1)

/-- The value of `origIndex` after the search loop of `lb::fillSymmetricBrdf`
(it is `N3` when no original angle matches). -/
def findOrigIndex (ss : SampleSet) (outPhi : ℚ) : Nat :=
  searchOrigIndex ss outPhi ss.numAngles3 0

namespace Machine

/-- The test `angleOmitted` of `lb::fillSymmetricBrdf` as the machine evaluates
it (`2.0f * PI_F` is exact). -/
def angleOmitted (outPhi : ℚ) : Bool :=
  decide (outPhi ≠ 0) && !isEqual outPhi PI_F && !isEqual outPhi (2 * PI_F)

/-- The first loop of `lb::fillSymmetricBrdf` as the machine evaluates it: the
mirror `MAX_ANGLE3 - outPhi` that is stored is a float, the rounded
difference. -/
def collectFilledAngles (ss : SampleSet) : List ℚ :=
  forRange ss.numAngles3 (fun i filledAngles =>
    let outPhi := ss.getAngle3 i
    if angleOmitted outPhi then filledAngles ++ [f32 (MAX_ANGLE3 - outPhi)]
    else filledAngles) []

/-- The test `outPhiEqual` of the search loop of `lb::fillSymmetricBrdf` as the
machine evaluates it: the difference `MAX_ANGLE3 - outPhi` is rounded before
it is compared. -/
def outPhiEqual (origOutPhi outPhi : ℚ) : Bool :=
  decide (origOutPhi = outPhi) || isEqual origOutPhi (f32 (MAX_ANGLE3 - outPhi))

/-- The search loop of `lb::fillSymmetricBrdf` with the machine's test. -/
def searchOrigIndex (ss : SampleSet) (outPhi : ℚ) : Nat → Nat → Nat
  | 0, origIndex => origIndex
  | remaining + 1, origIndex =>
    if outPhiEqual (ss.getAngle3 origIndex) outPhi then origIndex
    else searchOrigIndex ss outPhi remaining (origIndex + 1)

/-- The value of `origIndex` after the search loop of `lb::fillSymmetricBrdf`
on the machine (it is `N3` when no original angle matches). -/
def findOrigIndex (ss : SampleSet) (outPhi : ℚ) : Nat :=
  searchOrigIndex ss outPhi ss.numAngles3 0

end Machine

/-- The call `std::sort(data, data + size)` on an array of angles. -/
def sortAngles (a : Arrayf) : Arrayf := a.insertionSort (fun x y => x ≤ y)

/-- The part of `lb::fillSymmetricBrdf` that allocates the result and sets its
angles and wavelengths (up to the four nested loops).  The expression
`new SphericalCoordinatesBrdf(n0, n1, n2, n3, colorModel, numWavelengths)` is
rendered as the construction of its sample set with these arguments (the BRDF
classes are not among the sources). -/
def fillSymmetricBrdfFrame (ss : SampleSet) : SampleSet :=
  let filledAngles := collectFilledAngles ss
  let filledSs := SampleSet.create ss.numAngles0 ss.numAngles1 ss.numAngles2
    (ss.numAngles3 + filledAngles.length) ss.colorModel ss.getNumWavelengths
  -- Set angles.
  let s1 := { filledSs with angles0 := ss.angles0, angles1 := ss.angles1, angles2 := ss.angles2 }
  let s2 := forRange s1.numAngles3 (fun i s =>
    if i < ss.numAngles3 then s.setAngle3 i (ss.getAngle3 i)
    else s.setAngle3 i (filledAngles.getD (i - ss.numAngles3) 0)) s1
  let s3 := { s2 with angles3 := sortAngles s2.angles3 }
  -- Set wavelengths.
  forRange s3.getNumWavelengths (fun i s => s.setWavelength i (ss.getWavelength i)) s3

/-- The function `lb::fillSymmetricBrdf`, on the sample set of the spherical
BRDF (`getNumOutPhi()` is `N3`, `getOutPhi(i)` is `axis3[i]`).  The source BRDF
`ss` is only read. -/
def fillSymmetricBrdf (ss : SampleSet) : SampleSet :=
  let filled := fillSymmetricBrdfFrame ss
  forRange filled.numAngles0 (fun inThIndex =>
  forRange filled.numAngles1 (fun inPhIndex =>
  forRange filled.numAngles2 (fun outThIndex =>
  forRange filled.numAngles3 (fun outPhIndex s =>
    let outPhi := s.getAngle3 outPhIndex
    -- Find the corresponding index.
    let origIndex := findOrigIndex ss outPhi
    s.setSpectrum inThIndex inPhIndex outThIndex outPhIndex
      (ss.getSpectrum inThIndex inPhIndex outThIndex origIndex))))) filled

/-! ### fillIncomingPolar0Data -/

/-- Modelled from the spec: the closed set of parametrizations of a BRDF view
(the BRDF classes are not among the sources). -/
inductive BrdfKind where
  | Spherical
  | SpecularCentered
  | HalfVector
deriving DecidableEq, Repr

/-- Modelled from the spec: the test `dynamic_cast<SphericalCoordinatesBrdf*>(brdf)`
succeeds exactly for a Spherical view. -/
def BrdfKind.isSphericalCoordinatesBrdf : BrdfKind → Bool
  | BrdfKind.Spherical => true
  | _ => false

/-- Modelled from the spec: the test `dynamic_cast<SpecularCoordinatesBrdf*>(brdf)`
succeeds exactly for a SpecularCentered view. -/
def BrdfKind.isSpecularCoordinatesBrdf : BrdfKind → Bool
  | BrdfKind.SpecularCentered => true
  | _ => false

/-- The guard of the early return of `lb::fillIncomingPolar0Data`. -/
def fillIncomingPolar0Guard (kind : BrdfKind) (ss : SampleSet) : Bool :=
  (!kind.isSphericalCoordinatesBrdf || !kind.isSpecularCoordinatesBrdf) &&
  !ss.isIsotropic &&
  decide (ss.getAngle0 0 = 0)

/-- The element-wise sum `sumSp += sp` of two spectra. -/
def Spectrum.add (a b : Spectrum) : Spectrum := List.zipWith (fun x y => x + y) a b

/-- The state of the summation loop of `lb::fillIncomingPolar0Data`. -/
structure SumState where
  numSamples : Nat
  sumSp : Spectrum
  stopped : Bool
deriving DecidableEq, Repr

/-- The summation loop of `lb::fillIncomingPolar0Data` for one `i2`; `stopped`
records that the `break` was taken. -/
def sumLoop (ss : SampleSet) (i2 : Nat) : SumState :=
  forRange ss.numAngles3 (fun i3 st =>
    if st.stopped then st
    else if i3 = ss.numAngles3 - 1 ∧
        isEqual (ss.getAngle3 0) (ss.getAngle3 (ss.numAngles3 - 1)) = true ∧
        1 < ss.numAngles3 then
      { st with stopped := true }
    else
      { st with sumSp := Spectrum.add st.sumSp (ss.getSpectrum3 0 i2 i3),
                numSamples := st.numSamples + 1 })
    { numSamples := 0, sumSp := List.replicate ss.getNumWavelengths 0, stopped := false }

/-- The averaging loops of `lb::fillIncomingPolar0Data` (the code after the
guard). -/
def fillIncomingPolar0Average (ss : SampleSet) : SampleSet :=
  forRange ss.numAngles2 (fun i2 s =>
    let st := sumLoop s i2
    let avgSp := Spectrum.divScalar st.sumSp (st.numSamples : ℚ)
    forRange s.numAngles3 (fun i3 t => t.setSpectrum3 0 i2 i3 avgSp) s) ss

/-- The function `lb::fillIncomingPolar0Data`; `kind` is the dynamic type of
the BRDF. -/
def fillIncomingPolar0Data (kind : BrdfKind) (ss : SampleSet) : SampleSet :=
  if fillIncomingPolar0Guard kind ss then ss else fillIncomingPolar0Average ss

/-! ### copySpectraFromPhiOfZeroTo2PI -/

/-- The condition of the first `if` of `lb::copySpectraFromPhiOfZeroTo2PI`. -/
def periodicAxis1 (ss : SampleSet) : Prop :=
  2 ≤ ss.numAngles1 ∧ ss.getAngle1 0 = 0 ∧ MAX_ANGLE1 ≤ ss.getAngle1 (ss.numAngles1 - 1)

/-- The condition of the second `if` of `lb::copySpectraFromPhiOfZeroTo2PI`. -/
def periodicAxis3 (ss : SampleSet) : Prop :=
  2 ≤ ss.numAngles3 ∧ ss.getAngle3 0 = 0 ∧ MAX_ANGLE3 ≤ ss.getAngle3 (ss.numAngles3 - 1)

instance (ss : SampleSet) : Decidable (periodicAxis1 ss) := by
  unfold periodicAxis1; infer_instance

instance (ss : SampleSet) : Decidable (periodicAxis3 ss) := by
  unfold periodicAxis3; infer_instance

/-- The loops of the first `if` of `lb::copySpectraFromPhiOfZeroTo2PI`. -/
def copyAxis1 (ss : SampleSet) : SampleSet :=
  forRange ss.numAngles0 (fun i0 =>
  forRange ss.numAngles2 (fun i2 =>
  forRange ss.numAngles3 (fun i3 s =>
    s.setSpectrum i0 (ss.numAngles1 - 1) i2 i3 (s.getSpectrum i0 0 i2 i3)))) ss

/-- The loops of the second `if` of `lb::copySpectraFromPhiOfZeroTo2PI`. -/
def copyAxis3 (ss : SampleSet) : SampleSet :=
  forRange ss.numAngles0 (fun i0 =>
  forRange ss.numAngles1 (fun i1 =>
  forRange ss.numAngles2 (fun i2 s =>
    s.setSpectrum i0 i1 i2 (ss.numAngles3 - 1) (s.getSpectrum i0 i1 i2 0)))) ss

/-- The function `lb::copySpectraFromPhiOfZeroTo2PI`. -/
def copySpectraFromPhiOfZeroTo2PI (ss : SampleSet) : SampleSet :=
  let s1 := if periodicAxis1 ss then copyAxis1 ss else ss
  if periodicAxis3 s1 then copyAxis3 s1 else s1

/-! ## Vocabulary of the proofs -/

namespace SampleSet

/-- The spectra array has `N0·N1·N2·N3` entries. -/
def SizeOk (s : SampleSet) : Prop :=
  s.spectra.length = s.numAngles0 * s.numAngles1 * s.numAngles2 * s.numAngles3

/-- The sample sets `s` and `t` differ at most in the contents of their
spectra: sizes, axes, colour model, wavelengths and flags agree and the
spectra arrays have the same length. -/
def SameFrame (s t : SampleSet) : Prop :=
  t = { s with spectra := t.spectra } ∧ t.spectra.length = s.spectra.length

/-- The sample set `t` arises from `s` by overwriting the samples selected by
`W` with the values `g`; every other sample inside the bounds, and
everything except the spectra, is as in `s`. -/
def Upd (s t : SampleSet) (W : Nat → Nat → Nat → Nat → Prop)
    (g : Nat → Nat → Nat → Nat → Spectrum) : Prop :=
  SameFrame s t ∧ ∀ a b c d, s.InRange a b c d →
    (W a b c d → t.getSpectrum a b c d = g a b c d) ∧
    (¬ W a b c d → t.getSpectrum a b c d = s.getSpectrum a b c d)

end SampleSet

/-- The loop counters `(a,b,c,d)` come before `(i0,i1,i2,i3)` in the order in
which four nested counted loops visit them. -/
def LexBefore (i0 i1 i2 i3 a b c d : Nat) : Prop :=
  a < i0 ∨ (a = i0 ∧ (b < i1 ∨ (b = i1 ∧ (c < i2 ∨ (c = i2 ∧ d < i3)))))

/-- The sample `(q0,q1,q2,q3)` has been written by four nested loops with
bounds `n0..n3`, which write the sample `(p0,p1,p2,p3)` of their counters,
when the counters have reached `(i0,i1,i2,i3)`. -/
def Visited (n0 n1 n2 n3 : Nat) (p0 p1 p2 p3 : Nat → Nat → Nat → Nat → Nat)
    (i0 i1 i2 i3 q0 q1 q2 q3 : Nat) : Prop :=
  ∃ a b c d, a < n0 ∧ b < n1 ∧ c < n2 ∧ d < n3 ∧ LexBefore i0 i1 i2 i3 a b c d ∧
    p0 a b c d = q0 ∧ p1 a b c d = q1 ∧ p2 a b c d = q2 ∧ p3 a b c d = q3

/-! ### Concrete inputs -/

/-- Scenario 4 of the specification: one incoming direction, two outgoing
polar angles, with spectra `s₀ = (1)` at `i2 = 0` and `s₁ = (5)` at `i2 = 1`. -/
def grazingSamples : SampleSet :=
  { numAngles0 := 1, numAngles1 := 1, numAngles2 := 2, numAngles3 := 1,
    angles0 := [0], angles1 := [0], angles2 := [1, 2], angles3 := [0],
    spectra := [[1], [5]],
    colorModel := ColorModel.MONOCHROMATIC_MODEL, wavelengths := [0],
    equalIntervalAngles0 := false, equalIntervalAngles1 := false,
    equalIntervalAngles2 := false, equalIntervalAngles3 := false, oneSide := false }

/-- Scenario 4 of the specification: outgoing cosine `0.5` at `i2 = 0` and
`-0.01` at `i2 = 1`. -/
def grazingCosine (_i0 _i1 i2 _i3 : Nat) : ℚ := if i2 = 0 then 1 / 2 else -1 / 100

instance (s : SampleSet) : Decidable s.SizeOk := by
  unfold SampleSet.SizeOk; infer_instance

/-- Scenario 2 of the specification (periodic closure), with a periodic axis 1
added: axis 1 is `[0, 2π]`, axis 3 is `[0, π/2, π, 3π/2, 2π]`, every spectrum
at `i3 = 0` is `(1,2,3)` and every other spectrum is zero. -/
def periodicSamples : SampleSet :=
  { numAngles0 := 1, numAngles1 := 2, numAngles2 := 1, numAngles3 := 5,
    angles0 := [0], angles1 := [0, 2 * PI_F], angles2 := [0],
    angles3 := [0, PI_F / 2, PI_F, 3 * PI_F / 2, 2 * PI_F],
    spectra := [[1, 2, 3], [0, 0, 0], [0, 0, 0], [0, 0, 0], [0, 0, 0],
                [1, 2, 3], [0, 0, 0], [0, 0, 0], [0, 0, 0], [0, 0, 0]],
    colorModel := ColorModel.RGB_MODEL, wavelengths := [0, 0, 0],
    equalIntervalAngles0 := false, equalIntervalAngles1 := false,
    equalIntervalAngles2 := false, equalIntervalAngles3 := false, oneSide := false }

/-- A sample set whose axes 1 and 3 are both `[0, 2π]`, with four pairwise
distinct spectra. -/
def periodicBoth : SampleSet :=
  { numAngles0 := 1, numAngles1 := 2, numAngles2 := 1, numAngles3 := 2,
    angles0 := [0], angles1 := [0, 2 * PI_F], angles2 := [0], angles3 := [0, 2 * PI_F],
    spectra := [[1], [2], [3], [4]],
    colorModel := ColorModel.MONOCHROMATIC_MODEL, wavelengths := [0],
    equalIntervalAngles0 := false, equalIntervalAngles1 := false,
    equalIntervalAngles2 := false, equalIntervalAngles3 := false, oneSide := false }

/-- An isotropic sample set (`N1 = 1`) with two outgoing azimuths and the
distinct spectra `(1)` and `(3)`. -/
def polarSamples : SampleSet :=
  { numAngles0 := 1, numAngles1 := 1, numAngles2 := 1, numAngles3 := 2,
    angles0 := [0], angles1 := [0], angles2 := [0], angles3 := [0, 1],
    spectra := [[1], [3]],
    colorModel := ColorModel.MONOCHROMATIC_MODEL, wavelengths := [0],
    equalIntervalAngles0 := false, equalIntervalAngles1 := false,
    equalIntervalAngles2 := false, equalIntervalAngles3 := false, oneSide := false }

/-- An anisotropic sample set (`N1 = 2`) with `axis0[0] = 0` and four distinct
spectra. -/
def polarAnisotropicSamples : SampleSet :=
  { numAngles0 := 1, numAngles1 := 2, numAngles2 := 1, numAngles3 := 2,
    angles0 := [0], angles1 := [0, 1], angles2 := [0], angles3 := [0, 1],
    spectra := [[1], [3], [5], [7]],
    colorModel := ColorModel.MONOCHROMATIC_MODEL, wavelengths := [0],
    equalIntervalAngles0 := false, equalIntervalAngles1 := false,
    equalIntervalAngles2 := false, equalIntervalAngles3 := false, oneSide := false }

/-- The number of samples that enter the average of `lb::fillIncomingPolar0Data`:
the last sample of axis 3 is left out when `N3 > 1` and the first and last
angle of axis 3 are nearly equal. -/
def numAveraged3 (ss : SampleSet) : Nat :=
  if 1 < ss.numAngles3 ∧ isEqual (ss.getAngle3 0) (ss.getAngle3 (ss.numAngles3 - 1)) = true
  then ss.numAngles3 - 1 else ss.numAngles3

/-- The average over axis 3, component by component, of the spectra at
`(0, i2, ·)`: the sum of the first `numAveraged3` samples divided by their
number. -/
def averageOverAxis3 (ss : SampleSet) (i2 : Nat) : Spectrum :=
  (List.range ss.getNumWavelengths).map (fun w =>
    ((List.range (numAveraged3 ss)).map (fun j => (ss.getSpectrum3 0 i2 j).getD w 0)).sum /
      (numAveraged3 ss : ℚ))

/-- The average over axis 1 in the words of the specification, component by
component: the sum of the spectra at `(0, i1, i2, i3)` for `i1 < n` divided by
`n`, where `n` is the number of axis-1 samples that are counted. -/
def averageOverAxis1 (ss : SampleSet) (n i2 i3 : Nat) : Spectrum :=
  (List.range ss.getNumWavelengths).map (fun w =>
    ((List.range n).map (fun i1 => (ss.getSpectrum 0 i1 i2 i3).getD w 0)).sum / (n : ℚ))

/-- An isotropic sample set whose axis 3 ends with the angle it starts with,
so that the last of its three samples is left out of the average. -/
def polarClosedSamples : SampleSet :=
  { numAngles0 := 1, numAngles1 := 1, numAngles2 := 1, numAngles3 := 3,
    angles0 := [0], angles1 := [0], angles2 := [0], angles3 := [1, 2, 1],
    spectra := [[1], [3], [100]],
    colorModel := ColorModel.MONOCHROMATIC_MODEL, wavelengths := [0],
    equalIntervalAngles0 := false, equalIntervalAngles1 := false,
    equalIntervalAngles2 := false, equalIntervalAngles3 := false, oneSide := false }

/-- A sample set with one sample on each of the axes 0 to 2, the given axis 3
and the given spectra along axis 3 (monochromatic data). -/
def azimuthSamples (angles3 : Arrayf) (spectra : SpectrumList) : SampleSet :=
  { numAngles0 := 1, numAngles1 := 1, numAngles2 := 1, numAngles3 := angles3.length,
    angles0 := [0], angles1 := [0], angles2 := [0], angles3 := angles3,
    spectra := spectra,
    colorModel := ColorModel.MONOCHROMATIC_MODEL, wavelengths := [0],
    equalIntervalAngles0 := false, equalIntervalAngles1 := false,
    equalIntervalAngles2 := false, equalIntervalAngles3 := false, oneSide := false }

/-- Scenario 1 of the specification: axis 3 is `[0, π/4, π/2, π]`, with the
spectra `(1), (2), (3), (4)`. -/
def symmetrySamples : SampleSet :=
  azimuthSamples [0, PI_F / 4, PI_F / 2, PI_F] [[1], [2], [3], [4]]

/-- A single outgoing azimuth one unit in the last place above the float `π`. -/
def nearPiSamples : SampleSet :=
  azimuthSamples [PI_F + 1 / 4194304] [[1]]

/-- An axis 3 that already contains an angle and its mirror:
`[0, π/2, π, 3π/2]`, with pairwise distinct spectra. -/
def mirroredSamples : SampleSet :=
  azimuthSamples [0, PI_F / 2, PI_F, 3 * PI_F / 2] [[1], [2], [3], [4]]

/-- An axis 3 that contains an angle and its mirror, both exact floats:
`[1, 2π − 1]`, with distinct spectra. -/
def mirroredExactSamples : SampleSet :=
  azimuthSamples [1, 2 * PI_F - 1] [[1], [2]]

/-- Three outgoing azimuths in `[0, π]`, all floats: `0`, `0.1f` and `π`, with
the spectra `(1), (2), (3)`. -/
def tenthSamples : SampleSet :=
  azimuthSamples [0, 13421773 / 134217728, PI_F] [[1], [2], [3]]

/-- The monochromatic sample set with one sample that the constructor
returns. -/
def singleSample : SampleSet :=
  { numAngles0 := 1, numAngles1 := 1, numAngles2 := 1, numAngles3 := 1,
    angles0 := [0], angles1 := [0], angles2 := [0], angles3 := [0],
    spectra := [[0]],
    colorModel := ColorModel.MONOCHROMATIC_MODEL, wavelengths := [0],
    equalIntervalAngles0 := false, equalIntervalAngles1 := false,
    equalIntervalAngles2 := false, equalIntervalAngles3 := false, oneSide := false }

/-- The spectrum that `lb::divideByCosineOutTheta` leaves at `(i0,i1,i2,i3)`,
by recursion on `i2`: a sample whose cosine is positive, or which has
`i2 = 0`, is divided by its own cosine; a sample with `i2 > 0` and a cosine
`≤ 0` receives the value already left at `(i0,i1,i2-1,i3)`, divided by the
cosine of that neighbour. -/
def dividedSpectrum (cosOutTheta : Nat → Nat → Nat → Nat → ℚ) (ss : SampleSet)
    (i0 i1 : Nat) : Nat → Nat → Spectrum
  | 0, i3 => Spectrum.divScalar (ss.getSpectrum i0 i1 0 i3) (cosOutTheta i0 i1 0 i3)
  | i2 + 1, i3 =>
    if cosOutTheta i0 i1 (i2 + 1) i3 ≤ 0 then
      Spectrum.divScalar (dividedSpectrum cosOutTheta ss i0 i1 i2 i3) (cosOutTheta i0 i1 i2 i3)
    else
      Spectrum.divScalar (ss.getSpectrum i0 i1 (i2 + 1) i3) (cosOutTheta i0 i1 (i2 + 1) i3)

/-! ## Utility.h and SpectrumUtility.h: indices and intervals -/

/-- The function `lb::clamp`: `max(minValue, min(maxValue, value))`. -/
def clamp {α : Type} [Max α] [Min α] (value minValue maxValue : α) : α :=
  max minValue (min maxValue value)

/-- The loop of `lb::isEqualInterval`, resumed at index `i` with `remaining`
iterations left: it returns `false` at the first element that is not nearly
equal to `interval * i`.  The index is converted to a float and the product is
rounded. -/
def isEqualIntervalLoop (array : Arrayf) (interval : ℚ) : Nat → Nat → Bool
  | 0, _ => true
  | remaining + 1, i =>
    if !Machine.isEqual (array.getD i 0) (f32 (interval * f32 (i : ℚ))) then false
    else isEqualIntervalLoop array interval remaining (i + 1)

/-- The function `lb::isEqualInterval`, in 32-bit float arithmetic: the size
is converted to a float, and the quotient, the products and the comparisons
are rounded to binary32. -/
def isEqualInterval (array : Arrayf) : Bool :=
  if array.length ≤ 1 then false
  else
    let interval := f32 (array.getD (array.length - 1) 0 / f32 ((array.length - 1 : Nat) : ℚ))
    isEqualIntervalLoop array interval array.length 0

/-- The float `interval` of `lb::isEqualInterval`: `array[N-1] / (N-1)`,
rounded. -/
def intervalOf (array : Arrayf) : ℚ :=
  f32 (array.getD (array.length - 1) 0 / f32 ((array.length - 1 : Nat) : ℚ))

/-- The float `interval * i` that `lb::isEqualInterval` compares with
`array[i]`. -/
def intervalMultiple (array : Arrayf) (i : Nat) : ℚ :=
  f32 (intervalOf array * f32 (i : ℚ))

/-- The conversion `static_cast<int>(x)` of a float: the value is truncated
toward zero; the conversion is undefined (`none`) when the truncated value is
not representable in a 32-bit `int`. -/
def floatToInt (x : ℚ) : Option Int :=
  let t : Int := if 0 ≤ x then ⌊x⌋ else ⌈x⌉
  if -2147483648 ≤ t ∧ t ≤ 2147483647 then some t else none

/-- The function `SpectrumUtility::findNearestIndex`, in 32-bit float
arithmetic: the two differences, the quotient, the conversion of
`numWavelengths` and the product are each rounded to binary32.  The result is
`none` when an operation leaves the finite floats (overflow, division by zero)
or the conversion to `int` is undefined.  The constants
`CieData::minWavelength`, `CieData::maxWavelength` and
`CieData::numWavelengths` are parameters (the header `CieData.h` is not among
the sources). -/
def findNearestIndex (minWavelength maxWavelength : ℚ) (numWavelengths : Int)
    (wavelength : ℚ) : Option Int :=
  (toFloat (wavelength - minWavelength)).bind fun d =>
  (toFloat (maxWavelength - minWavelength)).bind fun w =>
  (if w = 0 then none else toFloat (d / w)).bind fun ratio =>
  (toFloat (f32 (numWavelengths : ℚ) * ratio)).bind fun scaled =>
  (floatToInt scaled).map fun index => clamp index 0 (numWavelengths - 1)

namespace SampleSet

/-- The method `SampleSet::updateEqualIntervalAngles` (its log output is left
out). -/
def updateEqualIntervalAngles (ss : SampleSet) : SampleSet :=
  { ss with
    equalIntervalAngles0 := isEqualInterval ss.angles0,
    equalIntervalAngles1 := isEqualInterval ss.angles1,
    equalIntervalAngles2 := isEqualInterval ss.angles2,
    equalIntervalAngles3 := isEqualInterval ss.angles3 }

/-- The method `SampleSet::updateOneSide` (its log output is left out); the
state of the loop is the pair `(contain_0_PI, contain_PI_2PI)`. -/
def updateOneSide (ss : SampleSet) : SampleSet :=
  let c := forRange ss.angles3.length (fun i (c : Bool × Bool) =>
    let angle := ss.angles3.getD i 0
    (if 0 < angle ∧ angle < PI_F then true else c.1,
     if PI_F < angle ∧ angle < 2 * PI_F then true else c.2)) (false, false)
  { ss with oneSide := !c.1 || !c.2 }

/-- The method `SampleSet::updateAngleAttributes`. -/
def updateAngleAttributes (ss : SampleSet) : SampleSet :=
  ss.updateEqualIntervalAngles.updateOneSide

/-- Modelled from the spec: `isEqualIntervalAngles3()` reads the cached
attribute of axis 3. -/
def isEqualIntervalAngles3 (ss : SampleSet) : Bool := ss.equalIntervalAngles3

end SampleSet

/-- The number of channels `W` that the constructor gives a sample set of the
colour model `cm` when `numWavelengths` are requested. -/
def channelCount (cm : ColorModel) (numWavelengths : Nat) : Nat :=
  if cm = ColorModel.SPECTRAL_MODEL then numWavelengths
  else if cm = ColorModel.MONOCHROMATIC_MODEL then 1 else 3

/-! ## Processor.cpp and ReflectanceModelUtility.h: colour conversion and synthesis -/

/-- The function `lb::xyzToSrgb(SampleSet*)` (its log output is left out).
The parameter `convert` stands for the per-spectrum `xyzToSrgb(const Spectrum&)`,
whose definition is not among the sources. -/
def xyzToSrgb (convert : Spectrum → Spectrum) (samples : SampleSet) : SampleSet :=
  if samples.colorModel ≠ ColorModel.XYZ_MODEL then samples
  else
    let s1 :=
      forRange samples.numAngles0 (fun i0 =>
      forRange samples.numAngles1 (fun i1 =>
      forRange samples.numAngles2 (fun i2 =>
      forRange samples.numAngles3 (fun i3 s =>
        s.setSpectrum i0 i1 i2 i3 (convert (s.getSpectrum i0 i1 i2 i3)))))) samples
    { s1 with colorModel := ColorModel.RGB_MODEL }

/-- The function `lb::setupBrdf`, returning its result and the sample set of
the BRDF (its log output is left out).  The parameter `values` stands for
`color * reflectanceModel.getBrdfValue(inDir, outDir)` at the directions of the
sample `(i0,i1,i2,i3)`: the directions are functions of the axis values, which
the loop never writes (the BRDF classes and reflectance models are external). -/
def setupBrdf (values : Nat → Nat → Nat → Nat → Spectrum) (ss : SampleSet) :
    Bool × SampleSet :=
  if ss.getNumWavelengths ≠ 3 then (false, ss)
  else
    (true,
      forRange ss.numAngles0 (fun i0 =>
      forRange ss.numAngles1 (fun i1 =>
      forRange ss.numAngles2 (fun i2 =>
      forRange ss.numAngles3 (fun i3 s =>
        -- `sp = sp.cwiseMin(maxBrdfVal)` with `maxBrdfVal = 10000.0f`
        s.setSpectrum i0 i1 i2 i3 ((values i0 i1 i2 i3).map (fun x => min x 10000)))))) ss)

/-- A sample set in XYZ mode with one sample, the D65 white point
`(0.95047, 1.0, 1.08883)`. -/
def xyzSamples : SampleSet :=
  { numAngles0 := 1, numAngles1 := 1, numAngles2 := 1, numAngles3 := 1,
    angles0 := [0], angles1 := [0], angles2 := [0], angles3 := [0],
    spectra := [[95047 / 100000, 1, 108883 / 100000]],
    colorModel := ColorModel.XYZ_MODEL, wavelengths := [0, 0, 0],
    equalIntervalAngles0 := false, equalIntervalAngles1 := false,
    equalIntervalAngles2 := false, equalIntervalAngles3 := false, oneSide := false }

/-! ## Processor.cpp: fixEnergyConservation -/

/-- The member `maxCoeff()` of a spectrum: its largest coefficient. -/
def Spectrum.maxCoeff (sp : Spectrum) : ℚ := sp.foldl max (sp.headD 0)

/-- The constant `coeff = 0.999546f` of `lb::fixEnergyConservation`: the 32-bit
float nearest to `0.999546`, as an exact rational. -/
def LAMBERTIAN_COEFF : ℚ := 16769599 / 16777216

/-- The body of the loops over `(inThIndex, inPhIndex)` of
`lb::fixEnergyConservation`.  The parameter `computeReflectance` stands for
`integrator.computeReflectance(*brdf, toXyz(inTheta, inPhi))`, a function of
the current state of the BRDF and of the two incoming angles (the integrator
and the coordinate systems are external).  The local table `reflectances`,
which is written and never read, is left out. -/
def fixEnergyConservationSlice (computeReflectance : SampleSet → ℚ → ℚ → Spectrum)
    (inThIndex inPhIndex : Nat) (s : SampleSet) : SampleSet :=
  let sp := computeReflectance s (s.getAngle0 inThIndex) (s.getAngle1 inPhIndex)
  -- Fix samples to conserve energy.
  let maxReflectance := sp.maxCoeff
  if 1 < maxReflectance then
    forRange s.numAngles2 (fun i2 =>
    forRange s.numAngles3 (fun i3 t =>
      t.setSpectrum inThIndex inPhIndex i2 i3
        (Spectrum.divScalar (t.getSpectrum inThIndex inPhIndex i2 i3)
          (maxReflectance / LAMBERTIAN_COEFF)))) s
  else s

/-- The function `lb::fixEnergyConservation`, on the sample set of the
specular-coordinates BRDF (`getNumInTheta()` is `N0`, `getNumInPhi()` is `N1`,
`getInTheta(i)` is `axis0[i]`, `getInPhi(i)` is `axis1[i]`). -/
def fixEnergyConservation (computeReflectance : SampleSet → ℚ → ℚ → Spectrum)
    (ss : SampleSet) : SampleSet :=
  forRange ss.numAngles0 (fun inThIndex =>
  forRange ss.numAngles1 (fun inPhIndex s =>
    fixEnergyConservationSlice computeReflectance inThIndex inPhIndex s)) ss

/-- The state of the BRDF at the time the loops of `lb::fixEnergyConservation`
visit `(i0, i1)`: all rows before `i0` and the entries before `i1` of row `i0`
have been processed. -/
def stateWhenVisited (computeReflectance : SampleSet → ℚ → ℚ → Spectrum)
    (ss : SampleSet) (i0 i1 : Nat) : SampleSet :=
  forRange i1 (fun inPhIndex s =>
      fixEnergyConservationSlice computeReflectance i0 inPhIndex s)
    (forRange i0 (fun inThIndex =>
      forRange ss.numAngles1 (fun inPhIndex s =>
        fixEnergyConservationSlice computeReflectance inThIndex inPhIndex s)) ss)

/-- The largest channel `ρ_max` of the reflectance that the integrator returns
when `(i0, i1)` is visited. -/
def maxReflectanceWhenVisited (computeReflectance : SampleSet → ℚ → ℚ → Spectrum)
    (ss : SampleSet) (i0 i1 : Nat) : ℚ :=
  (computeReflectance (stateWhenVisited computeReflectance ss i0 i1)
    ((stateWhenVisited computeReflectance ss i0 i1).getAngle0 i0)
    ((stateWhenVisited computeReflectance ss i0 i1).getAngle1 i1)).maxCoeff

/-- A specular-coordinates sample set with two incoming polar angles and one
sample on the other axes, with the spectra `(3, 1)` and `(1/2, 1/4)`. -/
def energySamples : SampleSet :=
  { numAngles0 := 2, numAngles1 := 1, numAngles2 := 1, numAngles3 := 1,
    angles0 := [0, 1], angles1 := [0], angles2 := [0], angles3 := [0],
    spectra := [[3, 1], [1 / 2, 1 / 4]],
    colorModel := ColorModel.SPECTRAL_MODEL, wavelengths := [400, 500],
    equalIntervalAngles0 := false, equalIntervalAngles1 := false,
    equalIntervalAngles2 := false, equalIntervalAngles3 := false, oneSide := false }

/-- A stand-in for the integrator on `energySamples`: the reflectance for the
incoming polar angle `axis0[i0]` is the spectrum stored at `(i0,0,0,0)`. -/
def storedReflectance (s : SampleSet) (inTheta _inPhi : ℚ) : Spectrum :=
  if inTheta = 0 then s.getSpectrum 0 0 0 0 else s.getSpectrum 1 0 0 0

/-! ## Processor.cpp: rotateOutPhi -/

/-- The function `lb::rotateOutPhi`, on the sample set of the spherical BRDF.
The parameter `lookup` stands for the continuous lookup
`brdf.getSpectrum(inTheta, inPhi, outTheta, outPhi)` of the source BRDF, which
is passed by const reference and never written (the interpolation of the BRDF
classes is external).  The copy constructor
`new SphericalCoordinatesBrdf(brdf)` is rendered as the copy of the sample
set.  The assertion on `rotationAngle` is left out. -/
def rotateOutPhi (lookup : ℚ → ℚ → ℚ → ℚ → Spectrum) (brdf : SampleSet)
    (rotationAngle : ℚ) : SampleSet :=
  let rotationAngle := if rotationAngle < 0 then rotationAngle + 2 * PI_F else rotationAngle
  let ss := brdf.updateAngleAttributes
  let ss :=
    if !ss.isEqualIntervalAngles3 then
      let s := forRange ss.numAngles3 (fun i s =>
        let outPhi := s.getAngle3 i + rotationAngle
        let outPhi := if outPhi > 2 * PI_F then outPhi - 2 * PI_F else outPhi
        s.setAngle3 i outPhi) ss
      { s with angles3 := sortAngles s.angles3 }
    else ss
  forRange ss.numAngles0 (fun inThIndex =>
  forRange ss.numAngles1 (fun inPhIndex =>
  forRange ss.numAngles2 (fun outThIndex =>
  forRange ss.numAngles3 (fun outPhIndex s =>
    let inTheta := s.getAngle0 inThIndex
    let inPhi := s.getAngle1 inPhIndex
    let outTheta := s.getAngle2 outThIndex
    let outPhi := s.getAngle3 outPhIndex - rotationAngle
    let outPhi := if outPhi < 0 then outPhi + 2 * PI_F else outPhi
    s.setSpectrum inThIndex inPhIndex outThIndex outPhIndex
      (lookup inTheta inPhi outTheta outPhi))))) ss

/-- The rotation angle after `if (rotationAngle < 0.0f) rotationAngle += 2π`. -/
def normalizedRotation (rotationAngle : ℚ) : ℚ :=
  if rotationAngle < 0 then rotationAngle + 2 * PI_F else rotationAngle

/-- The wrap `w(x)`: `x − 2π` if `x > 2π`, and `x` otherwise. -/
def wrapAbove (x : ℚ) : ℚ := if x > 2 * PI_F then x - 2 * PI_F else x

/-- The angle `ψ` at which the source is looked up for the output angle `φ'`:
`φ' − α'`, plus `2π` if negative. -/
def lookupAngle (outPhi rotation : ℚ) : ℚ :=
  if outPhi - rotation < 0 then outPhi - rotation + 2 * PI_F else outPhi - rotation

/-- Scenario 6 of the specification: axis 3 is `[0, π/2, π, 3π/2]`, the spectrum
at `i3 = 0` is `(1,0,0)` and the others are zero. -/
def rotationSamples : SampleSet :=
  { numAngles0 := 1, numAngles1 := 1, numAngles2 := 1, numAngles3 := 4,
    angles0 := [0], angles1 := [0], angles2 := [0],
    angles3 := [0, PI_F / 2, PI_F, 3 * PI_F / 2],
    spectra := [[1, 0, 0], [0, 0, 0], [0, 0, 0], [0, 0, 0]],
    colorModel := ColorModel.RGB_MODEL, wavelengths := [0, 0, 0],
    equalIntervalAngles0 := false, equalIntervalAngles1 := false,
    equalIntervalAngles2 := false, equalIntervalAngles3 := false, oneSide := false }

/-- A continuous lookup for `rotationSamples` that returns the stored sample at
the grid angles: `(1,0,0)` at `outPhi = 0` and zero elsewhere. -/
def rotationLookup (_inTheta _inPhi _outTheta outPhi : ℚ) : Spectrum :=
  if outPhi = 0 then [1, 0, 0] else [0, 0, 0]

/-- A sample set whose axis 3, `[0, 1, 3]`, is not equal-interval. -/
def unevenSamples : SampleSet :=
  { numAngles0 := 1, numAngles1 := 1, numAngles2 := 1, numAngles3 := 3,
    angles0 := [0], angles1 := [0], angles2 := [0], angles3 := [0, 1, 3],
    spectra := [[1], [2], [3]],
    colorModel := ColorModel.MONOCHROMATIC_MODEL, wavelengths := [0],
    equalIntervalAngles0 := false, equalIntervalAngles1 := false,
    equalIntervalAngles2 := false, equalIntervalAngles3 := false, oneSide := false }

/-- The axis 3 of the result of `lb::rotateOutPhi`: unchanged when the source
axis is equal-interval, and otherwise the sorted rotated angles. -/
def rotatedAngles3 (ss : SampleSet) (rotationAngle : ℚ) : Arrayf :=
  if isEqualInterval ss.angles3 then ss.angles3
  else sortAngles (ss.angles3.map (fun x => wrapAbove (x + normalizedRotation rotationAngle)))

/-- The sample set of the result of `lb::rotateOutPhi` before its spectra are
resampled. -/
def rotatedFrame (ss : SampleSet) (rotationAngle : ℚ) : SampleSet :=
  { ss.updateAngleAttributes with angles3 := rotatedAngles3 ss rotationAngle }

/-! ## SpectrumUtility.h: colorimetry -/

/-- A three-component vector (`Vec3`, `Vec3f`, `Vec3d`), with the component-wise
sum and the scaling by a scalar of the product type. -/
abbrev Vec3 := ℚ × ℚ × ℚ

/-- The member `cwiseMax(c)` of a vector. -/
def Vec3.cwiseMax (v : Vec3) (c : ℚ) : Vec3 := (max v.1 c, max v.2.1 c, max v.2.2 c)

/-- The member `cwiseMin(c)` of a vector. -/
def Vec3.cwiseMin (v : Vec3) (c : ℚ) : Vec3 := (min v.1 c, min v.2.1 c, min v.2.2 c)

/-- The member `cwiseQuotient(w)` of a vector. -/
def Vec3.cwiseQuotient (v w : Vec3) : Vec3 := (v.1 / w.1, v.2.1 / w.2.1, v.2.2 / w.2.2)

/-- The member `maxCoeff()` of a vector. -/
def Vec3.maxCoeff (v : Vec3) : ℚ := max v.1 (max v.2.1 v.2.2)

/-- The division `v /= c` of a vector by a scalar. -/
def Vec3.divScalar (v : Vec3) (c : ℚ) : Vec3 := (v.1 / c, v.2.1 / c, v.2.2 / c)

/-- Modelled from the spec: the CIE reference tables of `CieData.h`, which is
not among the sources: the range `[minWavelength, maxWavelength]` of the
tabulation, the number `numWavelengths` of its points, the flat array `XYZ` of
the colour-matching functions (three entries per point) and the array `D65` of
the illuminant. -/
structure CieData where
  minWavelength : ℚ
  maxWavelength : ℚ
  numWavelengths : Int
  XYZ : List ℚ
  D65 : List ℚ

/-- The vector `Vec3(CieData::XYZ[index * 3], CieData::XYZ[index * 3 + 1],
CieData::XYZ[index * 3 + 2])`. -/
def CieData.xyzAt (cie : CieData) (index : Int) : Vec3 :=
  (cie.XYZ.getD (index.toNat * 3) 0, cie.XYZ.getD (index.toNat * 3 + 1) 0,
    cie.XYZ.getD (index.toNat * 3 + 2) 0)

/-- The entry `CieData::D65[index]`. -/
def CieData.d65At (cie : CieData) (index : Int) : ℚ := cie.D65.getD index.toNat 0

/-- Modelled from the spec: the per-colour `xyzToSrgb`, a linear transform by
a hard-coded 3×3 matrix (its definition is not among the sources); the matrix
is the parameter `m`, given by its three rows. -/
def xyzToSrgbVec3 (m : Vec3 × Vec3 × Vec3) (xyz : Vec3) : Vec3 :=
  (m.1.1 * xyz.1 + m.1.2.1 * xyz.2.1 + m.1.2.2 * xyz.2.2,
   m.2.1.1 * xyz.1 + m.2.1.2.1 * xyz.2.1 + m.2.1.2.2 * xyz.2.2,
   m.2.2.1 * xyz.1 + m.2.2.2.1 * xyz.2.1 + m.2.2.2.2 * xyz.2.2)

/-- The state of the loop of `SpectrumUtility::spectrumToXyz`: `prevWl`,
`prevXyz` and `sumXyz`. -/
abbrev XyzState := ℚ × Vec3 × Vec3

/-- The function `SpectrumUtility::spectrumToXyz`.  The result is undefined
(`none`) when a call of `findNearestIndex` is. -/
def spectrumToXyz (cie : CieData) (spectrum wavelengths : Arrayf) (numSamples : Nat) :
    Option Vec3 :=
  let prevWl := wavelengths.getD 0 0
  (findNearestIndex cie.minWavelength cie.maxWavelength cie.numWavelengths prevWl).bind
    fun index0 =>
  let prevXyz : Vec3 := (cie.d65At index0 * spectrum.getD 0 0) • cie.xyzAt index0
  -- Trapezoidal rule
  let st := forRange (numSamples - 1) (fun k (st : Option XyzState) =>
    st.bind fun st =>
      let i := k + 1
      let wl := wavelengths.getD i 0
      (findNearestIndex cie.minWavelength cie.maxWavelength cie.numWavelengths wl).map
        fun index =>
          let xyz : Vec3 := (cie.d65At index * spectrum.getD i 0) • cie.xyzAt index
          let area : Vec3 := (wl - st.1) • (st.2.1 + xyz)
          (wl, xyz, st.2.2 + area))
    (some (prevWl, prevXyz, (0 : Vec3)))
  st.map fun st => Vec3.divScalar st.2.2 2

/-- The function `SpectrumUtility::spectrumToSrgb`.  The parameter
`normalizingConstant` is the static member `NORMALIZING_CONSTANT_SRGB`, whose
initialiser `computeNormalizingConstant_sRGB` is not among the sources. -/
def spectrumToSrgb (cie : CieData) (m : Vec3 × Vec3 × Vec3) (normalizingConstant : Vec3)
    (spectrum wavelengths : Arrayf) (numSamples : Nat) : Option Vec3 :=
  (spectrumToXyz cie spectrum wavelengths numSamples).map fun xyz =>
    let rgb := xyzToSrgbVec3 m xyz
    let rgb := Vec3.cwiseMax rgb 0
    Vec3.cwiseQuotient rgb normalizingConstant

/-- The literal `0.001f`: the 32-bit float nearest to `10⁻³`, as an exact
rational. -/
def MIN_MAX_COEFF : ℚ := 8589935 / 8589934592

/-- The function `SpectrumUtility::wavelengthToSrgb`. -/
def wavelengthToSrgb (cie : CieData) (m : Vec3 × Vec3 × Vec3) (wavelength : ℚ) :
    Option Vec3 :=
  (findNearestIndex cie.minWavelength cie.maxWavelength cie.numWavelengths wavelength).map
    fun index =>
      let rgb := xyzToSrgbVec3 m (cie.xyzAt index)
      let rgb := Vec3.cwiseMin rgb 1
      let rgb := Vec3.cwiseMax rgb 0
      Vec3.divScalar rgb (max (Vec3.maxCoeff rgb) MIN_MAX_COEFF)

/-- A small table in the layout of `CieData`: three points from 400 nm to
700 nm. -/
def sampleCie : CieData :=
  { minWavelength := 400, maxWavelength := 700, numWavelengths := 3,
    XYZ := [1 / 2000, 0, 0, 1, 2, 3, 1 / 2, 1 / 4, 0],
    D65 := [1, 2, 1] }

/-- The identity matrix, standing in for the matrix of `xyzToSrgb`. -/
def identityMatrix : Vec3 × Vec3 × Vec3 := ((1, 0, 0), (0, 1, 0), (0, 0, 1))

/-! ## Processor.cpp: fixNegativeSpectra -/

/-- The function `lb::fixNegativeSpectra`: the iterator loop over the spectra
replaces every spectrum by its `cwiseMax(0.0f)`. -/
def fixNegativeSpectra (samples : SampleSet) : SampleSet :=
  { samples with spectra := samples.spectra.map (fun sp => sp.map (fun x => max x 0)) }

/-- The sample set `a` is component-wise `≤` the sample set `b`: they have the
same number of spectra, corresponding spectra have the same length, and every
component of `a` is at most the corresponding component of `b`. -/
def SampleSet.SpectraLe (a b : SampleSet) : Prop :=
  List.Forall₂ (List.Forall₂ (fun x y : ℚ => x ≤ y)) a.spectra b.spectra

/-- A sample set with negative components. -/
def signedSamples : SampleSet :=
  { numAngles0 := 1, numAngles1 := 1, numAngles2 := 1, numAngles3 := 2,
    angles0 := [0], angles1 := [0], angles2 := [0], angles3 := [0, 1],
    spectra := [[-1, 2], [-3, -4]],
    colorModel := ColorModel.SPECTRAL_MODEL, wavelengths := [400, 500],
    equalIntervalAngles0 := false, equalIntervalAngles1 := false,
    equalIntervalAngles2 := false, equalIntervalAngles3 := false, oneSide := false }

/-- A sample set that is component-wise above `signedSamples`. -/
def signedSamplesAbove : SampleSet :=
  { signedSamples with spectra := [[-1 / 2, 3], [1, -4]] }

/-- The body of the four loops of `lb::divideByCosineOutTheta`, for the
counters `(i0,i1,i2,i3)`. -/
def divideByCosineOutThetaStep (cosOutTheta : Nat → Nat → Nat → Nat → ℚ)
    (i0 i1 i2 i3 : Nat) (s : SampleSet) : SampleSet :=
  if cosOutTheta i0 i1 i2 i3 ≤ 0 ∧ 0 < i2 then
    let s1 := s.setSpectrum i0 i1 i2 i3 (s.getSpectrum i0 i1 (i2 - 1) i3)
    s1.setSpectrum i0 i1 i2 i3
      (Spectrum.divScalar (s1.getSpectrum i0 i1 i2 i3) (cosOutTheta i0 i1 (i2 - 1) i3))
  else
    s.setSpectrum i0 i1 i2 i3
      (Spectrum.divScalar (s.getSpectrum i0 i1 i2 i3) (cosOutTheta i0 i1 i2 i3))

/-- The sRGB triple of the table row `index` after the clamping into `[0,1]`
of `SpectrumUtility::wavelengthToSrgb`. -/
def clampedSrgb (cie : CieData) (m : Vec3 × Vec3 × Vec3) (index : Int) : Vec3 :=
  Vec3.cwiseMax (Vec3.cwiseMin (xyzToSrgbVec3 m (cie.xyzAt index)) 1) 0

/-- The term `f_i = values[i]·D65[idx(λ_i)]·XYZ[idx(λ_i)]` of the trapezoidal
rule, for the table indices `idx i` of the wavelengths. -/
def cieWeighted (cie : CieData) (idx : Nat → Int) (values : Arrayf) (i : Nat) : Vec3 :=
  (cie.d65At (idx i) * values.getD i 0) • cie.xyzAt (idx i)

/-- The trapezoidal sum `½·Σ_{i=0}^{n-2} (λ_{i+1} − λ_i)·(f_i + f_{i+1})`. -/
def trapezoidalSum (wavelengths : Arrayf) (f : Nat → Vec3) (n : Nat) : Vec3 :=
  (1 / 2 : ℚ) • ((List.range (n - 1)).map (fun i =>
    (wavelengths.getD (i + 1) 0 - wavelengths.getD i 0) • (f i + f (i + 1)))).sum

/-- The linear combination `a·u + b·v` of two spectra. -/
def Spectrum.combine (a : ℚ) (u : Spectrum) (b : ℚ) (v : Spectrum) : Spectrum :=
  List.zipWith (fun x y => a * x + b * y) u v

end lb

namespace lb

/-! ## Counted loops -/

theorem forRange_zero {σ : Type} (body : Nat → σ → σ) (s : σ) : forRange 0 body s = s := rfl

theorem forRange_succ {σ : Type} (n : Nat) (body : Nat → σ → σ) (s : σ) :
    forRange (n + 1) body s = body n (forRange n body s) := by
  simp [forRange, List.range_succ, List.foldl_append]

/-- Loop-invariant rule for a counted loop. -/
theorem forRange_induct {σ : Type} (P : Nat → σ → Prop) (n : Nat) (body : Nat → σ → σ) (s : σ)
    (h0 : P 0 s) (hstep : ∀ i t, i < n → P i t → P (i + 1) (body i t)) :
    P n (forRange n body s) := by
  have key : ∀ k, k ≤ n → P k (forRange k body s) := by
    intro k
    induction k with
    | zero => intro _; exact h0
    | succ k ih =>
      intro hk
      rw [forRange_succ]
      exact hstep k _ (by omega) (ih (by omega))
  exact key n (le_refl n)

/-! ## Flat positions -/

theorem mul_add_lt_mul {a b A B : Nat} (ha : a < A) (hb : b < B) : a * B + b < A * B := by
  have h1 : (a + 1) * B ≤ A * B := Nat.mul_le_mul_right B ha
  have h2 : (a + 1) * B = a * B + B := by ring
  omega

theorem mul_add_inj {a b c d B : Nat} (hb : b < B) (hd : d < B)
    (h : a * B + b = c * B + d) : a = c ∧ b = d := by
  have hB : 0 < B := by omega
  have e1 : (a * B + b) / B = a := by
    rw [Nat.add_comm, Nat.add_mul_div_right _ _ hB, Nat.div_eq_of_lt hb, Nat.zero_add]
  have e2 : (c * B + d) / B = c := by
    rw [Nat.add_comm, Nat.add_mul_div_right _ _ hB, Nat.div_eq_of_lt hd, Nat.zero_add]
  have hac : a = c := by rw [← e1, ← e2, h]
  subst hac
  exact ⟨rfl, by omega⟩

theorem list_set_getD_self {α : Type} (l : List α) (i : Nat) (d : α) :
    l.set i (l.getD i d) = l := by
  induction l generalizing i with
  | nil => rfl
  | cons a l ih =>
    cases i with
    | zero => rfl
    | succ i => simp only [List.set_cons_succ, List.getD_cons_succ, ih]

namespace SampleSet

theorem index_lt (ss : SampleSet) {i0 i1 i2 i3 : Nat} (h : ss.InRange i0 i1 i2 i3) :
    ss.index i0 i1 i2 i3 < ss.numAngles0 * ss.numAngles1 * ss.numAngles2 * ss.numAngles3 := by
  obtain ⟨h0, h1, h2, h3⟩ := h
  exact mul_add_lt_mul (mul_add_lt_mul (mul_add_lt_mul h0 h1) h2) h3

theorem index_inj (ss : SampleSet) {i0 i1 i2 i3 j0 j1 j2 j3 : Nat}
    (hi : ss.InRange i0 i1 i2 i3) (hj : ss.InRange j0 j1 j2 j3)
    (h : ss.index i0 i1 i2 i3 = ss.index j0 j1 j2 j3) :
    i0 = j0 ∧ i1 = j1 ∧ i2 = j2 ∧ i3 = j3 := by
  obtain ⟨_, hi1, hi2, hi3⟩ := hi
  obtain ⟨_, hj1, hj2, hj3⟩ := hj
  obtain ⟨e3, h3⟩ := mul_add_inj hi3 hj3 h
  obtain ⟨e2, h2⟩ := mul_add_inj hi2 hj2 e3
  obtain ⟨e1, h1⟩ := mul_add_inj hi1 hj1 e2
  exact ⟨e1, h1, h2, h3⟩

theorem SameFrame.refl (s : SampleSet) : SameFrame s s := ⟨rfl, rfl⟩

theorem SameFrame.trans {s t u : SampleSet} (h1 : SameFrame s t) (h2 : SameFrame t u) :
    SameFrame s u := by
  obtain ⟨e1, l1⟩ := h1
  obtain ⟨e2, l2⟩ := h2
  refine ⟨?_, by omega⟩
  rw [e2, e1]

theorem SameFrame.setSpectrum (s : SampleSet) (i0 i1 i2 i3 : Nat) (sp : Spectrum) :
    SameFrame s (s.setSpectrum i0 i1 i2 i3 sp) := by
  refine ⟨rfl, ?_⟩
  simp [SampleSet.setSpectrum]

theorem SameFrame.index_eq {s t : SampleSet} (h : SameFrame s t) (i0 i1 i2 i3 : Nat) :
    t.index i0 i1 i2 i3 = s.index i0 i1 i2 i3 := by
  rw [h.1]; rfl

theorem SameFrame.inRange_iff {s t : SampleSet} (h : SameFrame s t) (i0 i1 i2 i3 : Nat) :
    t.InRange i0 i1 i2 i3 ↔ s.InRange i0 i1 i2 i3 := by
  rw [h.1]; rfl

theorem getSpectrum_setSpectrum_same (s : SampleSet) {i0 i1 i2 i3 : Nat} (sp : Spectrum)
    (hlen : s.index i0 i1 i2 i3 < s.spectra.length) :
    (s.setSpectrum i0 i1 i2 i3 sp).getSpectrum i0 i1 i2 i3 = sp := by
  simp [SampleSet.getSpectrum, SampleSet.setSpectrum, SampleSet.index, List.getD_eq_getElem?_getD]
  simp [SampleSet.index] at hlen
  simp [List.getElem?_set, hlen]

theorem getSpectrum_setSpectrum_other (s : SampleSet) {i0 i1 i2 i3 j0 j1 j2 j3 : Nat}
    (sp : Spectrum) (hne : s.index i0 i1 i2 i3 ≠ s.index j0 j1 j2 j3) :
    (s.setSpectrum i0 i1 i2 i3 sp).getSpectrum j0 j1 j2 j3 = s.getSpectrum j0 j1 j2 j3 := by
  simp only [SampleSet.getSpectrum, SampleSet.setSpectrum, List.getD_eq_getElem?_getD]
  have : (s.setSpectrum i0 i1 i2 i3 sp).index j0 j1 j2 j3 = s.index j0 j1 j2 j3 := rfl
  simp only [SampleSet.setSpectrum] at this
  rw [this, List.getElem?_set_ne hne]

theorem setSpectrum_getSpectrum_self (s : SampleSet) (i0 i1 i2 i3 : Nat) :
    s.setSpectrum i0 i1 i2 i3 (s.getSpectrum i0 i1 i2 i3) = s := by
  simp only [SampleSet.setSpectrum, SampleSet.getSpectrum, list_set_getD_self]

theorem SameFrame.sizeOk {s t : SampleSet} (h : SameFrame s t) (hs : s.SizeOk) : t.SizeOk := by
  unfold SizeOk at hs ⊢
  rw [h.2, hs, h.1]

theorem Upd.sameFrame {s t : SampleSet} {W : Nat → Nat → Nat → Nat → Prop}
    {g : Nat → Nat → Nat → Nat → Spectrum} (h : Upd s t W g) : SameFrame s t := h.1

theorem Upd.start (s : SampleSet) (W : Nat → Nat → Nat → Nat → Prop)
    (g : Nat → Nat → Nat → Nat → Spectrum)
    (h : ∀ a b c d, s.InRange a b c d → ¬ W a b c d) : Upd s s W g :=
  ⟨SameFrame.refl s, fun a b c d hq => ⟨fun hw => absurd hw (h a b c d hq), fun _ => rfl⟩⟩

theorem Upd.congr {s t : SampleSet} {W W2 : Nat → Nat → Nat → Nat → Prop}
    {g : Nat → Nat → Nat → Nat → Spectrum} (h : Upd s t W g)
    (hW : ∀ a b c d, s.InRange a b c d → (W a b c d ↔ W2 a b c d)) : Upd s t W2 g := by
  refine ⟨h.1, fun a b c d hq => ⟨fun hw => ?_, fun hw => ?_⟩⟩
  · exact (h.2 a b c d hq).1 ((hW a b c d hq).2 hw)
  · exact (h.2 a b c d hq).2 (fun hw2 => hw ((hW a b c d hq).1 hw2))

/-- One write through `setSpectrum` extends the set of overwritten samples by
the written position. -/
theorem Upd.write {s t : SampleSet} {W : Nat → Nat → Nat → Nat → Prop}
    {g : Nat → Nat → Nat → Nat → Spectrum} (hs : s.SizeOk) (h : Upd s t W g)
    {i0 i1 i2 i3 : Nat} (hp : s.InRange i0 i1 i2 i3) (v : Spectrum)
    (hv : v = g i0 i1 i2 i3) :
    Upd s (t.setSpectrum i0 i1 i2 i3 v)
      (fun a b c d => W a b c d ∨ (a = i0 ∧ b = i1 ∧ c = i2 ∧ d = i3)) g := by
  have hft : SameFrame s t := h.1
  have hpt : t.InRange i0 i1 i2 i3 := (hft.inRange_iff _ _ _ _).2 hp
  have hlen : t.index i0 i1 i2 i3 < t.spectra.length := by
    have := t.index_lt hpt
    have hst := hft.sizeOk hs
    unfold SizeOk at hst
    omega
  refine ⟨hft.trans (SameFrame.setSpectrum t i0 i1 i2 i3 v), fun a b c d hq => ?_⟩
  have hqt : t.InRange a b c d := (hft.inRange_iff _ _ _ _).2 hq
  by_cases hpq : a = i0 ∧ b = i1 ∧ c = i2 ∧ d = i3
  · obtain ⟨rfl, rfl, rfl, rfl⟩ := hpq
    refine ⟨fun _ => ?_, fun hn => absurd (Or.inr ⟨rfl, rfl, rfl, rfl⟩) hn⟩
    rw [getSpectrum_setSpectrum_same t v hlen, hv]
  · have hne : t.index i0 i1 i2 i3 ≠ t.index a b c d := by
      intro e
      obtain ⟨e0, e1, e2, e3⟩ := t.index_inj hpt hqt e
      exact hpq ⟨e0.symm, e1.symm, e2.symm, e3.symm⟩
    rw [getSpectrum_setSpectrum_other t v hne]
    refine ⟨fun hw => ?_, fun hn => ?_⟩
    · rcases hw with hw | hw
      · exact (h.2 a b c d hq).1 hw
      · exact absurd hw hpq
    · exact (h.2 a b c d hq).2 (fun hw => hn (Or.inl hw))

/-- Four nested counted loops whose innermost step extends the overwritten
samples by the sample of its counters: after the loops exactly the samples of
all counters inside the bounds are overwritten, with the values `g`. -/
theorem Upd.loop4 {s : SampleSet} (n0 n1 n2 n3 : Nat)
    (p0 p1 p2 p3 : Nat → Nat → Nat → Nat → Nat)
    (body : Nat → Nat → Nat → Nat → SampleSet → SampleSet)
    (g : Nat → Nat → Nat → Nat → Spectrum)
    (hstep : ∀ a b c d, a < n0 → b < n1 → c < n2 → d < n3 → ∀ u,
      Upd s u (Visited n0 n1 n2 n3 p0 p1 p2 p3 a b c d) g →
      Upd s (body a b c d u)
        (fun q0 q1 q2 q3 => Visited n0 n1 n2 n3 p0 p1 p2 p3 a b c d q0 q1 q2 q3 ∨
          (q0 = p0 a b c d ∧ q1 = p1 a b c d ∧ q2 = p2 a b c d ∧ q3 = p3 a b c d)) g) :
    Upd s
      (forRange n0 (fun a => forRange n1 (fun b => forRange n2 (fun c =>
        forRange n3 (fun d u => body a b c d u)))) s)
      (fun q0 q1 q2 q3 => ∃ a b c d, a < n0 ∧ b < n1 ∧ c < n2 ∧ d < n3 ∧
        p0 a b c d = q0 ∧ p1 a b c d = q1 ∧ p2 a b c d = q2 ∧ p3 a b c d = q3) g := by
  have h0 := forRange_induct
    (fun a u => Upd s u (Visited n0 n1 n2 n3 p0 p1 p2 p3 a 0 0 0) g) n0
    (fun a => forRange n1 (fun b => forRange n2 (fun c =>
        forRange n3 (fun d u => body a b c d u)))) s
    (Upd.start s _ g (by
      rintro q0 q1 q2 q3 - ⟨a, b, c, d, -, -, -, -, hl, -⟩
      unfold LexBefore at hl; omega))
    (by
      intro a u ha hu
      have h1 := forRange_induct
        (fun b u => Upd s u (Visited n0 n1 n2 n3 p0 p1 p2 p3 a b 0 0) g) n1
        (fun b => forRange n2 (fun c => forRange n3 (fun d u => body a b c d u))) u hu
        (by
          intro b u hb hu
          have h2 := forRange_induct
            (fun c u => Upd s u (Visited n0 n1 n2 n3 p0 p1 p2 p3 a b c 0) g) n2
            (fun c => forRange n3 (fun d u => body a b c d u)) u hu
            (by
              intro c u hc hu
              have h3 := forRange_induct
                (fun d u => Upd s u (Visited n0 n1 n2 n3 p0 p1 p2 p3 a b c d) g) n3
                (fun d u => body a b c d u) u hu
                (by
                  intro d u hd hu
                  refine (hstep a b c d ha hb hc hd u hu).congr ?_
                  intro q0 q1 q2 q3 _
                  constructor
                  · rintro (⟨x, y, z, w, hx, hy, hz, hw, hl, e0, e1, e2, e3⟩ | ⟨e0, e1, e2, e3⟩)
                    · exact ⟨x, y, z, w, hx, hy, hz, hw, by unfold LexBefore at hl ⊢; omega,
                        e0, e1, e2, e3⟩
                    · exact ⟨a, b, c, d, ha, hb, hc, hd, by unfold LexBefore; omega,
                        e0.symm, e1.symm, e2.symm, e3.symm⟩
                  · rintro ⟨x, y, z, w, hx, hy, hz, hw, hl, e0, e1, e2, e3⟩
                    by_cases hxyzw : x = a ∧ y = b ∧ z = c ∧ w = d
                    · obtain ⟨rfl, rfl, rfl, rfl⟩ := hxyzw
                      exact Or.inr ⟨e0.symm, e1.symm, e2.symm, e3.symm⟩
                    · exact Or.inl ⟨x, y, z, w, hx, hy, hz, hw,
                        by unfold LexBefore at hl ⊢; omega, e0, e1, e2, e3⟩)
              refine h3.congr ?_
              intro q0 q1 q2 q3 _
              constructor
              · rintro ⟨x, y, z, w, hx, hy, hz, hw, hl, e⟩
                exact ⟨x, y, z, w, hx, hy, hz, hw, by unfold LexBefore at hl ⊢; omega, e⟩
              · rintro ⟨x, y, z, w, hx, hy, hz, hw, hl, e⟩
                exact ⟨x, y, z, w, hx, hy, hz, hw, by unfold LexBefore at hl ⊢; omega, e⟩)
          refine h2.congr ?_
          intro q0 q1 q2 q3 _
          constructor
          · rintro ⟨x, y, z, w, hx, hy, hz, hw, hl, e⟩
            exact ⟨x, y, z, w, hx, hy, hz, hw, by unfold LexBefore at hl ⊢; omega, e⟩
          · rintro ⟨x, y, z, w, hx, hy, hz, hw, hl, e⟩
            exact ⟨x, y, z, w, hx, hy, hz, hw, by unfold LexBefore at hl ⊢; omega, e⟩)
      refine h1.congr ?_
      intro q0 q1 q2 q3 _
      constructor
      · rintro ⟨x, y, z, w, hx, hy, hz, hw, hl, e⟩
        exact ⟨x, y, z, w, hx, hy, hz, hw, by unfold LexBefore at hl ⊢; omega, e⟩
      · rintro ⟨x, y, z, w, hx, hy, hz, hw, hl, e⟩
        exact ⟨x, y, z, w, hx, hy, hz, hw, by unfold LexBefore at hl ⊢; omega, e⟩)
  refine h0.congr ?_
  intro q0 q1 q2 q3 _
  constructor
  · rintro ⟨x, y, z, w, hx, hy, hz, hw, -, e⟩
    exact ⟨x, y, z, w, hx, hy, hz, hw, e⟩
  · rintro ⟨x, y, z, w, hx, hy, hz, hw, e⟩
    exact ⟨x, y, z, w, hx, hy, hz, hw, by unfold LexBefore; omega, e⟩

end SampleSet

theorem forRange_one {σ : Type} (body : Nat → σ → σ) (s : σ) : forRange 1 body s = body 0 s := rfl

namespace SampleSet

theorem SameFrame.periodicAxis1_iff {s t : SampleSet} (h : SameFrame s t) :
    periodicAxis1 t ↔ periodicAxis1 s := by
  rw [h.1]; rfl

theorem SameFrame.periodicAxis3_iff {s t : SampleSet} (h : SameFrame s t) :
    periodicAxis3 t ↔ periodicAxis3 s := by
  rw [h.1]; rfl

end SampleSet

open SampleSet


/-- The first pass of `copySpectraFromPhiOfZeroTo2PI` overwrites exactly the
samples with `i1 = N1 - 1`, with the samples at `i1 = 0` of the input. -/
theorem copyAxis1_upd (ss : SampleSet) (hs : ss.SizeOk) (h1 : 2 ≤ ss.numAngles1) :
    Upd ss (copyAxis1 ss) (fun _ q1 _ _ => q1 = ss.numAngles1 - 1)
      (fun q0 _ q2 q3 => ss.getSpectrum q0 0 q2 q3) := by
  have e : copyAxis1 ss =
      forRange ss.numAngles0 (fun a => forRange ss.numAngles2 (fun b =>
        forRange ss.numAngles3 (fun c => forRange 1 (fun _ u =>
          u.setSpectrum a (ss.numAngles1 - 1) b c (u.getSpectrum a 0 b c))))) ss := by
    rfl
  rw [e]
  have h := Upd.loop4 (s := ss) ss.numAngles0 ss.numAngles2 ss.numAngles3 1
    (fun a _ _ _ => a) (fun _ _ _ _ => ss.numAngles1 - 1) (fun _ b _ _ => b) (fun _ _ c _ => c)
    (fun a b c _ u => u.setSpectrum a (ss.numAngles1 - 1) b c (u.getSpectrum a 0 b c))
    (fun q0 _ q2 q3 => ss.getSpectrum q0 0 q2 q3)
    (by
      intro a b c d ha hb hc _ u hu
      refine Upd.write hs hu ⟨ha, by omega, hb, hc⟩ _ ?_
      refine (hu.2 a 0 b c ⟨ha, by omega, hb, hc⟩).2 ?_
      rintro ⟨x, y, z, w, -, -, -, -, -, -, e1, -⟩
      simp only at e1
      omega)
  refine h.congr ?_
  intro q0 q1 q2 q3 hq
  obtain ⟨hq0, -, hq2, hq3⟩ := hq
  constructor
  · rintro ⟨x, y, z, w, -, -, -, -, -, e1, -⟩
    exact e1.symm
  · intro e1
    exact ⟨q0, q2, q3, 0, hq0, hq2, hq3, by omega, rfl, e1.symm, rfl, rfl⟩

/-- The second pass of `copySpectraFromPhiOfZeroTo2PI` overwrites exactly the
samples with `i3 = N3 - 1`, with the samples at `i3 = 0` of its input. -/
theorem copyAxis3_upd (ss : SampleSet) (hs : ss.SizeOk) (h3 : 2 ≤ ss.numAngles3) :
    Upd ss (copyAxis3 ss) (fun _ _ _ q3 => q3 = ss.numAngles3 - 1)
      (fun q0 q1 q2 _ => ss.getSpectrum q0 q1 q2 0) := by
  have e : copyAxis3 ss =
      forRange ss.numAngles0 (fun a => forRange ss.numAngles1 (fun b =>
        forRange ss.numAngles2 (fun c => forRange 1 (fun _ u =>
          u.setSpectrum a b c (ss.numAngles3 - 1) (u.getSpectrum a b c 0))))) ss := by
    rfl
  rw [e]
  have h := Upd.loop4 (s := ss) ss.numAngles0 ss.numAngles1 ss.numAngles2 1
    (fun a _ _ _ => a) (fun _ b _ _ => b) (fun _ _ c _ => c) (fun _ _ _ _ => ss.numAngles3 - 1)
    (fun a b c _ u => u.setSpectrum a b c (ss.numAngles3 - 1) (u.getSpectrum a b c 0))
    (fun q0 q1 q2 _ => ss.getSpectrum q0 q1 q2 0)
    (by
      intro a b c d ha hb hc _ u hu
      refine Upd.write hs hu ⟨ha, hb, hc, by omega⟩ _ ?_
      refine (hu.2 a b c 0 ⟨ha, hb, hc, by omega⟩).2 ?_
      rintro ⟨x, y, z, w, -, -, -, -, -, -, -, -, e3⟩
      simp only at e3
      omega)
  refine h.congr ?_
  intro q0 q1 q2 q3 hq
  obtain ⟨hq0, hq1, hq2, -⟩ := hq
  constructor
  · rintro ⟨x, y, z, w, -, -, -, -, -, -, -, e3⟩
    exact e3.symm
  · intro e3
    exact ⟨q0, q1, q2, 0, hq0, hq1, hq2, by omega, rfl, rfl, rfl, e3.symm⟩

/-- Closed form of `copySpectraFromPhiOfZeroTo2PI`: nothing but the spectra
changes, and every sample inside the bounds holds the input sample whose
indices on the periodic axes are sent from `N - 1` to `0`. -/
theorem copySpectra_closed_form (ss : SampleSet) (hs : ss.SizeOk) :
    SameFrame ss (copySpectraFromPhiOfZeroTo2PI ss) ∧
    ∀ q0 q1 q2 q3, ss.InRange q0 q1 q2 q3 →
      (copySpectraFromPhiOfZeroTo2PI ss).getSpectrum q0 q1 q2 q3 =
        ss.getSpectrum q0 (if periodicAxis1 ss ∧ q1 = ss.numAngles1 - 1 then 0 else q1) q2
          (if periodicAxis3 ss ∧ q3 = ss.numAngles3 - 1 then 0 else q3) := by
  unfold copySpectraFromPhiOfZeroTo2PI
  by_cases p1 : periodicAxis1 ss
  · have U1 := copyAxis1_upd ss hs p1.1
    have hf1 : SameFrame ss (copyAxis1 ss) := U1.1
    have hs1 : (copyAxis1 ss).SizeOk := hf1.sizeOk hs
    by_cases p3 : periodicAxis3 ss
    · have p3b : periodicAxis3 (copyAxis1 ss) := hf1.periodicAxis3_iff.2 p3
      have U3 := copyAxis3_upd (copyAxis1 ss) hs1 p3b.1
      have hn3 : (copyAxis1 ss).numAngles3 = ss.numAngles3 := by rw [hf1.1]
      simp only [p1, p3b, if_true, true_and, p3]
      refine ⟨hf1.trans U3.1, fun q0 q1 q2 q3 hq => ?_⟩
      have hq1 : (copyAxis1 ss).InRange q0 q1 q2 q3 := (hf1.inRange_iff _ _ _ _).2 hq
      obtain ⟨hq0, hq1b, hq2, hq3⟩ := hq
      have key : ∀ k, k < ss.numAngles3 → (copyAxis1 ss).getSpectrum q0 q1 q2 k =
          ss.getSpectrum q0 (if q1 = ss.numAngles1 - 1 then 0 else q1) q2 k := by
        intro k hk
        by_cases e1 : q1 = ss.numAngles1 - 1
        · rw [if_pos e1]; exact (U1.2 q0 q1 q2 k ⟨hq0, hq1b, hq2, hk⟩).1 e1
        · rw [if_neg e1]; exact (U1.2 q0 q1 q2 k ⟨hq0, hq1b, hq2, hk⟩).2 e1
      by_cases e3 : q3 = ss.numAngles3 - 1
      · rw [if_pos e3, (U3.2 q0 q1 q2 q3 hq1).1 (by rw [hn3]; exact e3)]
        exact key 0 (by have := p3.1; omega)
      · rw [if_neg e3, (U3.2 q0 q1 q2 q3 hq1).2 (by rw [hn3]; exact e3)]
        exact key q3 hq3
    · have p3b : ¬ periodicAxis3 (copyAxis1 ss) := fun h => p3 (hf1.periodicAxis3_iff.1 h)
      simp only [p1, p3b, if_true, if_false, true_and, p3, false_and]
      refine ⟨hf1, fun q0 q1 q2 q3 hq => ?_⟩
      by_cases e1 : q1 = ss.numAngles1 - 1
      · rw [if_pos e1]; exact (U1.2 q0 q1 q2 q3 hq).1 e1
      · rw [if_neg e1]; exact (U1.2 q0 q1 q2 q3 hq).2 e1
  · by_cases p3 : periodicAxis3 ss
    · have U3 := copyAxis3_upd ss hs p3.1
      simp only [p1, p3, if_true, if_false, true_and, false_and]
      refine ⟨U3.1, fun q0 q1 q2 q3 hq => ?_⟩
      by_cases e3 : q3 = ss.numAngles3 - 1
      · rw [if_pos e3]; exact (U3.2 q0 q1 q2 q3 hq).1 e3
      · rw [if_neg e3]; exact (U3.2 q0 q1 q2 q3 hq).2 e3
    · simp only [p1, p3, if_false, false_and]
      exact ⟨SameFrame.refl ss, fun _ _ _ _ _ => trivial⟩

/-- After `copySpectraFromPhiOfZeroTo2PI` the last sample of a periodic axis 3
equals the first one. -/
theorem copySpectra_closed3 (ss : SampleSet) (hs : ss.SizeOk) (p3 : periodicAxis3 ss)
    (i0 i1 i2 : Nat) (h0 : i0 < ss.numAngles0) (h1 : i1 < ss.numAngles1)
    (h2 : i2 < ss.numAngles2) :
    (copySpectraFromPhiOfZeroTo2PI ss).getSpectrum i0 i1 i2 (ss.numAngles3 - 1) =
      (copySpectraFromPhiOfZeroTo2PI ss).getSpectrum i0 i1 i2 0 := by
  have h := (copySpectra_closed_form ss hs).2
  have n3 := p3.1
  rw [h i0 i1 i2 (ss.numAngles3 - 1) ⟨h0, h1, h2, by omega⟩,
    h i0 i1 i2 0 ⟨h0, h1, h2, by omega⟩]
  have e : (0 : Nat) ≠ ss.numAngles3 - 1 := by omega
  simp [p3, e]

/-- After `copySpectraFromPhiOfZeroTo2PI` the last sample of a periodic axis 1
equals the first one. -/
theorem copySpectra_closed1 (ss : SampleSet) (hs : ss.SizeOk) (p1 : periodicAxis1 ss)
    (i0 i2 i3 : Nat) (h0 : i0 < ss.numAngles0) (h2 : i2 < ss.numAngles2)
    (h3 : i3 < ss.numAngles3) :
    (copySpectraFromPhiOfZeroTo2PI ss).getSpectrum i0 (ss.numAngles1 - 1) i2 i3 =
      (copySpectraFromPhiOfZeroTo2PI ss).getSpectrum i0 0 i2 i3 := by
  have h := (copySpectra_closed_form ss hs).2
  have n1 := p1.1
  rw [h i0 (ss.numAngles1 - 1) i2 i3 ⟨h0, by omega, h2, h3⟩,
    h i0 0 i2 i3 ⟨h0, by omega, h2, h3⟩]
  have e : (0 : Nat) ≠ ss.numAngles1 - 1 := by omega
  simp [p1, e]

/-- The first pass changes nothing when the last samples of axis 1 already
equal the first ones. -/
theorem copyAxis1_fix (r : SampleSet)
    (h : ∀ a b c, a < r.numAngles0 → b < r.numAngles2 → c < r.numAngles3 →
      r.getSpectrum a (r.numAngles1 - 1) b c = r.getSpectrum a 0 b c) :
    copyAxis1 r = r := by
  unfold copyAxis1
  refine forRange_induct (fun _ u => u = r) _ _ _ rfl ?_
  intro a u ha hu
  refine forRange_induct (fun _ u => u = r) _ _ _ hu ?_
  intro b u hb hu
  refine forRange_induct (fun _ u => u = r) _ _ _ hu ?_
  intro c u hc hu
  subst hu
  show u.setSpectrum a (u.numAngles1 - 1) b c (u.getSpectrum a 0 b c) = u
  rw [← h a b c ha hb hc]
  exact setSpectrum_getSpectrum_self u _ _ _ _

/-- The second pass changes nothing when the last samples of axis 3 already
equal the first ones. -/
theorem copyAxis3_fix (r : SampleSet)
    (h : ∀ a b c, a < r.numAngles0 → b < r.numAngles1 → c < r.numAngles2 →
      r.getSpectrum a b c (r.numAngles3 - 1) = r.getSpectrum a b c 0) :
    copyAxis3 r = r := by
  unfold copyAxis3
  refine forRange_induct (fun _ u => u = r) _ _ _ rfl ?_
  intro a u ha hu
  refine forRange_induct (fun _ u => u = r) _ _ _ hu ?_
  intro b u hb hu
  refine forRange_induct (fun _ u => u = r) _ _ _ hu ?_
  intro c u hc hu
  subst hu
  show u.setSpectrum a b c (u.numAngles3 - 1) (u.getSpectrum a b c 0) = u
  rw [← h a b c ha hb hc]
  exact setSpectrum_getSpectrum_self u _ _ _ _

/-- Applying `copySpectraFromPhiOfZeroTo2PI` to its own result changes
nothing. -/
theorem copySpectra_twice (ss : SampleSet) (hs : ss.SizeOk) :
    copySpectraFromPhiOfZeroTo2PI (copySpectraFromPhiOfZeroTo2PI ss) =
      copySpectraFromPhiOfZeroTo2PI ss := by
  have hf : SameFrame ss (copySpectraFromPhiOfZeroTo2PI ss) := (copySpectra_closed_form ss hs).1
  have c1 := copySpectra_closed1 ss hs
  have c3 := copySpectra_closed3 ss hs
  generalize copySpectraFromPhiOfZeroTo2PI ss = r at hf c1 c3
  have d0 : r.numAngles0 = ss.numAngles0 := by rw [hf.1]
  have d1 : r.numAngles1 = ss.numAngles1 := by rw [hf.1]
  have d2 : r.numAngles2 = ss.numAngles2 := by rw [hf.1]
  have d3 : r.numAngles3 = ss.numAngles3 := by rw [hf.1]
  have e1 : (if periodicAxis1 r then copyAxis1 r else r) = r := by
    by_cases p1 : periodicAxis1 r
    · rw [if_pos p1]
      refine copyAxis1_fix r ?_
      intro a b c ha hb hc
      rw [d1]
      exact c1 (hf.periodicAxis1_iff.1 p1) a b c (by omega) (by omega) (by omega)
    · rw [if_neg p1]
  have e3 : (if periodicAxis3 r then copyAxis3 r else r) = r := by
    by_cases p3 : periodicAxis3 r
    · rw [if_pos p3]
      refine copyAxis3_fix r ?_
      intro a b c ha hb hc
      rw [d3]
      exact c3 (hf.periodicAxis3_iff.1 p3) a b c (by omega) (by omega) (by omega)
    · rw [if_neg p3]
  unfold copySpectraFromPhiOfZeroTo2PI
  simp only [e1, e3]

/-! ## Claims on copySpectraFromPhiOfZeroTo2PI -/

/-- C6. Periodic closure of `copySpectraFromPhiOfZeroTo2PI`: when axis 3 is
periodic (`N3 ≥ 2`, `axis3[0] = 0`, `axis3[N3-1] ≥ 2π`) the spectrum at
`i3 = N3-1` equals the spectrum at `i3 = 0` in the result, for every
`(i0,i1,i2)`; when axis 1 is periodic the spectrum at `i1 = N1-1` equals the
spectrum at `i1 = 0` in the result, for every `(i0,i2,i3)`; both hold together
when both axes are periodic. -/
theorem copySpectraFromPhiOfZeroTo2PI_periodic_closure (ss : SampleSet) (hs : ss.SizeOk) :
    (periodicAxis3 ss → ∀ i0 i1 i2, i0 < ss.numAngles0 → i1 < ss.numAngles1 →
      i2 < ss.numAngles2 →
      (copySpectraFromPhiOfZeroTo2PI ss).getSpectrum i0 i1 i2 (ss.numAngles3 - 1) =
        (copySpectraFromPhiOfZeroTo2PI ss).getSpectrum i0 i1 i2 0) ∧
    (periodicAxis1 ss → ∀ i0 i2 i3, i0 < ss.numAngles0 → i2 < ss.numAngles2 →
      i3 < ss.numAngles3 →
      (copySpectraFromPhiOfZeroTo2PI ss).getSpectrum i0 (ss.numAngles1 - 1) i2 i3 =
        (copySpectraFromPhiOfZeroTo2PI ss).getSpectrum i0 0 i2 i3) :=
  ⟨fun p3 i0 i1 i2 h0 h1 h2 => copySpectra_closed3 ss hs p3 i0 i1 i2 h0 h1 h2,
   fun p1 i0 i2 i3 h0 h2 h3 => copySpectra_closed1 ss hs p1 i0 i2 i3 h0 h2 h3⟩

/-- Scenario 2 of the specification: both axes of `periodicSamples` are
periodic, and after the call the spectrum at `i3 = 4` is `(1,2,3)` and the
spectrum at `i1 = 1` equals the one at `i1 = 0`. -/
theorem copySpectraFromPhiOfZeroTo2PI_periodic_closure_witness :
    periodicSamples.SizeOk ∧ periodicAxis3 periodicSamples ∧ periodicAxis1 periodicSamples ∧
    (copySpectraFromPhiOfZeroTo2PI periodicSamples).getSpectrum 0 0 0 4 = [1, 2, 3] ∧
    (copySpectraFromPhiOfZeroTo2PI periodicSamples).getSpectrum 0 1 0 2 =
      (copySpectraFromPhiOfZeroTo2PI periodicSamples).getSpectrum 0 0 0 2 :=
  ⟨by decide!, by decide!, by decide!,
   ((copySpectraFromPhiOfZeroTo2PI_periodic_closure periodicSamples (by decide!)).1
      (by decide!) 0 0 0 (by decide) (by decide) (by decide)).trans (by decide!),
   (copySpectraFromPhiOfZeroTo2PI_periodic_closure periodicSamples (by decide!)).2
      (by decide!) 0 0 2 (by decide) (by decide) (by decide)⟩

/-- C7. Frame of `copySpectraFromPhiOfZeroTo2PI`: the dimensions, the four
axes, the wavelengths and the colour model are unchanged; a spectrum at
`(i0,i1,i2,i3)` differs from its value before the call only if axis 1 is
periodic and `i1 = N1-1`, or axis 3 is periodic and `i3 = N3-1`; and when
neither axis is periodic the sample set is left entirely unchanged. -/
theorem copySpectraFromPhiOfZeroTo2PI_frame (ss : SampleSet) (hs : ss.SizeOk) :
    ((copySpectraFromPhiOfZeroTo2PI ss).numAngles0 = ss.numAngles0 ∧
     (copySpectraFromPhiOfZeroTo2PI ss).numAngles1 = ss.numAngles1 ∧
     (copySpectraFromPhiOfZeroTo2PI ss).numAngles2 = ss.numAngles2 ∧
     (copySpectraFromPhiOfZeroTo2PI ss).numAngles3 = ss.numAngles3 ∧
     (copySpectraFromPhiOfZeroTo2PI ss).angles0 = ss.angles0 ∧
     (copySpectraFromPhiOfZeroTo2PI ss).angles1 = ss.angles1 ∧
     (copySpectraFromPhiOfZeroTo2PI ss).angles2 = ss.angles2 ∧
     (copySpectraFromPhiOfZeroTo2PI ss).angles3 = ss.angles3 ∧
     (copySpectraFromPhiOfZeroTo2PI ss).wavelengths = ss.wavelengths ∧
     (copySpectraFromPhiOfZeroTo2PI ss).colorModel = ss.colorModel ∧
     (copySpectraFromPhiOfZeroTo2PI ss).spectra.length = ss.spectra.length) ∧
    (∀ i0 i1 i2 i3, ss.InRange i0 i1 i2 i3 →
      (copySpectraFromPhiOfZeroTo2PI ss).getSpectrum i0 i1 i2 i3 ≠ ss.getSpectrum i0 i1 i2 i3 →
      (periodicAxis1 ss ∧ i1 = ss.numAngles1 - 1) ∨
      (periodicAxis3 ss ∧ i3 = ss.numAngles3 - 1)) ∧
    (¬ periodicAxis1 ss → ¬ periodicAxis3 ss → copySpectraFromPhiOfZeroTo2PI ss = ss) := by
  obtain ⟨hf, hget⟩ := copySpectra_closed_form ss hs
  refine ⟨?_, ?_, ?_⟩
  · obtain ⟨e, l⟩ := hf
    refine ⟨?_, ?_, ?_, ?_, ?_, ?_, ?_, ?_, ?_, ?_, l⟩ <;> rw [e]
  · intro i0 i1 i2 i3 hq hne
    rw [hget i0 i1 i2 i3 hq] at hne
    by_cases c1 : periodicAxis1 ss ∧ i1 = ss.numAngles1 - 1
    · exact Or.inl c1
    · by_cases c3 : periodicAxis3 ss ∧ i3 = ss.numAngles3 - 1
      · exact Or.inr c3
      · rw [if_neg c1, if_neg c3] at hne
        exact absurd rfl hne
  · intro p1 p3
    unfold copySpectraFromPhiOfZeroTo2PI
    simp only [p1, if_false, p3]

/-- On `periodicBoth` axis 3 is kept, and the sample `(0,1,0,1)` can only have
changed because it lies on the last index of a periodic axis. -/
theorem copySpectraFromPhiOfZeroTo2PI_frame_witness :
    periodicBoth.SizeOk ∧
    (copySpectraFromPhiOfZeroTo2PI periodicBoth).angles3 = periodicBoth.angles3 ∧
    ((copySpectraFromPhiOfZeroTo2PI periodicBoth).getSpectrum 0 1 0 1 ≠
        periodicBoth.getSpectrum 0 1 0 1 →
      (periodicAxis1 periodicBoth ∧ 1 = periodicBoth.numAngles1 - 1) ∨
      (periodicAxis3 periodicBoth ∧ 1 = periodicBoth.numAngles3 - 1)) :=
  ⟨by decide!,
   (copySpectraFromPhiOfZeroTo2PI_frame periodicBoth (by decide!)).1.2.2.2.2.2.2.2.1,
   (copySpectraFromPhiOfZeroTo2PI_frame periodicBoth (by decide!)).2.1 0 1 0 1 (by decide)⟩

/-- C8. `copySpectraFromPhiOfZeroTo2PI` is idempotent: applying it twice yields
exactly the sample set obtained by applying it once, also when both axis 1
and axis 3 are periodic. -/
theorem copySpectraFromPhiOfZeroTo2PI_idempotent (ss : SampleSet) (hs : ss.SizeOk) :
    copySpectraFromPhiOfZeroTo2PI (copySpectraFromPhiOfZeroTo2PI ss) =
      copySpectraFromPhiOfZeroTo2PI ss :=
  copySpectra_twice ss hs

/-- Idempotence on `periodicBoth`, whose axes 1 and 3 are both periodic. -/
theorem copySpectraFromPhiOfZeroTo2PI_idempotent_witness :
    periodicBoth.SizeOk ∧ periodicAxis1 periodicBoth ∧ periodicAxis3 periodicBoth ∧
    copySpectraFromPhiOfZeroTo2PI (copySpectraFromPhiOfZeroTo2PI periodicBoth) =
      copySpectraFromPhiOfZeroTo2PI periodicBoth :=
  ⟨by decide!, by decide!, by decide!,
   copySpectraFromPhiOfZeroTo2PI_idempotent periodicBoth (by decide!)⟩

/-! ## divideByCosineOutTheta in closed form -/

theorem setSpectrum_setSpectrum (s : SampleSet) (i0 i1 i2 i3 : Nat) (x y : Spectrum) :
    (s.setSpectrum i0 i1 i2 i3 x).setSpectrum i0 i1 i2 i3 y = s.setSpectrum i0 i1 i2 i3 y := by
  unfold SampleSet.setSpectrum SampleSet.index
  simp [List.set_set]

/-- The loops of `divideByCosineOutTheta` in closed form: every sample holds
`dividedSpectrum`, and everything except the spectra is unchanged. -/
theorem divideByCosineOutTheta_upd (cosOutTheta : Nat → Nat → Nat → Nat → ℚ)
    (ss : SampleSet) (hs : ss.SizeOk) :
    Upd ss (divideByCosineOutTheta cosOutTheta ss) (fun _ _ _ _ => True)
      (fun q0 q1 q2 q3 => dividedSpectrum cosOutTheta ss q0 q1 q2 q3) := by
  have h := Upd.loop4 (s := ss) ss.numAngles0 ss.numAngles1 ss.numAngles2 ss.numAngles3
    (fun a _ _ _ => a) (fun _ b _ _ => b) (fun _ _ c _ => c) (fun _ _ _ d => d)
    (fun i0 i1 i2 i3 s =>
      if cosOutTheta i0 i1 i2 i3 ≤ 0 ∧ 0 < i2 then
        let s1 := s.setSpectrum i0 i1 i2 i3 (s.getSpectrum i0 i1 (i2 - 1) i3)
        s1.setSpectrum i0 i1 i2 i3
          (Spectrum.divScalar (s1.getSpectrum i0 i1 i2 i3) (cosOutTheta i0 i1 (i2 - 1) i3))
      else
        s.setSpectrum i0 i1 i2 i3
          (Spectrum.divScalar (s.getSpectrum i0 i1 i2 i3) (cosOutTheta i0 i1 i2 i3)))
    (fun q0 q1 q2 q3 => dividedSpectrum cosOutTheta ss q0 q1 q2 q3)
    (by
      intro a b c d ha hb hc hd u hu
      have hp : ss.InRange a b c d := ⟨ha, hb, hc, hd⟩
      have hself : u.getSpectrum a b c d = ss.getSpectrum a b c d := by
        refine (hu.2 a b c d hp).2 ?_
        rintro ⟨x, y, z, w, -, -, -, -, hlex, e0, e1, e2, e3⟩
        simp only at e0 e1 e2 e3
        subst e0 e1 e2 e3
        unfold LexBefore at hlex
        omega
      by_cases hcond : cosOutTheta a b c d ≤ 0 ∧ 0 < c
      · obtain ⟨c2, rfl⟩ : ∃ c2, c = c2 + 1 := ⟨c - 1, by omega⟩
        have hlen : u.index a b (c2 + 1) d < u.spectra.length := by
          have hpu := (SameFrame.inRange_iff hu.1 _ _ _ _).2 hp
          have := u.index_lt hpu
          have hsu := SameFrame.sizeOk hu.1 hs
          unfold SampleSet.SizeOk at hsu
          omega
        have hnb : u.getSpectrum a b c2 d = dividedSpectrum cosOutTheta ss a b c2 d := by
          refine (hu.2 a b c2 d ⟨ha, hb, by omega, hd⟩).1 ?_
          exact ⟨a, b, c2, d, ha, hb, by omega, hd,
            Or.inr ⟨rfl, Or.inr ⟨rfl, Or.inl (by omega)⟩⟩, rfl, rfl, rfl, rfl⟩
        simp only [if_pos hcond, Nat.add_sub_cancel]
        rw [getSpectrum_setSpectrum_same u _ hlen, setSpectrum_setSpectrum]
        refine Upd.write hs hu hp _ ?_
        rw [hnb]
        simp only [dividedSpectrum, if_pos hcond.1]
      · simp only [if_neg hcond]
        refine Upd.write hs hu hp _ ?_
        rw [hself]
        cases c with
        | zero => simp only [dividedSpectrum]
        | succ c2 =>
          have hpos : ¬ cosOutTheta a b (c2 + 1) d ≤ 0 := fun hle => hcond ⟨hle, by omega⟩
          simp only [dividedSpectrum, if_neg hpos])
  refine Upd.congr h ?_
  intro q0 q1 q2 q3 hq
  exact ⟨fun _ => trivial, fun _ => ⟨q0, q1, q2, q3, hq.1, hq.2.1, hq.2.2.1, hq.2.2.2,
    rfl, rfl, rfl, rfl⟩⟩

/-- Carry-down in general: a sample with `i2 > 0` and a cosine `≤ 0` whose
neighbour at `i2 - 1` has a positive cosine `c` ends with the neighbour's
original spectrum divided by `c` twice. -/
theorem divideByCosineOutTheta_carry_down (cosOutTheta : Nat → Nat → Nat → Nat → ℚ)
    (ss : SampleSet) (hs : ss.SizeOk) (i0 i1 i2 i3 : Nat)
    (hq : ss.InRange i0 i1 (i2 + 1) i3) (hc : cosOutTheta i0 i1 (i2 + 1) i3 ≤ 0)
    (hn : 0 < cosOutTheta i0 i1 i2 i3) :
    (divideByCosineOutTheta cosOutTheta ss).getSpectrum i0 i1 (i2 + 1) i3 =
      Spectrum.divScalar
        (Spectrum.divScalar (ss.getSpectrum i0 i1 i2 i3) (cosOutTheta i0 i1 i2 i3))
        (cosOutTheta i0 i1 i2 i3) := by
  rw [((divideByCosineOutTheta_upd cosOutTheta ss hs).2 i0 i1 (i2 + 1) i3 hq).1 trivial]
  have hpos : ¬ cosOutTheta i0 i1 i2 i3 ≤ 0 := not_le.2 hn
  cases i2 with
  | zero => simp only [dividedSpectrum, if_pos hc]
  | succ k => simp only [dividedSpectrum, if_pos hc, if_neg hpos]

/-! ## Claims on divideByCosineOutTheta -/

/-- C1 (defect of the code). Scenario 4 of the specification: the outgoing
cosine is `0.5` at `i2 = 0` and `-0.01` at `i2 = 1`, the spectra are
`s₀ = (1)` and `s₁ = (5)`.  The claim expects `s₀ / 0.5 = (2)` at `i2 = 1`;
the code stores `(4)`, which is `s₀ / 0.5 / 0.5`: the neighbour it copies
has already been divided when it is read, and is divided once more. -/
theorem divideByCosineOutTheta_carry_down_divides_twice :
    grazingSamples.Valid ∧
    grazingCosine 0 0 1 0 ≤ 0 ∧ 0 < grazingCosine 0 0 0 0 ∧
    Spectrum.divScalar (grazingSamples.getSpectrum 0 0 0 0) (grazingCosine 0 0 0 0) = [2] ∧
    (divideByCosineOutTheta grazingCosine grazingSamples).getSpectrum 0 0 1 0 = [4] ∧
    (divideByCosineOutTheta grazingCosine grazingSamples).getSpectrum 0 0 1 0 =
      Spectrum.divScalar
        (Spectrum.divScalar (grazingSamples.getSpectrum 0 0 0 0) (grazingCosine 0 0 0 0))
        (grazingCosine 0 0 0 0) := by
  decide!

/-! ## Claims on the guard of fillIncomingPolar0Data -/

/-- C10, as stated, fails: for a HalfVector view over anisotropic data with
`axis0[0] = 0` the claim promises the averaging, but the guard holds, the
early return is taken and the sample set is returned unchanged, whereas the
averaging would have changed it. -/
theorem fillIncomingPolar0Data_guard_counterexample :
    polarAnisotropicSamples.isIsotropic = false ∧
    polarAnisotropicSamples.getAngle0 0 = 0 ∧
    BrdfKind.HalfVector.isSphericalCoordinatesBrdf = false ∧
    BrdfKind.HalfVector.isSpecularCoordinatesBrdf = false ∧
    fillIncomingPolar0Guard BrdfKind.HalfVector polarAnisotropicSamples = true ∧
    fillIncomingPolar0Data BrdfKind.HalfVector polarAnisotropicSamples =
      polarAnisotropicSamples ∧
    fillIncomingPolar0Average polarAnisotropicSamples ≠ polarAnisotropicSamples := by
  decide!

/-- C10, amended. The early return of `fillIncomingPolar0Data` is taken (the
sample set is returned as it is) whenever the data is not isotropic and the
BRDF is a Spherical or SpecularCentered view with `axis0[0] = 0`; it is taken
only if the data is not isotropic and `axis0[0] = 0`; and for every BRDF that
is isotropic or has `axis0[0] ≠ 0` the averaging is performed. -/
theorem fillIncomingPolar0Data_guard (kind : BrdfKind) (ss : SampleSet) :
    (ss.isIsotropic = false →
      (kind = BrdfKind.Spherical ∨ kind = BrdfKind.SpecularCentered) →
      ss.getAngle0 0 = 0 →
      fillIncomingPolar0Guard kind ss = true ∧ fillIncomingPolar0Data kind ss = ss) ∧
    (fillIncomingPolar0Guard kind ss = true →
      ss.isIsotropic = false ∧ ss.getAngle0 0 = 0) ∧
    (ss.isIsotropic = true ∨ ss.getAngle0 0 ≠ 0 →
      fillIncomingPolar0Guard kind ss = false ∧
      fillIncomingPolar0Data kind ss = fillIncomingPolar0Average ss) := by
  refine ⟨?_, ?_, ?_⟩
  · intro hiso hk h0
    have hg : fillIncomingPolar0Guard kind ss = true := by
      unfold fillIncomingPolar0Guard
      rcases hk with rfl | rfl <;>
        simp [BrdfKind.isSphericalCoordinatesBrdf, BrdfKind.isSpecularCoordinatesBrdf, hiso, h0]
    exact ⟨hg, by unfold fillIncomingPolar0Data; rw [if_pos hg]⟩
  · intro hg
    unfold fillIncomingPolar0Guard at hg
    simp only [Bool.and_eq_true, Bool.not_eq_true', decide_eq_true_eq] at hg
    exact ⟨hg.1.2, hg.2⟩
  · intro h
    have hg : fillIncomingPolar0Guard kind ss = false := by
      unfold fillIncomingPolar0Guard
      rcases h with h | h
      · simp [h]
      · simp [h]
    refine ⟨hg, ?_⟩
    unfold fillIncomingPolar0Data
    simp [hg]

/-- The three parts of the amended C10 on concrete BRDFs: a Spherical view
over `polarAnisotropicSamples` returns early, and an isotropic one is
averaged. -/
theorem fillIncomingPolar0Data_guard_witness :
    (polarAnisotropicSamples.isIsotropic = false ∧
      polarAnisotropicSamples.getAngle0 0 = 0 ∧
      fillIncomingPolar0Data BrdfKind.Spherical polarAnisotropicSamples =
        polarAnisotropicSamples) ∧
    (polarSamples.isIsotropic = true ∧
      fillIncomingPolar0Data BrdfKind.Spherical polarSamples =
        fillIncomingPolar0Average polarSamples) :=
  ⟨⟨by decide!, by decide!,
    ((fillIncomingPolar0Data_guard BrdfKind.Spherical polarAnisotropicSamples).1
      (by decide!) (Or.inl rfl) (by decide!)).2⟩,
   ⟨by decide!,
    ((fillIncomingPolar0Data_guard BrdfKind.Spherical polarSamples).2.2
      (Or.inl (by decide!))).2⟩⟩


/-! ## fillIncomingPolar0Data -/

theorem spectrum_add_map_range (W : Nat) (f : Nat → ℚ) (sp : Spectrum) (h : sp.length = W) :
    Spectrum.add ((List.range W).map f) sp =
      (List.range W).map (fun w => f w + sp.getD w 0) := by
  apply List.ext_getElem
  · simp [Spectrum.add, h]
  · intro i h1 h2
    have hi : i < sp.length := by
      simp only [List.length_map, List.length_range] at h2
      omega
    simp [Spectrum.add, List.getD_eq_getElem?_getD, List.getElem?_eq_getElem hi]

/-- The summation loop in closed form: the number of summed samples and the
component-wise sums. -/
theorem sumLoop_eq (ss : SampleSet) (i2 : Nat)
    (hlen : ∀ j, j < ss.numAngles3 → (ss.getSpectrum3 0 i2 j).length = ss.getNumWavelengths) :
    (sumLoop ss i2).numSamples = numAveraged3 ss ∧
    (sumLoop ss i2).sumSp = (List.range ss.getNumWavelengths).map (fun w =>
      ((List.range (numAveraged3 ss)).map (fun j => (ss.getSpectrum3 0 i2 j).getD w 0)).sum) := by
  have key := forRange_induct
    (fun k (st : SumState) =>
      (k < ss.numAngles3 ∨ ¬ (1 < ss.numAngles3 ∧
          isEqual (ss.getAngle3 0) (ss.getAngle3 (ss.numAngles3 - 1)) = true) →
        st.stopped = false ∧ st.numSamples = k ∧
        st.sumSp = (List.range ss.getNumWavelengths).map (fun w =>
          ((List.range k).map (fun j => (ss.getSpectrum3 0 i2 j).getD w 0)).sum)) ∧
      (k = ss.numAngles3 ∧ (1 < ss.numAngles3 ∧
          isEqual (ss.getAngle3 0) (ss.getAngle3 (ss.numAngles3 - 1)) = true) →
        st.numSamples = ss.numAngles3 - 1 ∧
        st.sumSp = (List.range ss.getNumWavelengths).map (fun w =>
          ((List.range (ss.numAngles3 - 1)).map
            (fun j => (ss.getSpectrum3 0 i2 j).getD w 0)).sum)))
    ss.numAngles3
    (fun i3 st =>
      if st.stopped then st
      else if i3 = ss.numAngles3 - 1 ∧
          isEqual (ss.getAngle3 0) (ss.getAngle3 (ss.numAngles3 - 1)) = true ∧
          1 < ss.numAngles3 then
        { st with stopped := true }
      else
        { st with sumSp := Spectrum.add st.sumSp (ss.getSpectrum3 0 i2 i3),
                  numSamples := st.numSamples + 1 })
    { numSamples := 0, sumSp := List.replicate ss.getNumWavelengths 0, stopped := false }
    ?_ ?_
  · unfold sumLoop numAveraged3
    by_cases hB : 1 < ss.numAngles3 ∧
        isEqual (ss.getAngle3 0) (ss.getAngle3 (ss.numAngles3 - 1)) = true
    · rw [if_pos hB]
      exact key.2 ⟨rfl, hB⟩
    · rw [if_neg hB]
      have := key.1 (Or.inr hB)
      exact ⟨this.2.1, this.2.2⟩
  · refine ⟨fun _ => ⟨rfl, rfl, ?_⟩, fun h => ?_⟩
    · apply List.ext_getElem <;> simp
    · omega
  · intro k st hk ih
    have ih1 := ih.1 (Or.inl hk)
    obtain ⟨hst, hnum, hsum⟩ := ih1
    by_cases hbr : k = ss.numAngles3 - 1 ∧
        isEqual (ss.getAngle3 0) (ss.getAngle3 (ss.numAngles3 - 1)) = true ∧
        1 < ss.numAngles3
    · simp only [hst, if_pos hbr, Bool.false_eq_true, if_false]
      refine ⟨fun h => ?_, fun _ => ?_⟩
      · rcases h with h | h
        · omega
        · exact absurd ⟨hbr.2.2, hbr.2.1⟩ h
      · refine ⟨by rw [hnum]; exact hbr.1, ?_⟩
        rw [hsum, hbr.1]
    · simp only [hst, if_neg hbr, Bool.false_eq_true, if_false]
      refine ⟨fun _ => ⟨trivial, by rw [hnum], ?_⟩, fun h => ?_⟩
      · rw [hsum, spectrum_add_map_range _ _ _ (hlen k hk)]
        apply List.map_congr_left
        intro w _
        simp [List.range_succ]
      · exact absurd ⟨by omega, h.2.2, h.2.1⟩ hbr

theorem SameFrame.numAveraged3_eq {s t : SampleSet} (h : SameFrame s t) :
    numAveraged3 t = numAveraged3 s := by
  unfold numAveraged3 SampleSet.getAngle3
  rw [h.1]

theorem SameFrame.getNumWavelengths_eq {s t : SampleSet} (h : SameFrame s t) :
    t.getNumWavelengths = s.getNumWavelengths := by
  unfold SampleSet.getNumWavelengths
  rw [h.1]

theorem SameFrame.numAngles3_eq {s t : SampleSet} (h : SameFrame s t) :
    t.numAngles3 = s.numAngles3 := by
  rw [h.1]

theorem Valid.getSpectrum_length {s : SampleSet} (h : s.Valid) {i0 i1 i2 i3 : Nat}
    (hq : s.InRange i0 i1 i2 i3) :
    (s.getSpectrum i0 i1 i2 i3).length = s.getNumWavelengths := by
  have hi : s.index i0 i1 i2 i3 < s.spectra.length := by
    have := s.index_lt hq
    have h1 := h.1
    omega
  unfold SampleSet.getSpectrum SampleSet.getNumWavelengths
  rw [List.getD_eq_getElem _ _ hi]
  exact h.2.2.2.2.2 _ (List.getElem_mem _)

theorem divScalar_map_range (W : Nat) (f : Nat → ℚ) (c : ℚ) :
    Spectrum.divScalar ((List.range W).map f) c = (List.range W).map (fun w => f w / c) := by
  simp [Spectrum.divScalar, List.map_map, Function.comp_def]

/-- The averaging loops in closed form: the samples `(0,0,i2,i3)` hold the
average over axis 3 of the original samples `(0,0,i2,·)`, every other sample
and everything except the spectra is as before. -/
theorem fillIncomingPolar0Average_upd (ss : SampleSet) (hv : ss.Valid)
    (h0 : 0 < ss.numAngles0) (h1 : 0 < ss.numAngles1) :
    Upd ss (fillIncomingPolar0Average ss) (fun q0 q1 _ _ => q0 = 0 ∧ q1 = 0)
      (fun _ _ q2 _ => averageOverAxis3 ss q2) := by
  have hs : ss.SizeOk := hv.1
  have key := forRange_induct
    (fun k u => Upd ss u (fun q0 q1 q2 _ => q0 = 0 ∧ q1 = 0 ∧ q2 < k)
      (fun _ _ q2 _ => averageOverAxis3 ss q2))
    ss.numAngles2
    (fun i2 s =>
      let st := sumLoop s i2
      let avgSp := Spectrum.divScalar st.sumSp (st.numSamples : ℚ)
      forRange s.numAngles3 (fun i3 t => t.setSpectrum3 0 i2 i3 avgSp) s)
    ss ?_ ?_
  · exact Upd.congr key (fun a b c d hq => ⟨fun h => ⟨h.1, h.2.1⟩, fun h => ⟨h.1, h.2, hq.2.2.1⟩⟩)
  · exact Upd.start ss _ _ (fun a b c d _ h => by omega)
  · intro k u hk ih
    have hf : SameFrame ss u := ih.1
    have hcell : ∀ j, j < ss.numAngles3 →
        u.getSpectrum3 0 k j = ss.getSpectrum3 0 k j := by
      intro j hj
      exact ((ih.2 0 0 k j ⟨h0, h1, hk, hj⟩).2 (fun h => by omega))
    have hlen : ∀ j, j < u.numAngles3 →
        (u.getSpectrum3 0 k j).length = u.getNumWavelengths := by
      intro j hj
      rw [SameFrame.numAngles3_eq hf] at hj
      rw [hcell j hj, SameFrame.getNumWavelengths_eq hf]
      exact Valid.getSpectrum_length hv ⟨h0, h1, hk, hj⟩
    have havg : Spectrum.divScalar (sumLoop u k).sumSp ((sumLoop u k).numSamples : ℚ) =
        averageOverAxis3 ss k := by
      obtain ⟨e1, e2⟩ := sumLoop_eq u k hlen
      rw [e1, e2, divScalar_map_range, SameFrame.numAveraged3_eq hf,
        SameFrame.getNumWavelengths_eq hf]
      unfold averageOverAxis3
      apply List.map_congr_left
      intro w _
      congr 2
      apply List.map_congr_left
      intro j hj
      rw [hcell j]
      have := List.mem_range.1 hj
      unfold numAveraged3 at this
      split at this <;> omega
    show Upd ss (forRange u.numAngles3 (fun i3 t => t.setSpectrum3 0 k i3
        (Spectrum.divScalar (sumLoop u k).sumSp ((sumLoop u k).numSamples : ℚ))) u) _ _
    rw [havg, SameFrame.numAngles3_eq hf]
    have inner := forRange_induct
      (fun j t => Upd ss t (fun q0 q1 q2 q3 => (q0 = 0 ∧ q1 = 0 ∧ q2 < k) ∨
          (q0 = 0 ∧ q1 = 0 ∧ q2 = k ∧ q3 < j))
        (fun _ _ q2 _ => averageOverAxis3 ss q2))
      ss.numAngles3 (fun i3 t => t.setSpectrum3 0 k i3 (averageOverAxis3 ss k)) u ?_ ?_
    · exact Upd.congr inner (fun a b c d hq =>
        ⟨fun h => by rcases h with h | h <;> exact ⟨h.1, h.2.1, by omega⟩,
         fun h => by
          by_cases hc : c < k
          · exact Or.inl ⟨h.1, h.2.1, hc⟩
          · exact Or.inr ⟨h.1, h.2.1, by omega, hq.2.2.2⟩⟩)
    · exact Upd.congr ih (fun a b c d _ =>
        ⟨fun h => Or.inl h, fun h => by
          rcases h with h | h
          · exact h
          · omega⟩)
    · intro j t hj iht
      have hw := Upd.write hs iht (show ss.InRange 0 0 k j from ⟨h0, h1, hk, hj⟩)
        (averageOverAxis3 ss k) rfl
      exact Upd.congr hw (fun a b c d _ =>
        ⟨fun h => by
          rcases h with (h | h) | h
          · exact Or.inl h
          · exact Or.inr ⟨h.1, h.2.1, h.2.2.1, by omega⟩
          · exact Or.inr ⟨h.1, h.2.1, h.2.2.1, by omega⟩,
         fun h => by
          rcases h with h | h
          · exact Or.inl (Or.inl h)
          · by_cases hd : d < j
            · exact Or.inl (Or.inr ⟨h.1, h.2.1, h.2.2.1, hd⟩)
            · exact Or.inr ⟨h.1, h.2.1, h.2.2.1, by omega⟩⟩)


/-! ## Claims on the average of fillIncomingPolar0Data -/

/-- C9, as stated, fails: on the isotropic sample set `polarSamples` (one
axis-1 sample, spectra `(1)` and `(3)` along axis 3) the average over axis 1
of the original spectra at `(0,·,0,0)` is the original spectrum `(1)` (and
`(0)` if the only sample were left out), but the code stores `(2)`, the
average over axis 3. -/
theorem fillIncomingPolar0Data_axis1_counterexample :
    polarSamples.Valid ∧
    fillIncomingPolar0Guard BrdfKind.Spherical polarSamples = false ∧
    (fillIncomingPolar0Data BrdfKind.Spherical polarSamples).getSpectrum 0 0 0 0 = [2] ∧
    averageOverAxis1 polarSamples 1 0 0 = [1] ∧
    averageOverAxis1 polarSamples 0 0 0 = [0] ∧
    (fillIncomingPolar0Data BrdfKind.Spherical polarSamples).getSpectrum 0 0 0 0 ≠
      averageOverAxis1 polarSamples 1 0 0 ∧
    (fillIncomingPolar0Data BrdfKind.Spherical polarSamples).getSpectrum 0 0 0 0 ≠
      averageOverAxis1 polarSamples 0 0 0 := by
  decide!

/-- C9, amended. When the early return is not taken, after
`fillIncomingPolar0Data` the spectra at `i0 = 0` addressed by the three-index
accessor are, for every fixed `i2`, identical across axis 3: each is the
average over axis 3 of the original spectra at `(0, i2, ·)`, where the last
axis-3 sample is left out when `N3 > 1` and the axis-3 endpoints are nearly
equal. -/
theorem fillIncomingPolar0Data_average_axis3 (kind : BrdfKind) (ss : SampleSet)
    (hv : ss.Valid) (h0 : 0 < ss.numAngles0) (h1 : 0 < ss.numAngles1)
    (hg : fillIncomingPolar0Guard kind ss = false)
    (i2 i3 : Nat) (hi2 : i2 < ss.numAngles2) (hi3 : i3 < ss.numAngles3) :
    (fillIncomingPolar0Data kind ss).getSpectrum3 0 i2 i3 = averageOverAxis3 ss i2 := by
  unfold fillIncomingPolar0Data
  rw [hg]
  exact ((fillIncomingPolar0Average_upd ss hv h0 h1).2 0 0 i2 i3 ⟨h0, h1, hi2, hi3⟩).1 ⟨rfl, rfl⟩

/-- The amended C9 on `polarSamples`, where both samples are averaged to `(2)`,
and on `polarClosedSamples`, where the last of three samples is left out and
the average of `(1)` and `(3)` is again `(2)`. -/
theorem fillIncomingPolar0Data_average_axis3_witness :
    (polarSamples.Valid ∧ numAveraged3 polarSamples = 2 ∧
      averageOverAxis3 polarSamples 0 = [2] ∧
      (fillIncomingPolar0Data BrdfKind.Spherical polarSamples).getSpectrum3 0 0 1 =
        averageOverAxis3 polarSamples 0) ∧
    (polarClosedSamples.Valid ∧ numAveraged3 polarClosedSamples = 2 ∧
      averageOverAxis3 polarClosedSamples 0 = [2] ∧
      (fillIncomingPolar0Data BrdfKind.HalfVector polarClosedSamples).getSpectrum3 0 0 2 =
        averageOverAxis3 polarClosedSamples 0) :=
  ⟨⟨by decide!, by decide!, by decide!,
    fillIncomingPolar0Data_average_axis3 BrdfKind.Spherical polarSamples (by decide!)
      (by decide!) (by decide!) (by decide!) 0 1 (by decide!) (by decide!)⟩,
   ⟨by decide!, by decide!, by decide!,
    fillIncomingPolar0Data_average_axis3 BrdfKind.HalfVector polarClosedSamples (by decide!)
      (by decide!) (by decide!) (by decide!) 0 2 (by decide!) (by decide!)⟩⟩


/-! ## The frame of fillSymmetricBrdf -/

/-- A counted loop that writes `f i` to position `i` of an array of size `n`
produces the array `f 0, …, f (n-1)`. -/
theorem forRange_set_eq_map {α : Type} (n : Nat) (f : Nat → α) (l0 : List α)
    (h : l0.length = n) :
    forRange n (fun i l => l.set i (f i)) l0 = (List.range n).map f := by
  have key := forRange_induct
    (fun k (l : List α) => l.length = n ∧ ∀ i, i < k → l[i]? = some (f i))
    n (fun i l => l.set i (f i)) l0 ⟨h, fun i hi => by omega⟩ ?_
  · obtain ⟨hl, hget⟩ := key
    apply List.ext_getElem?
    intro i
    by_cases hi : i < n
    · rw [hget i hi]
      simp [List.getElem?_map, List.getElem?_range hi]
    · rw [List.getElem?_eq_none (by omega), List.getElem?_eq_none (by simp; omega)]
  · intro k l hk ih
    refine ⟨by simp [ih.1], fun i hi => ?_⟩
    by_cases hik : i = k
    · subst hik
      simp [List.getElem?_set, ih.1, hk]
    · rw [List.getElem?_set_ne (fun e => hik e.symm)]
      exact ih.2 i (by omega)

theorem forRange_setAngle3 (n : Nat) (f : Nat → ℚ) (s : SampleSet) :
    forRange n (fun i t => t.setAngle3 i (f i)) s =
      { s with angles3 := forRange n (fun i l => l.set i (f i)) s.angles3 } := by
  induction n with
  | zero => rfl
  | succ n ih => rw [forRange_succ, ih, forRange_succ]; rfl

theorem forRange_setWavelength (n : Nat) (f : Nat → ℚ) (s : SampleSet) :
    forRange n (fun i t => t.setWavelength i (f i)) s =
      { s with wavelengths := forRange n (fun i l => l.set i (f i)) s.wavelengths } := by
  induction n with
  | zero => rfl
  | succ n ih => rw [forRange_succ, ih, forRange_succ]; rfl

theorem map_getD_range (l : List ℚ) :
    (List.range l.length).map (fun i => l.getD i 0) = l := by
  apply List.ext_getElem
  · simp
  · intro i h1 h2
    simp only [List.length_map, List.length_range] at h1
    simp [List.getD_eq_getElem?_getD, List.getElem?_eq_getElem h1]

/-- The loop of `resizeWavelengths` changes the spectra only and keeps their
number. -/
theorem resizeWavelengths_eq (ss : SampleSet) (W : Nat) :
    ∃ sp : SpectrumList, sp.length = ss.spectra.length ∧
      ss.resizeWavelengths W =
        { ss with spectra := sp, wavelengths := resizeArrayf ss.wavelengths W } := by
  have key := forRange_induct (fun _ s => SameFrame ss s)
    (ss.numAngles0 * ss.numAngles1 * ss.numAngles2 * ss.numAngles3)
    (fun i s => { s with spectra := s.spectra.set i (List.replicate W 0) }) ss
    (SameFrame.refl ss) ?_
  · refine ⟨_, key.2, ?_⟩
    unfold SampleSet.resizeWavelengths
    simp only []
    rw [key.1]
  · intro i t _ ih
    refine ⟨?_, by simp [ih.2]⟩
    simp only []
    rw [ih.1]

theorem resizeArrayf_length (a : Arrayf) (n : Nat) : (resizeArrayf a n).length = n := by
  unfold resizeArrayf
  split
  · assumption
  · simp

/-- The members of a freshly constructed sample set. -/
theorem create_eq (n0 n1 n2 n3 : Nat) (cm : ColorModel) (W : Nat) :
    ∃ sp : SpectrumList, sp.length = n0 * n1 * n2 * n3 ∧
      SampleSet.create n0 n1 n2 n3 cm W =
        { numAngles0 := n0, numAngles1 := n1, numAngles2 := n2, numAngles3 := n3,
          angles0 := resizeArrayf [] n0, angles1 := resizeArrayf [] n1,
          angles2 := resizeArrayf [] n2, angles3 := resizeArrayf [] n3,
          spectra := sp, colorModel := cm,
          wavelengths :=
            if cm = ColorModel.SPECTRAL_MODEL then resizeArrayf [] W
            else if cm = ColorModel.MONOCHROMATIC_MODEL then [0] else [0, 0, 0],
          equalIntervalAngles0 := false, equalIntervalAngles1 := false,
          equalIntervalAngles2 := false, equalIntervalAngles3 := false, oneSide := false } := by
  unfold SampleSet.create
  simp only []
  by_cases h1 : cm = ColorModel.SPECTRAL_MODEL
  · obtain ⟨sp, hl, he⟩ := resizeWavelengths_eq
      { (SampleSet.blank cm).resizeAngles n0 n1 n2 n3 with colorModel := cm } W
    rw [if_pos h1, if_pos h1, he]
    exact ⟨sp, by simpa [SampleSet.resizeAngles, SampleSet.blank, resizeVector] using hl,
      by simp [SampleSet.resizeAngles, SampleSet.blank]⟩
  · rw [if_neg h1, if_neg h1]
    by_cases h2 : cm = ColorModel.MONOCHROMATIC_MODEL
    · obtain ⟨sp, hl, he⟩ := resizeWavelengths_eq
        { (SampleSet.blank cm).resizeAngles n0 n1 n2 n3 with colorModel := cm } 1
      rw [if_pos h2, if_pos h2, he]
      exact ⟨sp, by simpa [SampleSet.resizeAngles, SampleSet.blank, resizeVector] using hl,
        by simp [SampleSet.resizeAngles, SampleSet.blank]⟩
    · obtain ⟨sp, hl, he⟩ := resizeWavelengths_eq
        { (SampleSet.blank cm).resizeAngles n0 n1 n2 n3 with colorModel := cm } 3
      rw [if_neg h2, if_neg h2, he]
      exact ⟨sp, by simpa [SampleSet.resizeAngles, SampleSet.blank, resizeVector] using hl,
        by simp [SampleSet.resizeAngles, SampleSet.blank]⟩

/-- The first loop collects the mirrors `2π − φ` of the omitted angles, in the
order of the input. -/
theorem collectFilledAngles_eq (ss : SampleSet) (h : ss.angles3.length = ss.numAngles3) :
    collectFilledAngles ss =
      (ss.angles3.filter (fun x => angleOmitted x)).map (fun x => MAX_ANGLE3 - x) := by
  have key := forRange_induct
    (fun k (l : List ℚ) =>
      l = ((ss.angles3.take k).filter (fun x => angleOmitted x)).map (fun x => MAX_ANGLE3 - x))
    ss.numAngles3
    (fun i filledAngles =>
      let outPhi := ss.getAngle3 i
      if angleOmitted outPhi then filledAngles ++ [MAX_ANGLE3 - outPhi] else filledAngles)
    [] (by simp) ?_
  · unfold collectFilledAngles
    rw [key, ← h, List.take_length]
  · intro k l hk ih
    have hk2 : k < ss.angles3.length := by omega
    have hget : ss.getAngle3 k = ss.angles3[k] := by
      unfold SampleSet.getAngle3
      rw [List.getD_eq_getElem _ _ hk2]
    simp only [hget]
    rw [List.take_succ, List.getElem?_eq_getElem hk2, List.filter_append, List.map_append, ← ih]
    by_cases ho : angleOmitted ss.angles3[k] = true
    · simp [ho]
    · simp [ho]

/-- The angle loop of `fillSymmetricBrdf` stores the input angles followed by
the collected mirrors. -/
theorem angles_then_mirrors (orig filled : List ℚ) (n : Nat) (h : orig.length = n) :
    (List.range (n + filled.length)).map
        (fun i => if i < n then orig.getD i 0 else filled.getD (i - n) 0) =
      orig ++ filled := by
  apply List.ext_getElem
  · simp [h]
  · intro i h1 h2
    simp only [List.length_map, List.length_range] at h1
    by_cases hi : i < n
    · have hi2 : i < orig.length := by omega
      simp [hi, List.getD_eq_getElem?_getD, List.getElem?_eq_getElem hi2,
        List.getElem_append_left hi2]
    · have hi2 : i - n < filled.length := by omega
      have hi3 : orig.length ≤ i := by omega
      simp [hi, List.getD_eq_getElem?_getD, List.getElem?_eq_getElem hi2,
        List.getElem_append_right hi3, h]


/-- The result of `fillSymmetricBrdf` before its spectra are filled: sizes,
axes, colour model and wavelengths. -/
theorem fillSymmetricBrdfFrame_eq (ss : SampleSet) (h3 : ss.angles3.length = ss.numAngles3) :
    ∃ (sp : SpectrumList) (wl : Arrayf),
      sp.length = ss.numAngles0 * ss.numAngles1 * ss.numAngles2 *
        (ss.numAngles3 + (collectFilledAngles ss).length) ∧
      (ss.ColorOk → wl = ss.wavelengths) ∧
      fillSymmetricBrdfFrame ss =
        { numAngles0 := ss.numAngles0, numAngles1 := ss.numAngles1,
          numAngles2 := ss.numAngles2,
          numAngles3 := ss.numAngles3 + (collectFilledAngles ss).length,
          angles0 := ss.angles0, angles1 := ss.angles1, angles2 := ss.angles2,
          angles3 := sortAngles (ss.angles3 ++ collectFilledAngles ss),
          spectra := sp, colorModel := ss.colorModel, wavelengths := wl,
          equalIntervalAngles0 := false, equalIntervalAngles1 := false,
          equalIntervalAngles2 := false, equalIntervalAngles3 := false, oneSide := false } := by
  obtain ⟨sp, hl, he⟩ := create_eq ss.numAngles0 ss.numAngles1 ss.numAngles2
    (ss.numAngles3 + (collectFilledAngles ss).length) ss.colorModel ss.getNumWavelengths
  have hbody : (fun i (s : SampleSet) =>
      if i < ss.numAngles3 then s.setAngle3 i (ss.getAngle3 i)
      else s.setAngle3 i ((collectFilledAngles ss).getD (i - ss.numAngles3) 0)) =
      (fun i (s : SampleSet) => s.setAngle3 i
        (if i < ss.numAngles3 then ss.angles3.getD i 0
         else (collectFilledAngles ss).getD (i - ss.numAngles3) 0)) := by
    funext i s
    split <;> rfl
  unfold fillSymmetricBrdfFrame
  simp only []
  rw [he]
  simp only []
  rw [hbody, forRange_setAngle3]
  simp only []
  rw [forRange_set_eq_map _ _ _ (resizeArrayf_length _ _), angles_then_mirrors _ _ _ h3]
  unfold SampleSet.getNumWavelengths SampleSet.getWavelength
  rw [forRange_setWavelength]
  simp only []
  rw [forRange_set_eq_map _ _ _ rfl]
  refine ⟨sp, _, hl, ?_, rfl⟩
  intro hc
  have hlen : (if ss.colorModel = ColorModel.SPECTRAL_MODEL then
        resizeArrayf [] ss.wavelengths.length
      else if ss.colorModel = ColorModel.MONOCHROMATIC_MODEL then [0]
      else [0, 0, 0]).length = ss.wavelengths.length := by
    obtain ⟨hm, hr, hx⟩ := hc
    cases hcm : ss.colorModel
    · simp [hm hcm]
    · simp [hr hcm]
    · simp [hx hcm]
    · simp [resizeArrayf_length]
  rw [hlen, map_getD_range]

theorem SameFrame.getAngle3_eq {s t : SampleSet} (h : SameFrame s t) (i : Nat) :
    t.getAngle3 i = s.getAngle3 i := by
  unfold SampleSet.getAngle3
  rw [h.1]

theorem fillSymmetricBrdfFrame_sizeOk (ss : SampleSet)
    (h3 : ss.angles3.length = ss.numAngles3) : (fillSymmetricBrdfFrame ss).SizeOk := by
  obtain ⟨sp, wl, hl, -, he⟩ := fillSymmetricBrdfFrame_eq ss h3
  unfold SampleSet.SizeOk
  rw [he]
  exact hl

/-- The four nested loops of `fillSymmetricBrdf` in closed form: every sample
of the result holds the input spectrum at the index found by the search for
its axis-3 angle; sizes, axes, colour model and wavelengths are those of the
frame. -/
theorem fillSymmetricBrdf_upd (ss : SampleSet) (h3 : ss.angles3.length = ss.numAngles3) :
    Upd (fillSymmetricBrdfFrame ss) (fillSymmetricBrdf ss) (fun _ _ _ _ => True)
      (fun q0 q1 q2 q3 =>
        ss.getSpectrum q0 q1 q2 (findOrigIndex ss ((fillSymmetricBrdfFrame ss).getAngle3 q3))) := by
  have hs := fillSymmetricBrdfFrame_sizeOk ss h3
  have h := Upd.loop4 (s := fillSymmetricBrdfFrame ss)
    (fillSymmetricBrdfFrame ss).numAngles0 (fillSymmetricBrdfFrame ss).numAngles1
    (fillSymmetricBrdfFrame ss).numAngles2 (fillSymmetricBrdfFrame ss).numAngles3
    (fun a _ _ _ => a) (fun _ b _ _ => b) (fun _ _ c _ => c) (fun _ _ _ d => d)
    (fun a b c d u => u.setSpectrum a b c d
      (ss.getSpectrum a b c (findOrigIndex ss (u.getAngle3 d))))
    (fun q0 q1 q2 q3 =>
      ss.getSpectrum q0 q1 q2 (findOrigIndex ss ((fillSymmetricBrdfFrame ss).getAngle3 q3)))
    (by
      intro a b c d ha hb hc hd u hu
      refine Upd.write hs hu ⟨ha, hb, hc, hd⟩ _ ?_
      rw [SameFrame.getAngle3_eq hu.1])
  refine Upd.congr h ?_
  intro q0 q1 q2 q3 hq
  exact ⟨fun _ => trivial, fun _ => ⟨q0, q1, q2, q3, hq.1, hq.2.1, hq.2.2.1, hq.2.2.2,
    rfl, rfl, rfl, rfl⟩⟩


/-! ## The search loop of fillSymmetricBrdf -/

/-- The search loop resumed at `start` with `rem` iterations left stops at the
first matching index from `start` on, or at `start + rem` when there is none. -/
theorem searchOrigIndex_spec (ss : SampleSet) (outPhi : ℚ) (rem start : Nat) :
    start ≤ searchOrigIndex ss outPhi rem start ∧
    searchOrigIndex ss outPhi rem start ≤ start + rem ∧
    (∀ j, start ≤ j → j < searchOrigIndex ss outPhi rem start →
      outPhiEqual (ss.getAngle3 j) outPhi = false) ∧
    (searchOrigIndex ss outPhi rem start < start + rem →
      outPhiEqual (ss.getAngle3 (searchOrigIndex ss outPhi rem start)) outPhi = true) := by
  induction rem generalizing start with
  | zero =>
    refine ⟨le_refl _, le_refl _, fun j h1 h2 => ?_, fun h => ?_⟩
    · simp only [searchOrigIndex] at h2
      omega
    · simp only [searchOrigIndex] at h
      omega
  | succ rem ih =>
    by_cases hm : outPhiEqual (ss.getAngle3 start) outPhi = true
    · have e : searchOrigIndex ss outPhi (rem + 1) start = start := by
        simp only [searchOrigIndex, hm, if_true]
      rw [e]
      exact ⟨le_refl _, by omega, fun j h1 h2 => by omega, fun _ => hm⟩
    · have e : searchOrigIndex ss outPhi (rem + 1) start =
          searchOrigIndex ss outPhi rem (start + 1) := by
        simp only [searchOrigIndex, hm, if_false]
        rfl
      rw [e]
      obtain ⟨i1, i2, i3, i4⟩ := ih (start + 1)
      refine ⟨by omega, by omega, fun j h1 h2 => ?_, fun h => i4 (by omega)⟩
      by_cases hj : j = start
      · subst hj
        simpa using hm
      · exact i3 j (by omega) h2

/-- The search returns the first matching index when there is one. -/
theorem findOrigIndex_first (ss : SampleSet) (outPhi : ℚ) (j : Nat) (hj : j < ss.numAngles3)
    (hm : outPhiEqual (ss.getAngle3 j) outPhi = true)
    (hfirst : ∀ j2, j2 < j → outPhiEqual (ss.getAngle3 j2) outPhi = false) :
    findOrigIndex ss outPhi = j := by
  obtain ⟨-, h2, h3, h4⟩ := searchOrigIndex_spec ss outPhi ss.numAngles3 0
  unfold findOrigIndex
  rcases Nat.lt_trichotomy (searchOrigIndex ss outPhi ss.numAngles3 0) j with h | h | h
  · have := h4 (by omega)
    rw [hfirst _ h] at this
    exact absurd this (by simp)
  · exact h
  · have := h3 j (Nat.zero_le _) h
    rw [hm] at this
    exact absurd this (by simp)

/-- The search ends inside the input axis whenever some input angle matches,
at the first match. -/
theorem findOrigIndex_of_match (ss : SampleSet) (outPhi : ℚ) (j : Nat) (hj : j < ss.numAngles3)
    (hm : outPhiEqual (ss.getAngle3 j) outPhi = true) :
    findOrigIndex ss outPhi < ss.numAngles3 ∧
    outPhiEqual (ss.getAngle3 (findOrigIndex ss outPhi)) outPhi = true ∧
    ∀ j2, j2 < findOrigIndex ss outPhi → outPhiEqual (ss.getAngle3 j2) outPhi = false := by
  obtain ⟨-, h2, h3, h4⟩ := searchOrigIndex_spec ss outPhi ss.numAngles3 0
  unfold findOrigIndex
  have hlt : searchOrigIndex ss outPhi ss.numAngles3 0 < ss.numAngles3 := by
    by_contra hge
    have := h3 j (Nat.zero_le _) (by omega)
    rw [hm] at this
    exact absurd this (by simp)
  exact ⟨hlt, h4 (by omega), fun j2 hj2 => h3 j2 (Nat.zero_le _) hj2⟩

theorem outPhiEqual_self (x : ℚ) : outPhiEqual x x = true := by
  simp [outPhiEqual]


/-! ## The result of fillSymmetricBrdf -/

/-- The members of the result of `fillSymmetricBrdf`, except the contents of
its spectra. -/
theorem fillSymmetricBrdf_eq (ss : SampleSet) (h3 : ss.angles3.length = ss.numAngles3) :
    ∃ (sp : SpectrumList) (wl : Arrayf),
      sp.length = ss.numAngles0 * ss.numAngles1 * ss.numAngles2 *
        (ss.numAngles3 + (collectFilledAngles ss).length) ∧
      (ss.ColorOk → wl = ss.wavelengths) ∧
      fillSymmetricBrdf ss =
        { numAngles0 := ss.numAngles0, numAngles1 := ss.numAngles1,
          numAngles2 := ss.numAngles2,
          numAngles3 := ss.numAngles3 + (collectFilledAngles ss).length,
          angles0 := ss.angles0, angles1 := ss.angles1, angles2 := ss.angles2,
          angles3 := sortAngles (ss.angles3 ++ collectFilledAngles ss),
          spectra := sp, colorModel := ss.colorModel, wavelengths := wl,
          equalIntervalAngles0 := false, equalIntervalAngles1 := false,
          equalIntervalAngles2 := false, equalIntervalAngles3 := false, oneSide := false } := by
  obtain ⟨sp, wl, hl, hw, he⟩ := fillSymmetricBrdfFrame_eq ss h3
  obtain ⟨hf1, hf2⟩ := (fillSymmetricBrdf_upd ss h3).1
  refine ⟨(fillSymmetricBrdf ss).spectra, wl, ?_, hw, ?_⟩
  · rw [hf2, he]
    exact hl
  · rw [hf1, he]

theorem fillSymmetricBrdf_numAngles3 (ss : SampleSet) (h3 : ss.angles3.length = ss.numAngles3) :
    (fillSymmetricBrdf ss).numAngles3 =
      ss.numAngles3 + (ss.angles3.filter (fun x => angleOmitted x)).length := by
  obtain ⟨sp, wl, -, -, he⟩ := fillSymmetricBrdf_eq ss h3
  rw [he, collectFilledAngles_eq ss h3]
  simp

theorem fillSymmetricBrdf_angles3 (ss : SampleSet) (h3 : ss.angles3.length = ss.numAngles3) :
    (fillSymmetricBrdf ss).angles3 =
      sortAngles (ss.angles3 ++
        (ss.angles3.filter (fun x => angleOmitted x)).map (fun x => MAX_ANGLE3 - x)) := by
  obtain ⟨sp, wl, -, -, he⟩ := fillSymmetricBrdf_eq ss h3
  rw [he, collectFilledAngles_eq ss h3]

theorem fillSymmetricBrdf_inRange (ss : SampleSet) (h3 : ss.angles3.length = ss.numAngles3)
    (i0 i1 i2 k : Nat) :
    (fillSymmetricBrdf ss).InRange i0 i1 i2 k ↔
      i0 < ss.numAngles0 ∧ i1 < ss.numAngles1 ∧ i2 < ss.numAngles2 ∧
        k < (fillSymmetricBrdf ss).numAngles3 := by
  obtain ⟨sp, wl, -, -, he⟩ := fillSymmetricBrdf_eq ss h3
  unfold SampleSet.InRange
  rw [he]

/-- Every sample of the result holds the input spectrum at the index found by
the search for its axis-3 angle. -/
theorem fillSymmetricBrdf_getSpectrum (ss : SampleSet) (h3 : ss.angles3.length = ss.numAngles3)
    (i0 i1 i2 k : Nat) (hq : (fillSymmetricBrdf ss).InRange i0 i1 i2 k) :
    (fillSymmetricBrdf ss).getSpectrum i0 i1 i2 k =
      ss.getSpectrum i0 i1 i2 (findOrigIndex ss ((fillSymmetricBrdf ss).getAngle3 k)) := by
  have hu := fillSymmetricBrdf_upd ss h3
  have hq2 : (fillSymmetricBrdfFrame ss).InRange i0 i1 i2 k :=
    (SameFrame.inRange_iff hu.1 _ _ _ _).1 hq
  rw [(hu.2 i0 i1 i2 k hq2).1 trivial, SameFrame.getAngle3_eq hu.1]

theorem fillSymmetricBrdf_angles3_length (ss : SampleSet)
    (h3 : ss.angles3.length = ss.numAngles3) :
    (fillSymmetricBrdf ss).angles3.length = (fillSymmetricBrdf ss).numAngles3 := by
  rw [fillSymmetricBrdf_angles3 ss h3, fillSymmetricBrdf_numAngles3 ss h3]
  unfold sortAngles
  rw [List.length_insertionSort]
  simp [h3]

/-- The axis 3 of the result is a rearrangement of the input angles followed
by the mirrors. -/
theorem fillSymmetricBrdf_angles3_perm (ss : SampleSet)
    (h3 : ss.angles3.length = ss.numAngles3) :
    List.Perm (fillSymmetricBrdf ss).angles3
      (ss.angles3 ++
        (ss.angles3.filter (fun x => angleOmitted x)).map (fun x => MAX_ANGLE3 - x)) := by
  rw [fillSymmetricBrdf_angles3 ss h3]
  exact List.perm_insertionSort _ _

theorem fillSymmetricBrdf_angles3_sorted (ss : SampleSet)
    (h3 : ss.angles3.length = ss.numAngles3) :
    List.Sorted (fun x y => x ≤ y) (fillSymmetricBrdf ss).angles3 := by
  rw [fillSymmetricBrdf_angles3 ss h3]
  exact List.sorted_insertionSort _ _

/-- An output angle is an input angle or the mirror of an omitted one. -/
theorem fillSymmetricBrdf_getAngle3_cases (ss : SampleSet)
    (h3 : ss.angles3.length = ss.numAngles3) (k : Nat)
    (hk : k < (fillSymmetricBrdf ss).numAngles3) :
    (∃ j, j < ss.numAngles3 ∧ ss.getAngle3 j = (fillSymmetricBrdf ss).getAngle3 k) ∨
    (∃ j, j < ss.numAngles3 ∧ angleOmitted (ss.getAngle3 j) = true ∧
      (fillSymmetricBrdf ss).getAngle3 k = MAX_ANGLE3 - ss.getAngle3 j) := by
  have hk2 : k < (fillSymmetricBrdf ss).angles3.length := by
    rw [fillSymmetricBrdf_angles3_length ss h3]; exact hk
  have hmem : (fillSymmetricBrdf ss).getAngle3 k ∈ (fillSymmetricBrdf ss).angles3 := by
    unfold SampleSet.getAngle3
    rw [List.getD_eq_getElem _ _ hk2]
    exact List.getElem_mem _
  have hmem2 := (fillSymmetricBrdf_angles3_perm ss h3).mem_iff.1 hmem
  rcases List.mem_append.1 hmem2 with h | h
  · left
    obtain ⟨j, hj, e⟩ := List.getElem_of_mem h
    refine ⟨j, by omega, ?_⟩
    unfold SampleSet.getAngle3 at e ⊢
    rw [List.getD_eq_getElem _ _ hj]
    exact e
  · right
    obtain ⟨x, hx, e⟩ := List.mem_map.1 h
    obtain ⟨hx1, hx2⟩ := List.mem_filter.1 hx
    obtain ⟨j, hj, e2⟩ := List.getElem_of_mem hx1
    refine ⟨j, by omega, ?_, ?_⟩
    · unfold SampleSet.getAngle3
      rw [List.getD_eq_getElem _ _ hj, e2]
      exact hx2
    · unfold SampleSet.getAngle3 at e ⊢
      rw [List.getD_eq_getElem _ _ hj, e2]
      exact e.symm

/-- Every member of the rearranged list is the angle of some output index. -/
theorem fillSymmetricBrdf_exists_index (ss : SampleSet)
    (h3 : ss.angles3.length = ss.numAngles3) (x : ℚ)
    (hx : x ∈ ss.angles3 ++
      (ss.angles3.filter (fun y => angleOmitted y)).map (fun y => MAX_ANGLE3 - y)) :
    ∃ k, k < (fillSymmetricBrdf ss).numAngles3 ∧ (fillSymmetricBrdf ss).getAngle3 k = x := by
  have hmem := (fillSymmetricBrdf_angles3_perm ss h3).mem_iff.2 hx
  obtain ⟨k, hk, e⟩ := List.getElem_of_mem hmem
  refine ⟨k, by rw [← fillSymmetricBrdf_angles3_length ss h3]; exact hk, ?_⟩
  unfold SampleSet.getAngle3
  rw [List.getD_eq_getElem _ _ hk]
  exact e


theorem searchOrigIndex_congr (s t : SampleSet) (h : s.angles3 = t.angles3) (outPhi : ℚ)
    (rem start : Nat) :
    searchOrigIndex s outPhi rem start = searchOrigIndex t outPhi rem start := by
  induction rem generalizing start with
  | zero => rfl
  | succ rem ih =>
    simp only [searchOrigIndex, SampleSet.getAngle3, h, ih]

theorem findOrigIndex_congr (s t : SampleSet) (h : s.angles3 = t.angles3)
    (hn : s.numAngles3 = t.numAngles3) (outPhi : ℚ) :
    findOrigIndex s outPhi = findOrigIndex t outPhi := by
  unfold findOrigIndex
  rw [hn, searchOrigIndex_congr s t h]

/-! ## Claims on fillSymmetricBrdf -/

/-- C2, as stated, fails: on scenario 1 (axis 3 `[0, π/4, π/2, π]`) the result
has six angles, `[0, π/4, π/2, π, 3π/2, 7π/4]`, not the seven of the claim, and
`3π/4` is not among them. -/
theorem fillSymmetricBrdf_scenario_counterexample :
    symmetrySamples.Valid ∧
    symmetrySamples.angles3 = [0, PI_F / 4, PI_F / 2, PI_F] ∧
    (fillSymmetricBrdf symmetrySamples).angles3 =
      [0, PI_F / 4, PI_F / 2, PI_F, 3 * PI_F / 2, 7 * PI_F / 4] ∧
    (fillSymmetricBrdf symmetrySamples).angles3 ≠
      [0, PI_F / 4, PI_F / 2, 3 * PI_F / 4, PI_F, 3 * PI_F / 2, 7 * PI_F / 4] ∧
    (fillSymmetricBrdf symmetrySamples).numAngles3 = 6 ∧
    3 * PI_F / 4 ∉ (fillSymmetricBrdf symmetrySamples).angles3 := by
  decide!

/-- C2, amended. On a spherical BRDF whose axis 3 is `[0, π/4, π/2, π]`,
`fillSymmetricBrdf` returns a BRDF whose axis 3 is
`[0, π/4, π/2, π, 3π/2, 7π/4]` (six angles, sorted), and for every
`(i0,i1,i2)` the output spectrum at the angle `7π/4` equals the source
spectrum at `π/4`, the one at `3π/2` equals the source spectrum at `π/2`, and
the four original spectra are kept. -/
theorem fillSymmetricBrdf_scenario (ss : SampleSet) (hv : ss.Valid)
    (ha : ss.angles3 = [0, PI_F / 4, PI_F / 2, PI_F]) :
    (fillSymmetricBrdf ss).numAngles3 = 6 ∧
    (fillSymmetricBrdf ss).angles3 = [0, PI_F / 4, PI_F / 2, PI_F, 3 * PI_F / 2, 7 * PI_F / 4] ∧
    ∀ i0 i1 i2, i0 < ss.numAngles0 → i1 < ss.numAngles1 → i2 < ss.numAngles2 →
      (fillSymmetricBrdf ss).getSpectrum i0 i1 i2 5 = ss.getSpectrum i0 i1 i2 1 ∧
      (fillSymmetricBrdf ss).getSpectrum i0 i1 i2 4 = ss.getSpectrum i0 i1 i2 2 ∧
      (fillSymmetricBrdf ss).getSpectrum i0 i1 i2 0 = ss.getSpectrum i0 i1 i2 0 ∧
      (fillSymmetricBrdf ss).getSpectrum i0 i1 i2 1 = ss.getSpectrum i0 i1 i2 1 ∧
      (fillSymmetricBrdf ss).getSpectrum i0 i1 i2 2 = ss.getSpectrum i0 i1 i2 2 ∧
      (fillSymmetricBrdf ss).getSpectrum i0 i1 i2 3 = ss.getSpectrum i0 i1 i2 3 := by
  have h3 : ss.angles3.length = ss.numAngles3 := hv.2.2.2.2.1
  have hn : ss.numAngles3 = 4 := by rw [← h3, ha]; rfl
  have hnum : (fillSymmetricBrdf ss).numAngles3 = 6 := by
    rw [fillSymmetricBrdf_numAngles3 ss h3, hn, ha]
    decide!
  have hang : (fillSymmetricBrdf ss).angles3 =
      [0, PI_F / 4, PI_F / 2, PI_F, 3 * PI_F / 2, 7 * PI_F / 4] := by
    rw [fillSymmetricBrdf_angles3 ss h3, ha]
    decide!
  have hfind : ∀ x, findOrigIndex ss x = findOrigIndex symmetrySamples x :=
    fun x => findOrigIndex_congr ss symmetrySamples (by rw [ha]; rfl) (by rw [hn]; rfl) x
  have hget : ∀ i0 i1 i2 k, i0 < ss.numAngles0 → i1 < ss.numAngles1 → i2 < ss.numAngles2 →
      k < 6 → (fillSymmetricBrdf ss).getSpectrum i0 i1 i2 k = ss.getSpectrum i0 i1 i2
        (findOrigIndex symmetrySamples
          (([0, PI_F / 4, PI_F / 2, PI_F, 3 * PI_F / 2, 7 * PI_F / 4] : List ℚ).getD k 0)) := by
    intro i0 i1 i2 k h0 h1 h2 hk
    rw [fillSymmetricBrdf_getSpectrum ss h3 i0 i1 i2 k
      ((fillSymmetricBrdf_inRange ss h3 _ _ _ _).2 ⟨h0, h1, h2, by rw [hnum]; exact hk⟩),
      hfind]
    unfold SampleSet.getAngle3
    rw [hang]
  refine ⟨hnum, hang, fun i0 i1 i2 h0 h1 h2 => ⟨?_, ?_, ?_, ?_, ?_, ?_⟩⟩
  · rw [hget i0 i1 i2 5 h0 h1 h2 (by decide)]
    exact congrArg _ (by decide!)
  · rw [hget i0 i1 i2 4 h0 h1 h2 (by decide)]
    exact congrArg _ (by decide!)
  · rw [hget i0 i1 i2 0 h0 h1 h2 (by decide)]
    exact congrArg _ (by decide!)
  · rw [hget i0 i1 i2 1 h0 h1 h2 (by decide)]
    exact congrArg _ (by decide!)
  · rw [hget i0 i1 i2 2 h0 h1 h2 (by decide)]
    exact congrArg _ (by decide!)
  · rw [hget i0 i1 i2 3 h0 h1 h2 (by decide)]
    exact congrArg _ (by decide!)

/-- The amended C2 on scenario 1 with the spectra `(1), (2), (3), (4)`: the
spectrum at `7π/4` is `(2)`, the one of `π/4`. -/
theorem fillSymmetricBrdf_scenario_witness :
    symmetrySamples.Valid ∧
    symmetrySamples.getSpectrum 0 0 0 1 = [2] ∧
    (fillSymmetricBrdf symmetrySamples).getSpectrum 0 0 0 5 =
      symmetrySamples.getSpectrum 0 0 0 1 :=
  ⟨by decide!, by decide!,
    ((fillSymmetricBrdf_scenario symmetrySamples (by decide!) (by decide!)).2.2 0 0 0
      (by decide!) (by decide!) (by decide!)).1⟩


/-- C3, as stated, fails: the single input angle `π + 2⁻²²` (the float next
above the float `π`) is not equal to `0`, `π` or `2π`, so the claim gives the
result two angles; the code compares with `π` through `isEqual`, adds no
mirror and returns an axis 3 of length one. -/
theorem fillSymmetricBrdf_axis_counterexample :
    nearPiSamples.Valid ∧ nearPiSamples.ColorOk ∧
    nearPiSamples.numAngles3 = 1 ∧
    (nearPiSamples.angles3.filter
      (fun x => decide (x ≠ 0 ∧ x ≠ PI_F ∧ x ≠ 2 * PI_F))).length = 1 ∧
    isEqual (nearPiSamples.getAngle3 0) PI_F = true ∧
    (fillSymmetricBrdf nearPiSamples).numAngles3 = 1 ∧
    (fillSymmetricBrdf nearPiSamples).angles3 = [PI_F + 1 / 4194304] ∧
    (fillSymmetricBrdf nearPiSamples).angles3.length ≠
      nearPiSamples.numAngles3 + (nearPiSamples.angles3.filter
        (fun x => decide (x ≠ 0 ∧ x ≠ PI_F ∧ x ≠ 2 * PI_F))).length := by
  decide!

/-- C3, amended. For every spherical BRDF with axis-3 values `φ_0..φ_{N3-1}`,
`fillSymmetricBrdf` returns a BRDF with `N0`, `N1`, `N2`, axes 0-2, colour
model and wavelengths equal to the input's, whose axis 3 has length `N3 + m`,
where `m` is the number of input angles that are non-zero and not nearly equal
(`isEqual`) to `π` or `2π`, and whose axis 3 is the ascending sort of the list
`[φ_0..φ_{N3-1}]` followed by the mirrors `2π − φ_i` of exactly those `m`
angles.  The input is a value of the model and is not modified. -/
theorem fillSymmetricBrdf_axis (ss : SampleSet) (hv : ss.Valid) (hc : ss.ColorOk) :
    (fillSymmetricBrdf ss).numAngles0 = ss.numAngles0 ∧
    (fillSymmetricBrdf ss).numAngles1 = ss.numAngles1 ∧
    (fillSymmetricBrdf ss).numAngles2 = ss.numAngles2 ∧
    (fillSymmetricBrdf ss).angles0 = ss.angles0 ∧
    (fillSymmetricBrdf ss).angles1 = ss.angles1 ∧
    (fillSymmetricBrdf ss).angles2 = ss.angles2 ∧
    (fillSymmetricBrdf ss).colorModel = ss.colorModel ∧
    (fillSymmetricBrdf ss).wavelengths = ss.wavelengths ∧
    (fillSymmetricBrdf ss).numAngles3 = ss.numAngles3 +
      (ss.angles3.filter (fun x =>
        decide (x ≠ 0) && !isEqual x PI_F && !isEqual x (2 * PI_F))).length ∧
    (fillSymmetricBrdf ss).angles3.length = (fillSymmetricBrdf ss).numAngles3 ∧
    (fillSymmetricBrdf ss).angles3 = sortAngles (ss.angles3 ++
      (ss.angles3.filter (fun x =>
        decide (x ≠ 0) && !isEqual x PI_F && !isEqual x (2 * PI_F))).map
          (fun x => 2 * PI_F - x)) ∧
    List.Sorted (fun x y => x ≤ y) (fillSymmetricBrdf ss).angles3 ∧
    List.Perm (fillSymmetricBrdf ss).angles3 (ss.angles3 ++
      (ss.angles3.filter (fun x =>
        decide (x ≠ 0) && !isEqual x PI_F && !isEqual x (2 * PI_F))).map
          (fun x => 2 * PI_F - x)) := by
  have h3 : ss.angles3.length = ss.numAngles3 := hv.2.2.2.2.1
  obtain ⟨sp, wl, -, hw, he⟩ := fillSymmetricBrdf_eq ss h3
  refine ⟨by rw [he], by rw [he], by rw [he], by rw [he], by rw [he], by rw [he], by rw [he],
    by rw [he]; exact hw hc, fillSymmetricBrdf_numAngles3 ss h3,
    fillSymmetricBrdf_angles3_length ss h3, fillSymmetricBrdf_angles3 ss h3,
    fillSymmetricBrdf_angles3_sorted ss h3, fillSymmetricBrdf_angles3_perm ss h3⟩

/-- The amended C3 on scenario 1: four input angles, two of them with a mirror. -/
theorem fillSymmetricBrdf_axis_witness :
    symmetrySamples.Valid ∧ symmetrySamples.ColorOk ∧
    (symmetrySamples.angles3.filter (fun x =>
        decide (x ≠ 0) && !isEqual x PI_F && !isEqual x (2 * PI_F))) =
      [PI_F / 4, PI_F / 2] ∧
    (fillSymmetricBrdf symmetrySamples).numAngles3 = symmetrySamples.numAngles3 +
      (symmetrySamples.angles3.filter (fun x =>
        decide (x ≠ 0) && !isEqual x PI_F && !isEqual x (2 * PI_F))).length :=
  ⟨by decide!, by decide!, by decide!,
    (fillSymmetricBrdf_axis symmetrySamples (by decide!) (by decide!)).2.2.2.2.2.2.2.2.1⟩


/-- C4, as stated, fails: for the axis 3 `[0, π/2, π, 3π/2]` with the spectra
`(1), (2), (3), (4)` no output index carries the angle `3π/2` together with
the original spectrum `(4)`: both output samples at `3π/2` hold `(2)`, the
spectrum of `π/2`, which the search meets first.  The same happens with the
exact floats `[1, 2π − 1]`. -/
theorem fillSymmetricBrdf_original_counterexample :
    (mirroredSamples.Valid ∧
      mirroredSamples.getAngle3 3 = 3 * PI_F / 2 ∧
      mirroredSamples.getSpectrum 0 0 0 3 = [4] ∧
      (fillSymmetricBrdf mirroredSamples).angles3 =
        [0, PI_F / 2, PI_F / 2, PI_F, 3 * PI_F / 2, 3 * PI_F / 2] ∧
      (fillSymmetricBrdf mirroredSamples).spectra = [[1], [2], [2], [3], [2], [2]] ∧
      ¬ ∃ k, k < (fillSymmetricBrdf mirroredSamples).numAngles3 ∧
        (fillSymmetricBrdf mirroredSamples).getAngle3 k = mirroredSamples.getAngle3 3 ∧
        (fillSymmetricBrdf mirroredSamples).getSpectrum 0 0 0 k =
          mirroredSamples.getSpectrum 0 0 0 3) ∧
    (mirroredExactSamples.Valid ∧
      (fillSymmetricBrdf mirroredExactSamples).angles3 = [1, 1, 2 * PI_F - 1, 2 * PI_F - 1] ∧
      (fillSymmetricBrdf mirroredExactSamples).spectra = [[1], [1], [1], [1]] ∧
      ¬ ∃ k, k < (fillSymmetricBrdf mirroredExactSamples).numAngles3 ∧
        (fillSymmetricBrdf mirroredExactSamples).getAngle3 k =
          mirroredExactSamples.getAngle3 1 ∧
        (fillSymmetricBrdf mirroredExactSamples).getSpectrum 0 0 0 k =
          mirroredExactSamples.getSpectrum 0 0 0 1) := by
  decide!

/-- C4, amended. After `fillSymmetricBrdf` every original sample that the
search meets first appears unchanged: for every input BRDF, every original
axis-3 index `j` such that no earlier index `j2 < j` has `φ_j2 = φ_j` or
`φ_j2` nearly equal (`isEqual`) to `2π − φ_j`, the output has an axis-3 index
`k` whose angle equals `φ_j` and whose spectrum at `(i0,i1,i2,k)` equals the
input spectrum at `(i0,i1,i2,j)` for every `(i0,i1,i2)`. -/
theorem fillSymmetricBrdf_original (ss : SampleSet) (hv : ss.Valid) (j : Nat)
    (hj : j < ss.numAngles3)
    (hfirst : ∀ j2, j2 < j →
      ¬ (ss.getAngle3 j2 = ss.getAngle3 j ∨
        isEqual (ss.getAngle3 j2) (2 * PI_F - ss.getAngle3 j) = true)) :
    ∃ k, k < (fillSymmetricBrdf ss).numAngles3 ∧
      (fillSymmetricBrdf ss).getAngle3 k = ss.getAngle3 j ∧
      ∀ i0 i1 i2, i0 < ss.numAngles0 → i1 < ss.numAngles1 → i2 < ss.numAngles2 →
        (fillSymmetricBrdf ss).getSpectrum i0 i1 i2 k = ss.getSpectrum i0 i1 i2 j := by
  have h3 : ss.angles3.length = ss.numAngles3 := hv.2.2.2.2.1
  have hmem : ss.getAngle3 j ∈ ss.angles3 := by
    unfold SampleSet.getAngle3
    rw [List.getD_eq_getElem _ _ (by omega : j < ss.angles3.length)]
    exact List.getElem_mem _
  obtain ⟨k, hk, hak⟩ := fillSymmetricBrdf_exists_index ss h3 (ss.getAngle3 j)
    (List.mem_append_left _ hmem)
  refine ⟨k, hk, hak, fun i0 i1 i2 h0 h1 h2 => ?_⟩
  rw [fillSymmetricBrdf_getSpectrum ss h3 i0 i1 i2 k
    ((fillSymmetricBrdf_inRange ss h3 _ _ _ _).2 ⟨h0, h1, h2, hk⟩), hak,
    findOrigIndex_first ss (ss.getAngle3 j) j hj (outPhiEqual_self _)]
  intro j2 hj2
  have := hfirst j2 hj2
  unfold outPhiEqual MAX_ANGLE3
  simp only [not_or] at this
  simp [this.1, this.2]

/-- The amended C4 on `mirroredSamples`: the sample at `π` (index 2) is met
first by the search and appears unchanged. -/
theorem fillSymmetricBrdf_original_witness :
    mirroredSamples.Valid ∧
    ∃ k, k < (fillSymmetricBrdf mirroredSamples).numAngles3 ∧
      (fillSymmetricBrdf mirroredSamples).getAngle3 k = mirroredSamples.getAngle3 2 ∧
      ∀ i0 i1 i2, i0 < mirroredSamples.numAngles0 → i1 < mirroredSamples.numAngles1 →
        i2 < mirroredSamples.numAngles2 →
        (fillSymmetricBrdf mirroredSamples).getSpectrum i0 i1 i2 k =
          mirroredSamples.getSpectrum i0 i1 i2 2 :=
  ⟨by decide!,
    fillSymmetricBrdf_original mirroredSamples (by decide!) 2 (by decide!) (by decide!)⟩


/-- C5: the search of `fillSymmetricBrdf` can leave the source axis.  For the
axis 3 `[0, 0.1f, π]` (three floats in `[0, π]`, pairwise distinct and not
nearly equal) the mirror of `0.1f` that the first loop stores is the float
`fl(2π − 0.1f) = 1620885/262144`.  For this output angle the search compares
each original angle with `fl(2π − 1620885/262144) = 209715/2097152`, which
differs from `0.1f` by `13·2⁻²⁷`, more than the tolerance of `isEqual`: no
original angle matches, the loop ends with `origIndex = N3 = 3`, and
`getSpectrum(i0, i1, i2, origIndex)` addresses the position one past the end
of the source array.  In exact arithmetic the search would stop at the index
1. -/
theorem fillSymmetricBrdf_search_out_of_range :
    tenthSamples.Valid ∧
    tenthSamples.angles3 = [0, 13421773 / 134217728, PI_F] ∧
    (∀ j, j < tenthSamples.numAngles3 →
      f32 (tenthSamples.getAngle3 j) = tenthSamples.getAngle3 j ∧
      0 ≤ tenthSamples.getAngle3 j ∧ tenthSamples.getAngle3 j ≤ PI_F) ∧
    (∀ j, j < tenthSamples.numAngles3 → ∀ j2, j2 < tenthSamples.numAngles3 → j ≠ j2 →
      Machine.isEqual (tenthSamples.getAngle3 j) (tenthSamples.getAngle3 j2) = false) ∧
    Machine.collectFilledAngles tenthSamples = [1620885 / 262144] ∧
    sortAngles (tenthSamples.angles3 ++ Machine.collectFilledAngles tenthSamples) =
      [0, 13421773 / 134217728, PI_F, 1620885 / 262144] ∧
    f32 (MAX_ANGLE3 - 1620885 / 262144) = 209715 / 2097152 ∧
    tenthSamples.getAngle3 1 - 209715 / 2097152 = 13 / 134217728 ∧
    (∀ j, j < tenthSamples.numAngles3 →
      Machine.outPhiEqual (tenthSamples.getAngle3 j) (1620885 / 262144) = false) ∧
    Machine.findOrigIndex tenthSamples (1620885 / 262144) = tenthSamples.numAngles3 ∧
    ¬ tenthSamples.InRange 0 0 0 (Machine.findOrigIndex tenthSamples (1620885 / 262144)) ∧
    tenthSamples.index 0 0 0 (Machine.findOrigIndex tenthSamples (1620885 / 262144)) =
      tenthSamples.spectra.length ∧
    findOrigIndex tenthSamples (MAX_ANGLE3 - tenthSamples.getAngle3 1) = 1 := by
  decide!

/-! ## Binary32 rounding -/

theorem roundEven_le (x : ℚ) : (roundEven x : ℚ) ≤ x + 1 / 2 := by
  unfold roundEven
  have h1 := Int.floor_le x
  have h2 := Int.lt_floor_add_one x
  split_ifs with a b c
  · linarith
  · push_cast; linarith
  · linarith
  · push_cast
    have : x - ⌊x⌋ = 1 / 2 := le_antisymm (not_lt.1 b) (not_lt.1 a)
    linarith

theorem roundEven_ge (x : ℚ) : x - 1 / 2 ≤ (roundEven x : ℚ) := by
  unfold roundEven
  have h1 := Int.floor_le x
  have h2 := Int.lt_floor_add_one x
  split_ifs with a b c
  · linarith
  · push_cast; linarith
  · have : x - ⌊x⌋ = 1 / 2 := le_antisymm (not_lt.1 b) (not_lt.1 a)
    linarith
  · push_cast; linarith

theorem roundEven_intCast (k : Int) : roundEven (k : ℚ) = k := by
  unfold roundEven
  rw [Int.floor_intCast]
  simp

theorem roundEven_mono {x y : ℚ} (h : x ≤ y) : roundEven x ≤ roundEven y := by
  by_contra hlt
  have hlt2 : roundEven y + 1 ≤ roundEven x := by omega
  have hq : ((roundEven y : Int) : ℚ) + 1 ≤ (roundEven x : ℚ) := by exact_mod_cast hlt2
  have a := roundEven_le x
  have b := roundEven_ge y
  have hxy : x = y := by linarith
  rw [hxy] at hlt
  exact hlt (le_refl _)

theorem roundEven_nonneg {x : ℚ} (h : 0 ≤ x) : 0 ≤ roundEven x := by
  have := roundEven_mono h
  rwa [show ((0 : ℚ)) = ((0 : Int) : ℚ) by norm_num, roundEven_intCast] at this

theorem roundEven_le_two_mul {x : ℚ} (h : 0 ≤ x) : (roundEven x : ℚ) ≤ 2 * x := by
  by_cases hx : x < 1 / 2
  · have h1 := roundEven_le x
    have h2 : (roundEven x : ℚ) < 1 := by linarith
    have h3 : roundEven x < 1 := by exact_mod_cast h2
    have h4 := roundEven_nonneg h
    have h5 : roundEven x = 0 := by omega
    rw [h5]
    push_cast
    linarith
  · have h1 := roundEven_le x
    linarith [not_lt.1 hx]

theorem log2Floor_spec (fuel n : Nat) (h1 : n ≤ fuel) (h2 : 1 ≤ n) :
    2 ^ log2Floor fuel n ≤ n ∧ n < 2 ^ (log2Floor fuel n + 1) := by
  induction fuel generalizing n with
  | zero => omega
  | succ fuel ih =>
    unfold log2Floor
    by_cases hn : n < 2
    · rw [if_pos hn]
      have : n = 1 := by omega
      subst this
      simp
    · rw [if_neg hn]
      have hdiv : n / 2 ≤ fuel := by omega
      have hpos : 1 ≤ n / 2 := by omega
      obtain ⟨i1, i2⟩ := ih (n / 2) hdiv hpos
      constructor
      · rw [pow_succ]
        omega
      · rw [pow_succ]
        omega

theorem log2Floor_mono (m n : Nat) (h : m ≤ n) : log2Floor m m ≤ log2Floor n n := by
  by_cases hm : m = 0
  · subst hm
    simp [log2Floor]
  · obtain ⟨a1, -⟩ := log2Floor_spec m m (le_refl _) (by omega)
    obtain ⟨-, b2⟩ := log2Floor_spec n n (le_refl _) (by omega)
    have hlt : 2 ^ log2Floor m m < 2 ^ (log2Floor n n + 1) := by omega
    have := (Nat.pow_lt_pow_iff_right (by norm_num : 1 < 2)).1 hlt
    omega

theorem floorScaled_spec {x : ℚ} (hx : 0 ≤ x) :
    ((⌊x * 2 ^ 149⌋.toNat : Nat) : ℚ) ≤ x * 2 ^ 149 ∧
    x * 2 ^ 149 < ((⌊x * 2 ^ 149⌋.toNat : Nat) : ℚ) + 1 := by
  have h0 : (0 : ℚ) ≤ x * 2 ^ 149 := mul_nonneg hx (by positivity)
  have hf : 0 ≤ ⌊x * 2 ^ 149⌋ := Int.floor_nonneg.2 h0
  have hc : ((⌊x * 2 ^ 149⌋.toNat : Nat) : ℚ) = ((⌊x * 2 ^ 149⌋ : Int) : ℚ) := by
    have : ((⌊x * 2 ^ 149⌋.toNat : Nat) : Int) = ⌊x * 2 ^ 149⌋ := Int.toNat_of_nonneg hf
    exact_mod_cast congrArg (fun z : Int => (z : ℚ)) this
  rw [hc]
  exact ⟨Int.floor_le _, Int.lt_floor_add_one _⟩

theorem quantum_pos (x : ℚ) : 0 < quantum x := zpow_pos (by norm_num) _

theorem binadeExponent_ge (x : ℚ) : -126 ≤ binadeExponent x := le_max_right _ _

/-- A non-negative value lies below the upper end of its binade. -/
theorem lt_binade {x : ℚ} (hx : 0 ≤ x) : x < 2 ^ (binadeExponent x + 1) := by
  obtain ⟨h1, h2⟩ := floorScaled_spec hx
  set m := ⌊x * 2 ^ 149⌋.toNat with hm
  have hE : (log2Floor m m : Int) - 149 ≤ binadeExponent x := le_max_left _ _
  have hE2 := binadeExponent_ge x
  have key : x * 2 ^ 149 < 2 ^ (binadeExponent x + 1 + 149) := by
    by_cases h0 : m = 0
    · rw [h0] at h2
      have : (1 : ℚ) ≤ 2 ^ (binadeExponent x + 1 + 149) :=
        one_le_zpow₀ (by norm_num) (by omega)
      simp only [Nat.cast_zero, zero_add] at h2
      linarith
    · obtain ⟨-, b2⟩ := log2Floor_spec m m (le_refl _) (by omega)
      have b3 : ((m : Nat) : ℚ) + 1 ≤ 2 ^ (log2Floor m m + 1) := by exact_mod_cast b2
      have b4 : (2 : ℚ) ^ (log2Floor m m + 1) = 2 ^ (((log2Floor m m : Int)) + 1) := by
        rw [← zpow_natCast]
        push_cast
        rfl
      have b5 : (2 : ℚ) ^ (((log2Floor m m : Int)) + 1) ≤ 2 ^ (binadeExponent x + 1 + 149) :=
        zpow_le_zpow_right₀ (by norm_num) (by omega)
      linarith
  rw [zpow_add₀ (by norm_num : (2 : ℚ) ≠ 0)] at key
  have hp : (0 : ℚ) < 2 ^ (149 : Int) := zpow_pos (by norm_num) _
  have e : (2 : ℚ) ^ (149 : Int) = 2 ^ 149 := by norm_num
  rw [e] at key
  exact lt_of_mul_lt_mul_right key (by positivity)

/-- A non-negative value above the subnormal range lies at or above the
lower end of its binade. -/
theorem binade_le {x : ℚ} (hx : 0 ≤ x) (hE : -126 < binadeExponent x) :
    2 ^ binadeExponent x ≤ x := by
  obtain ⟨h1, h2⟩ := floorScaled_spec hx
  set m := ⌊x * 2 ^ 149⌋.toNat with hm
  have hEq : binadeExponent x = (log2Floor m m : Int) - 149 := by
    unfold binadeExponent at hE ⊢
    rw [← hm] at hE ⊢
    rcases max_cases ((log2Floor m m : Int) - 149) (-126) with ⟨e, -⟩ | ⟨e, -⟩
    · exact e
    · rw [e] at hE
      omega
  have hm0 : m ≠ 0 := by
    intro h0
    rw [h0] at hEq
    simp [log2Floor] at hEq
    omega
  obtain ⟨a1, -⟩ := log2Floor_spec m m (le_refl _) (by omega)
  have a2 : (2 : ℚ) ^ (log2Floor m m) ≤ ((m : Nat) : ℚ) := by exact_mod_cast a1
  have key : (2 : ℚ) ^ (binadeExponent x + 149) ≤ x * 2 ^ 149 := by
    rw [hEq]
    have : (log2Floor m m : Int) - 149 + 149 = (log2Floor m m : Int) := by ring
    rw [this, zpow_natCast]
    linarith
  rw [zpow_add₀ (by norm_num : (2 : ℚ) ≠ 0)] at key
  have e : (2 : ℚ) ^ (149 : Int) = 2 ^ 149 := by norm_num
  rw [e] at key
  exact le_of_mul_le_mul_right key (by positivity)

theorem binadeExponent_mono {x y : ℚ} (h : x ≤ y) :
    binadeExponent x ≤ binadeExponent y := by
  unfold binadeExponent
  have hm : ⌊x * 2 ^ 149⌋.toNat ≤ ⌊y * 2 ^ 149⌋.toNat := by
    apply Int.toNat_le_toNat
    apply Int.floor_mono
    exact mul_le_mul_of_nonneg_right h (by positivity)
  have := log2Floor_mono _ _ hm
  exact max_le_max (by omega) (le_refl _)

theorem roundMagnitude_nonneg {x : ℚ} (hx : 0 ≤ x) : 0 ≤ roundMagnitude x := by
  unfold roundMagnitude
  have hq := quantum_pos x
  have : (0 : ℚ) ≤ (roundEven (x / quantum x) : ℚ) := by
    exact_mod_cast roundEven_nonneg (div_nonneg hx hq.le)
  exact mul_nonneg this hq.le

theorem roundMagnitude_le_two_mul {x : ℚ} (hx : 0 ≤ x) : roundMagnitude x ≤ 2 * x := by
  unfold roundMagnitude
  have hq := quantum_pos x
  have h1 := roundEven_le_two_mul (div_nonneg hx hq.le)
  calc (roundEven (x / quantum x) : ℚ) * quantum x
      ≤ 2 * (x / quantum x) * quantum x := mul_le_mul_of_nonneg_right h1 hq.le
    _ = 2 * x := by field_simp

/-- The rounded value stays inside the closed binade of the argument. -/
theorem roundMagnitude_le_binade {x : ℚ} (hx : 0 ≤ x) :
    roundMagnitude x ≤ 2 ^ (binadeExponent x + 1) := by
  unfold roundMagnitude quantum
  have hq : (0 : ℚ) < 2 ^ (binadeExponent x - 23) := zpow_pos (by norm_num) _
  have h1 : x / 2 ^ (binadeExponent x - 23) ≤ ((16777216 : Int) : ℚ) := by
    rw [div_le_iff₀ hq]
    have h2 := lt_binade hx
    have e : ((16777216 : Int) : ℚ) * 2 ^ (binadeExponent x - 23) =
        2 ^ (binadeExponent x + 1) := by
      have : ((16777216 : Int) : ℚ) = 2 ^ (24 : Int) := by norm_num
      rw [this, ← zpow_add₀ (by norm_num : (2 : ℚ) ≠ 0)]
      congr 1
      ring
    rw [e]
    exact h2.le
  have h3 := roundEven_mono h1
  rw [roundEven_intCast] at h3
  have h4 : (roundEven (x / 2 ^ (binadeExponent x - 23)) : ℚ) ≤ ((16777216 : Int) : ℚ) := by
    exact_mod_cast h3
  calc (roundEven (x / 2 ^ (binadeExponent x - 23)) : ℚ) * 2 ^ (binadeExponent x - 23)
      ≤ ((16777216 : Int) : ℚ) * 2 ^ (binadeExponent x - 23) :=
        mul_le_mul_of_nonneg_right h4 hq.le
    _ = 2 ^ (binadeExponent x + 1) := by
      have : ((16777216 : Int) : ℚ) = 2 ^ (24 : Int) := by norm_num
      rw [this, ← zpow_add₀ (by norm_num : (2 : ℚ) ≠ 0)]
      congr 1
      ring

theorem binade_le_roundMagnitude {x : ℚ} (hx : 0 ≤ x) (hE : -126 < binadeExponent x) :
    2 ^ binadeExponent x ≤ roundMagnitude x := by
  unfold roundMagnitude quantum
  have hq : (0 : ℚ) < 2 ^ (binadeExponent x - 23) := zpow_pos (by norm_num) _
  have e : ((8388608 : Int) : ℚ) * 2 ^ (binadeExponent x - 23) = 2 ^ binadeExponent x := by
    have : ((8388608 : Int) : ℚ) = 2 ^ (23 : Int) := by norm_num
    rw [this, ← zpow_add₀ (by norm_num : (2 : ℚ) ≠ 0)]
    congr 1
    ring
  have h1 : ((8388608 : Int) : ℚ) ≤ x / 2 ^ (binadeExponent x - 23) := by
    rw [le_div_iff₀ hq, e]
    exact binade_le hx hE
  have h3 := roundEven_mono h1
  rw [roundEven_intCast] at h3
  have h4 : ((8388608 : Int) : ℚ) ≤ (roundEven (x / 2 ^ (binadeExponent x - 23)) : ℚ) := by
    exact_mod_cast h3
  calc (2 : ℚ) ^ binadeExponent x
      = ((8388608 : Int) : ℚ) * 2 ^ (binadeExponent x - 23) := e.symm
    _ ≤ (roundEven (x / 2 ^ (binadeExponent x - 23)) : ℚ) * 2 ^ (binadeExponent x - 23) :=
        mul_le_mul_of_nonneg_right h4 hq.le

theorem roundMagnitude_mono {x y : ℚ} (hx : 0 ≤ x) (h : x ≤ y) :
    roundMagnitude x ≤ roundMagnitude y := by
  have hy : 0 ≤ y := le_trans hx h
  have hE := binadeExponent_mono h
  rcases eq_or_lt_of_le hE with e | hlt
  · unfold roundMagnitude quantum
    rw [e]
    have hq : (0 : ℚ) < 2 ^ (binadeExponent y - 23) := zpow_pos (by norm_num) _
    have h1 : x / 2 ^ (binadeExponent y - 23) ≤ y / 2 ^ (binadeExponent y - 23) :=
      div_le_div_of_nonneg_right h hq.le
    have h2 : (roundEven (x / 2 ^ (binadeExponent y - 23)) : ℚ) ≤
        (roundEven (y / 2 ^ (binadeExponent y - 23)) : ℚ) := by
      exact_mod_cast roundEven_mono h1
    exact mul_le_mul_of_nonneg_right h2 hq.le
  · have h1 := roundMagnitude_le_binade hx
    have h2 := binade_le_roundMagnitude hy (by have := binadeExponent_ge x; omega)
    have h3 : (2 : ℚ) ^ (binadeExponent x + 1) ≤ 2 ^ binadeExponent y :=
      zpow_le_zpow_right₀ (by norm_num) (by omega)
    linarith

theorem f32_of_nonneg {x : ℚ} (hx : 0 ≤ x) : f32 x = roundMagnitude x := by
  unfold f32
  rw [if_pos hx]

theorem f32_of_neg {x : ℚ} (hx : x < 0) : f32 x = -roundMagnitude (-x) := by
  unfold f32
  rw [if_neg (not_le.2 hx)]

theorem f32_zero : f32 0 = 0 := by decide!

theorem f32_one : f32 1 = 1 := by decide!

/-- Rounding keeps the sign. -/
theorem f32_nonneg {x : ℚ} (hx : 0 ≤ x) : 0 ≤ f32 x := by
  rw [f32_of_nonneg hx]
  exact roundMagnitude_nonneg hx

theorem f32_nonpos {x : ℚ} (hx : x ≤ 0) : f32 x ≤ 0 := by
  rcases eq_or_lt_of_le hx with e | hlt
  · rw [e, f32_zero]
  · rw [f32_of_neg hlt]
    have := roundMagnitude_nonneg (by linarith : (0 : ℚ) ≤ -x)
    linarith

/-- Rounding to binary32 is monotone. -/
theorem f32_mono {x y : ℚ} (h : x ≤ y) : f32 x ≤ f32 y := by
  by_cases hx : 0 ≤ x
  · rw [f32_of_nonneg hx, f32_of_nonneg (le_trans hx h)]
    exact roundMagnitude_mono hx h
  · have hx2 : x < 0 := not_le.1 hx
    by_cases hy : 0 ≤ y
    · exact le_trans (f32_nonpos hx2.le) (f32_nonneg hy)
    · have hy2 : y < 0 := not_le.1 hy
      rw [f32_of_neg hx2, f32_of_neg hy2]
      have := roundMagnitude_mono (by linarith : (0 : ℚ) ≤ -y) (by linarith : -y ≤ -x)
      linarith

/-- Rounding at most doubles the magnitude. -/
theorem abs_f32_le (x : ℚ) : |f32 x| ≤ 2 * |x| := by
  by_cases hx : 0 ≤ x
  · rw [abs_of_nonneg (f32_nonneg hx), abs_of_nonneg hx, f32_of_nonneg hx]
    exact roundMagnitude_le_two_mul hx
  · have hx2 : x < 0 := not_le.1 hx
    rw [abs_of_nonpos (f32_nonpos hx2.le), abs_of_neg hx2, f32_of_neg hx2, neg_neg]
    exact roundMagnitude_le_two_mul (by linarith)

/-! ## findNearestIndex -/

theorem clamp_trunc_eq_clamp_floor (x : ℚ) (n : Int) (hn : 0 ≤ n) :
    clamp (if 0 ≤ x then ⌊x⌋ else ⌈x⌉) 0 n = clamp ⌊x⌋ 0 n := by
  by_cases hx : 0 ≤ x
  · rw [if_pos hx]
  · rw [if_neg hx]
    have hx2 : x < 0 := not_le.1 hx
    have h1 : ⌈x⌉ ≤ 0 := Int.ceil_le.2 (by exact_mod_cast hx2.le)
    have h2 : ⌊x⌋ ≤ 0 := le_trans (Int.floor_le_ceil x) h1
    unfold clamp
    rw [min_eq_right (le_trans h1 hn), min_eq_right (le_trans h2 hn), max_eq_left h1,
      max_eq_left h2]

theorem floatToInt_of_bounds (x : ℚ) (h1 : -2147483648 ≤ x) (h2 : x ≤ 2147483647) :
    floatToInt x = some (if 0 ≤ x then ⌊x⌋ else ⌈x⌉) := by
  unfold floatToInt
  simp only []
  rw [if_pos]
  by_cases hx : 0 ≤ x
  · rw [if_pos hx]
    refine ⟨le_trans (by norm_num) (Int.floor_nonneg.2 hx), ?_⟩
    have : ((⌊x⌋ : Int) : ℚ) ≤ 2147483647 := le_trans (Int.floor_le x) h2
    exact_mod_cast this
  · rw [if_neg hx]
    have hx2 : x < 0 := not_le.1 hx
    refine ⟨?_, le_trans (Int.ceil_le.2 (by exact_mod_cast hx2.le)) (by norm_num)⟩
    have : (-2147483648 : ℚ) ≤ ((⌈x⌉ : Int) : ℚ) := le_trans h1 (Int.le_ceil x)
    exact_mod_cast this

theorem clamp_bounds (t n : Int) (hn : 0 ≤ n) : 0 ≤ clamp t 0 n ∧ clamp t 0 n ≤ n := by
  unfold clamp
  exact ⟨le_max_left _ _, max_le hn (min_le_left _ _)⟩

theorem toFloat_eq_some {x y : ℚ} (h : toFloat x = some y) : y = f32 x ∧ |y| < 2 ^ 128 := by
  unfold toFloat at h
  split at h
  · rename_i hlt
    have e : f32 x = y := Option.some.inj h
    rw [← e]
    exact ⟨rfl, hlt⟩
  · exact absurd h (by simp)

theorem toFloat_zero : toFloat 0 = some 0 := by decide!

theorem toFloat_one : toFloat 1 = some 1 := by decide!

theorem findNearestIndex_eq (minWl maxWl : ℚ) (N : Int) (wl d w r p : ℚ)
    (hd : toFloat (wl - minWl) = some d) (hw : toFloat (maxWl - minWl) = some w)
    (hw0 : w ≠ 0) (hr : toFloat (d / w) = some r)
    (hp : toFloat (f32 (N : ℚ) * r) = some p) :
    findNearestIndex minWl maxWl N wl =
      (floatToInt p).map (fun index => clamp index 0 (N - 1)) := by
  unfold findNearestIndex
  rw [hd, hw]
  simp only [Option.some_bind, if_neg hw0]
  rw [hr]
  simp only [Option.some_bind]
  rw [hp]
  simp only [Option.some_bind]

/-- C20, as stated, fails: with the table 360 nm to 830 nm in 95 steps and the
wavelength `13579749/32768` (the float nearest to 414.42105 nm) the reference
definition gives `floor(10.99999…) = 10`, but the code computes the ratio and
the product in 32-bit floats, obtains exactly `11.0` and returns 11. -/
theorem findNearestIndex_reference_counterexample :
    f32 (13579749 / 32768) = 13579749 / 32768 ∧
    (360 : ℚ) < 830 ∧ (1 : Int) ≤ 95 ∧
    findNearestIndex 360 830 95 (13579749 / 32768) = some 11 ∧
    clamp ⌊(95 : ℚ) * (13579749 / 32768 - 360) / (830 - 360)⌋ 0 (95 - 1) = 10 ∧
    findNearestIndex 360 830 95 (13579749 / 32768) ≠
      some (clamp ⌊(95 : ℚ) * (13579749 / 32768 - 360) / (830 - 360)⌋ 0 (95 - 1)) := by
  decide!

/-- C20, amended. With a positive finite float difference
`w = fl(λ_max − λ_min)` and a table size `1 ≤ N_λ` that is an `int` and a
float, and for every wavelength at which no float operation overflows and the
conversion to `int` is defined, `findNearestIndex` returns
`clamp(floor(p), 0, N_λ−1)`, where `p = fl(N_λ · fl(fl(λ − λ_min) / w))` is
computed with every operation rounded to binary32, although the code truncates
toward zero; every result lies in `[0, N_λ−1]`; `λ_min` gives `0`, `λ_max`
gives `N_λ−1`, every `λ < λ_min` gives `0` and every `λ > λ_max` gives
`N_λ−1`. -/
theorem findNearestIndex_rounded (minWl maxWl : ℚ) (N : Int) (w : ℚ)
    (hw : toFloat (maxWl - minWl) = some w) (hpos : 0 < w)
    (hN : 1 ≤ N) (hN2 : N ≤ 2147483647) (hNf : f32 (N : ℚ) = N) :
    (∀ wl d r p, toFloat (wl - minWl) = some d → toFloat (d / w) = some r →
      toFloat ((N : ℚ) * r) = some p → -2147483648 ≤ p → p ≤ 2147483647 →
      findNearestIndex minWl maxWl N wl = some (clamp ⌊p⌋ 0 (N - 1))) ∧
    (∀ wl r, findNearestIndex minWl maxWl N wl = some r → 0 ≤ r ∧ r ≤ N - 1) ∧
    findNearestIndex minWl maxWl N minWl = some 0 ∧
    findNearestIndex minWl maxWl N maxWl = some (N - 1) ∧
    (∀ wl d r p, wl < minWl → toFloat (wl - minWl) = some d → toFloat (d / w) = some r →
      toFloat ((N : ℚ) * r) = some p → -2147483648 ≤ p →
      findNearestIndex minWl maxWl N wl = some 0) ∧
    (∀ wl d r p, maxWl < wl → toFloat (wl - minWl) = some d → toFloat (d / w) = some r →
      toFloat ((N : ℚ) * r) = some p → p ≤ 2147483647 →
      findNearestIndex minWl maxWl N wl = some (N - 1)) := by
  have hn0 : (0 : Int) ≤ N - 1 := by omega
  have hNq : (0 : ℚ) < (N : ℚ) := by exact_mod_cast (by omega : (0 : Int) < N)
  have hw0 : w ≠ 0 := ne_of_gt hpos
  have hwf : w = f32 (maxWl - minWl) := (toFloat_eq_some hw).1
  have main : ∀ wl d r p, toFloat (wl - minWl) = some d → toFloat (d / w) = some r →
      toFloat ((N : ℚ) * r) = some p → -2147483648 ≤ p → p ≤ 2147483647 →
      findNearestIndex minWl maxWl N wl = some (clamp ⌊p⌋ 0 (N - 1)) := by
    intro wl d r p hd hr hp h1 h2
    rw [findNearestIndex_eq minWl maxWl N wl d w r p hd hw hw0 hr (by rw [hNf]; exact hp),
      floatToInt_of_bounds _ h1 h2, Option.map_some', clamp_trunc_eq_clamp_floor _ _ hn0]
  refine ⟨main, ?_, ?_, ?_, ?_, ?_⟩
  · intro wl r hr
    unfold findNearestIndex at hr
    simp only [Option.bind_eq_some, Option.map_eq_some'] at hr
    obtain ⟨_, -, _, -, _, -, _, -, t, -, rfl⟩ := hr
    exact clamp_bounds t (N - 1) hn0
  · rw [main minWl 0 0 0 (by rw [sub_self]; exact toFloat_zero)
      (by rw [zero_div]; exact toFloat_zero) (by rw [mul_zero]; exact toFloat_zero)
      (by norm_num) (by norm_num)]
    rw [Int.floor_zero]
    unfold clamp
    rw [min_eq_right hn0, max_eq_left (le_refl _)]
  · have hNle : (N : ℚ) ≤ 2147483647 := by exact_mod_cast hN2
    have hNfl : toFloat ((N : ℚ) * 1) = some (N : ℚ) := by
      unfold toFloat
      rw [mul_one, hNf, if_pos]
      rw [abs_of_pos hNq]
      exact lt_of_le_of_lt hNle (by norm_num)
    rw [main maxWl w 1 N hw (by rw [div_self hw0]; exact toFloat_one) hNfl
      (by linarith) hNle]
    rw [Int.floor_intCast]
    unfold clamp
    rw [min_eq_left (by omega), max_eq_right hn0]
  · intro wl d r p hwl hd hr hp h1
    have hd0 : d ≤ 0 := by
      rw [(toFloat_eq_some hd).1]
      exact f32_nonpos (by linarith)
    have hr0 : r ≤ 0 := by
      rw [(toFloat_eq_some hr).1]
      exact f32_nonpos (div_nonpos_of_nonpos_of_nonneg hd0 hpos.le)
    have hp0 : p ≤ 0 := by
      rw [(toFloat_eq_some hp).1]
      exact f32_nonpos (mul_nonpos_of_nonneg_of_nonpos hNq.le hr0)
    rw [main wl d r p hd hr hp h1 (by linarith)]
    have hf : ⌊p⌋ ≤ 0 := by
      have : ((⌊p⌋ : Int) : ℚ) ≤ 0 := le_trans (Int.floor_le p) hp0
      exact_mod_cast this
    unfold clamp
    rw [min_eq_right (by omega), max_eq_left hf]
  · intro wl d r p hwl hd hr hp h2
    have hdw : w ≤ d := by
      rw [(toFloat_eq_some hd).1, hwf]
      exact f32_mono (by linarith)
    have hr1 : 1 ≤ r := by
      rw [(toFloat_eq_some hr).1, ← f32_one]
      exact f32_mono ((one_le_div hpos).2 hdw)
    have hpN : (N : ℚ) ≤ p := by
      rw [(toFloat_eq_some hp).1]
      calc (N : ℚ) = f32 (N : ℚ) := hNf.symm
        _ ≤ f32 ((N : ℚ) * r) := f32_mono (by nlinarith)
    rw [main wl d r p hd hr hp (by linarith) h2]
    have hf : N ≤ ⌊p⌋ := Int.le_floor.2 hpN
    unfold clamp
    rw [min_eq_left (by omega), max_eq_right hn0]

/-- The amended C20 on a table of 95 wavelengths from 360 nm to 830 nm: the
two ends give 0 and 94, 100 nm gives 0 and 1000 nm gives 94 (and 500 nm gives
the index 28). -/
theorem findNearestIndex_rounded_witness :
    findNearestIndex 360 830 95 500 = some 28 ∧
    findNearestIndex 360 830 95 360 = some 0 ∧
    findNearestIndex 360 830 95 830 = some (95 - 1) ∧
    findNearestIndex 360 830 95 100 = some 0 ∧
    findNearestIndex 360 830 95 1000 = some (95 - 1) :=
  ⟨by decide!,
   (findNearestIndex_rounded 360 830 95 470 (by decide!) (by norm_num) (by norm_num)
     (by norm_num) (by decide!)).2.2.1,
   (findNearestIndex_rounded 360 830 95 470 (by decide!) (by norm_num) (by norm_num)
     (by norm_num) (by decide!)).2.2.2.1,
   (findNearestIndex_rounded 360 830 95 470 (by decide!) (by norm_num) (by norm_num)
     (by norm_num) (by decide!)).2.2.2.2.1
     100 (-260) (-9281013 / 16777216) (-1722063 / 32768) (by norm_num) (by decide!)
     (by decide!) (by decide!) (by norm_num),
   (findNearestIndex_rounded 360 830 95 470 (by decide!) (by norm_num) (by norm_num)
     (by norm_num) (by decide!)).2.2.2.2.2
     1000 640 (11422785 / 8388608) (1059731 / 8192) (by norm_num) (by decide!)
     (by decide!) (by decide!) (by norm_num)⟩

/-! ## isEqualInterval -/

theorem isEqualIntervalLoop_iff (array : Arrayf) (interval : ℚ) (rem start : Nat) :
    isEqualIntervalLoop array interval rem start = true ↔
      ∀ i, start ≤ i → i < start + rem →
        Machine.isEqual (array.getD i 0) (f32 (interval * f32 (i : ℚ))) = true := by
  induction rem generalizing start with
  | zero =>
    simp only [isEqualIntervalLoop, true_iff]
    intro i h1 h2
    omega
  | succ rem ih =>
    cases hm : Machine.isEqual (array.getD start 0) (f32 (interval * f32 (start : ℚ))) with
    | true =>
      have e : isEqualIntervalLoop array interval (rem + 1) start =
          isEqualIntervalLoop array interval rem (start + 1) := by
        rw [isEqualIntervalLoop, hm]
        rfl
      rw [e, ih]
      constructor
      · intro h i h1 h2
        by_cases hi : i = start
        · subst hi; exact hm
        · exact h i (by omega) (by omega)
      · intro h i h1 h2
        exact h i (by omega) (by omega)
    | false =>
      have e : isEqualIntervalLoop array interval (rem + 1) start = false := by
        rw [isEqualIntervalLoop, hm]
        rfl
      rw [e]
      constructor
      · intro h; exact absurd h (by simp)
      · intro h
        have := h start (le_refl _) (by omega)
        rw [hm] at this
        exact this

/-- For an axis of at least two entries of magnitude at most `B`, the values
`interval` and `interval * i` of `lb::isEqualInterval` have magnitude at most
`2·B` and `4·B`. -/
theorem intervalMultiple_bound (array : Arrayf) (B : ℚ) (h2 : 2 ≤ array.length)
    (hb : ∀ i, i < array.length → |array.getD i 0| ≤ B) (i : Nat)
    (hi : i < array.length) :
    |intervalOf array| ≤ 2 * B ∧ |intervalMultiple array i| ≤ 4 * B := by
  have hlast := hb (array.length - 1) (by omega)
  have hone : (1 : ℚ) ≤ f32 ((array.length - 1 : Nat) : ℚ) := by
    rw [← f32_one]
    apply f32_mono
    have : 1 ≤ array.length - 1 := by omega
    exact_mod_cast this
  have hcpos : (0 : ℚ) < f32 ((array.length - 1 : Nat) : ℚ) := lt_of_lt_of_le one_pos hone
  have hi0 : (0 : ℚ) ≤ f32 (i : ℚ) := f32_nonneg (by positivity)
  have hile : f32 (i : ℚ) ≤ f32 ((array.length - 1 : Nat) : ℚ) := by
    apply f32_mono
    have : i ≤ array.length - 1 := by omega
    exact_mod_cast this
  have hq : |array.getD (array.length - 1) 0 / f32 ((array.length - 1 : Nat) : ℚ)| =
      |array.getD (array.length - 1) 0| / f32 ((array.length - 1 : Nat) : ℚ) := by
    rw [abs_div, abs_of_pos hcpos]
  have hint : |intervalOf array| ≤
      2 * (|array.getD (array.length - 1) 0| / f32 ((array.length - 1 : Nat) : ℚ)) := by
    unfold intervalOf
    rw [← hq]
    exact abs_f32_le _
  have hdiv : |array.getD (array.length - 1) 0| / f32 ((array.length - 1 : Nat) : ℚ) ≤
      |array.getD (array.length - 1) 0| :=
    div_le_self (abs_nonneg _) hone
  refine ⟨by linarith, ?_⟩
  have hprod : |intervalOf array * f32 (i : ℚ)| ≤ 2 * |array.getD (array.length - 1) 0| := by
    rw [abs_mul, abs_of_nonneg hi0]
    calc |intervalOf array| * f32 (i : ℚ)
        ≤ 2 * (|array.getD (array.length - 1) 0| / f32 ((array.length - 1 : Nat) : ℚ)) *
            f32 ((array.length - 1 : Nat) : ℚ) :=
          mul_le_mul hint hile hi0 (by positivity)
      _ = 2 * |array.getD (array.length - 1) 0| := by
          rw [mul_assoc, div_mul_cancel₀ _ (ne_of_gt hcpos)]
  have := abs_f32_le (intervalOf array * f32 (i : ℚ))
  unfold intervalMultiple
  linarith

/-- C19, as stated, fails: the axis `[2⁻²⁴, 1]` has non-negative entries and
satisfies `axis[i] ≈ axis[0] + i·(axis[last]/(N-1))` for `i = 0, 1` (in exact
arithmetic and in float arithmetic), but `isEqualInterval` returns `false`,
because it compares `axis[0]` with `0`.  An axis of size one is never
equal-interval for the code, whatever its entry. -/
theorem isEqualInterval_counterexample :
    (∀ i, i < ([1 / 16777216, 1] : Arrayf).length →
      0 ≤ ([1 / 16777216, 1] : Arrayf).getD i 0 ∧
      f32 (([1 / 16777216, 1] : Arrayf).getD i 0) = ([1 / 16777216, 1] : Arrayf).getD i 0) ∧
    (∀ i, i < ([1 / 16777216, 1] : Arrayf).length →
      isEqual (([1 / 16777216, 1] : Arrayf).getD i 0)
        (([1 / 16777216, 1] : Arrayf).getD 0 0 +
          (i : ℚ) * (([1 / 16777216, 1] : Arrayf).getD (2 - 1) 0 / ((2 - 1 : Nat) : ℚ))) = true) ∧
    (∀ i, i < ([1 / 16777216, 1] : Arrayf).length →
      Machine.isEqual (([1 / 16777216, 1] : Arrayf).getD i 0)
        (f32 (([1 / 16777216, 1] : Arrayf).getD 0 0 +
          f32 (f32 (i : ℚ) * f32 (([1 / 16777216, 1] : Arrayf).getD (2 - 1) 0 /
            f32 ((2 - 1 : Nat) : ℚ))))) = true) ∧
    isEqualInterval [1 / 16777216, 1] = false ∧
    isEqualInterval [1] = false ∧ isEqualInterval [0] = false := by
  decide!

theorem isEqualInterval_eq (array : Arrayf) :
    isEqualInterval array = true ↔
      2 ≤ array.length ∧ ∀ i, i < array.length →
        Machine.isEqual (array.getD i 0) (intervalMultiple array i) = true := by
  unfold isEqualInterval
  by_cases h : array.length ≤ 1
  · rw [if_pos h]
    constructor
    · intro h2; exact absurd h2 (by simp)
    · intro h2; omega
  · rw [if_neg h]
    simp only []
    rw [isEqualIntervalLoop_iff]
    constructor
    · intro h2
      exact ⟨by omega, fun i hi => h2 i (Nat.zero_le _) (by omega)⟩
    · intro h2 i _ hi
      exact h2.2 i (by omega)

theorem abs_f32_add_le (a b B : ℚ) (ha : |a| ≤ B) (hb : |b| ≤ 4 * B) :
    |f32 (a - b)| ≤ 10 * B ∧ |f32 (a + b)| ≤ 10 * B := by
  have h1 := abs_f32_le (a - b)
  have h2 := abs_f32_le (a + b)
  have h3 := abs_sub a b
  have h4 := abs_add a b
  constructor <;> linarith

/-- C19, amended. For every axis whose entries have magnitude at most `2^100`:
the equal-interval attribute computed by `isEqualInterval` is true if and only
if `N ≥ 2` and, for all `i`, `axis[i] ≈ i·(axis[last]/(N-1))` (no offset
`axis[0]`), where the quotient and the product are rounded to binary32 and
`a ≈ b` means `|a-b| ≤ ε·|a+b|` with difference, sum and tolerance rounded to
binary32 and `ε` the float machine epsilon; no operation of the computation
overflows; the attribute is false for every axis of size 0 or 1; and
`updateEqualIntervalAngles` stores this value for each axis. -/
theorem isEqualInterval_iff (array : Arrayf)
    (hb : ∀ i, i < array.length → |array.getD i 0| ≤ 2 ^ 100) :
    (isEqualInterval array = true ↔
      2 ≤ array.length ∧ ∀ i, i < array.length →
        |f32 (array.getD i 0 - intervalMultiple array i)| ≤
          f32 (EPSILON_F * |f32 (array.getD i 0 + intervalMultiple array i)|)) ∧
    (2 ≤ array.length → ∀ i, i < array.length →
      |intervalOf array| < 2 ^ 128 ∧ |intervalMultiple array i| < 2 ^ 128 ∧
      |f32 (array.getD i 0 - intervalMultiple array i)| < 2 ^ 128 ∧
      |f32 (array.getD i 0 + intervalMultiple array i)| < 2 ^ 128) ∧
    (array.length ≤ 1 → isEqualInterval array = false) ∧
    (∀ ss : SampleSet,
      ss.updateEqualIntervalAngles.equalIntervalAngles0 = isEqualInterval ss.angles0 ∧
      ss.updateEqualIntervalAngles.equalIntervalAngles1 = isEqualInterval ss.angles1 ∧
      ss.updateEqualIntervalAngles.equalIntervalAngles2 = isEqualInterval ss.angles2 ∧
      ss.updateEqualIntervalAngles.equalIntervalAngles3 = isEqualInterval ss.angles3 ∧
      ss.updateAngleAttributes.equalIntervalAngles3 = isEqualInterval ss.angles3) := by
  refine ⟨?_, ?_, ?_, fun ss => ⟨rfl, rfl, rfl, rfl, rfl⟩⟩
  · rw [isEqualInterval_eq]
    constructor
    · intro h
      refine ⟨h.1, fun i hi => ?_⟩
      have := h.2 i hi
      unfold Machine.isEqual at this
      exact of_decide_eq_true this
    · intro h
      refine ⟨h.1, fun i hi => ?_⟩
      unfold Machine.isEqual
      exact decide_eq_true (h.2 i hi)
  · intro h2 i hi
    obtain ⟨b1, b2⟩ := intervalMultiple_bound array (2 ^ 100) h2 hb i hi
    obtain ⟨b3, b4⟩ := abs_f32_add_le _ _ _ (hb i hi) b2
    have n1 : (2 : ℚ) * 2 ^ 100 < 2 ^ 128 := by norm_num
    have n2 : (4 : ℚ) * 2 ^ 100 < 2 ^ 128 := by norm_num
    have n3 : (10 : ℚ) * 2 ^ 100 < 2 ^ 128 := by norm_num
    exact ⟨lt_of_le_of_lt b1 n1, lt_of_le_of_lt b2 n2, lt_of_le_of_lt b3 n3,
      lt_of_le_of_lt b4 n3⟩
  · intro h1
    cases hE : isEqualInterval array with
    | false => rfl
    | true =>
      have := ((isEqualInterval_eq array).1 hE).1
      omega

/-- The amended C19 on the axis `[0, 1, 2]`. -/
theorem isEqualInterval_iff_witness :
    isEqualInterval [0, 1, 2] = true ∧
    (2 ≤ ([0, 1, 2] : Arrayf).length ∧ ∀ i, i < ([0, 1, 2] : Arrayf).length →
      |f32 (([0, 1, 2] : Arrayf).getD i 0 - intervalMultiple [0, 1, 2] i)| ≤
        f32 (EPSILON_F * |f32 (([0, 1, 2] : Arrayf).getD i 0 + intervalMultiple [0, 1, 2] i)|)) :=
  ⟨by decide!, (isEqualInterval_iff [0, 1, 2] (by decide!)).1.1 (by decide!)⟩


/-! ## Construction and resizing of a SampleSet -/

theorem forRange_setSpectra (n : Nat) (v : Spectrum) (s : SampleSet) :
    forRange n (fun i t => { t with spectra := t.spectra.set i v }) s =
      { s with spectra := forRange n (fun i l => l.set i v) s.spectra } := by
  induction n with
  | zero => rfl
  | succ n ih => rw [forRange_succ, ih, forRange_succ]

/-- The method `resizeWavelengths` on a sample set whose spectra array has
`N0·N1·N2·N3` entries: every spectrum is a fresh one of the new size. -/
theorem resizeWavelengths_closed (ss : SampleSet) (W : Nat) (hs : ss.SizeOk) :
    ss.resizeWavelengths W =
      { ss with
        spectra := List.replicate (ss.numAngles0 * ss.numAngles1 * ss.numAngles2 * ss.numAngles3)
          (List.replicate W 0),
        wavelengths := resizeArrayf ss.wavelengths W } := by
  unfold SampleSet.resizeWavelengths
  simp only []
  rw [forRange_setSpectra, forRange_set_eq_map _ _ _ hs]
  simp only []
  congr 1
  apply List.ext_getElem
  · simp
  · intro i h1 h2
    simp

theorem resizeAngles_blank_sizeOk (n0 n1 n2 n3 : Nat) (cm : ColorModel) :
    ({ (SampleSet.blank cm).resizeAngles n0 n1 n2 n3 with colorModel := cm } : SampleSet).SizeOk := by
  simp [SampleSet.SizeOk, SampleSet.resizeAngles, SampleSet.blank, resizeVector]

/-- The constructor in closed form, spectra included. -/
theorem create_closed (n0 n1 n2 n3 : Nat) (cm : ColorModel) (W : Nat) :
    SampleSet.create n0 n1 n2 n3 cm W =
      { numAngles0 := n0, numAngles1 := n1, numAngles2 := n2, numAngles3 := n3,
        angles0 := resizeArrayf [] n0, angles1 := resizeArrayf [] n1,
        angles2 := resizeArrayf [] n2, angles3 := resizeArrayf [] n3,
        spectra := List.replicate (n0 * n1 * n2 * n3)
          (List.replicate (if cm = ColorModel.SPECTRAL_MODEL then W
            else if cm = ColorModel.MONOCHROMATIC_MODEL then 1 else 3) 0),
        colorModel := cm,
        wavelengths :=
          if cm = ColorModel.SPECTRAL_MODEL then resizeArrayf [] W
          else if cm = ColorModel.MONOCHROMATIC_MODEL then [0] else [0, 0, 0],
        equalIntervalAngles0 := false, equalIntervalAngles1 := false,
        equalIntervalAngles2 := false, equalIntervalAngles3 := false, oneSide := false } := by
  unfold SampleSet.create
  simp only []
  by_cases h1 : cm = ColorModel.SPECTRAL_MODEL
  · rw [if_pos h1, if_pos h1, if_pos h1,
      resizeWavelengths_closed _ _ (resizeAngles_blank_sizeOk n0 n1 n2 n3 cm)]
    simp [SampleSet.resizeAngles, SampleSet.blank]
  · rw [if_neg h1, if_neg h1, if_neg h1]
    by_cases h2 : cm = ColorModel.MONOCHROMATIC_MODEL
    · rw [if_pos h2, if_pos h2, if_pos h2,
        resizeWavelengths_closed _ _ (resizeAngles_blank_sizeOk n0 n1 n2 n3 cm)]
      simp [SampleSet.resizeAngles, SampleSet.blank]
    · rw [if_neg h2, if_neg h2, if_neg h2,
        resizeWavelengths_closed _ _ (resizeAngles_blank_sizeOk n0 n1 n2 n3 cm)]
      simp [SampleSet.resizeAngles, SampleSet.blank]

/-- With unbounded integers, the constructed sample set has the sizes `N0..N3`
and axes of these sizes, `N0·N1·N2·N3` spectra, every spectrum of length `W`
and a wavelength vector of length `W`, where `W` is `numWavelengths` for the
spectral model, `1` for the monochromatic model and `3` for XYZ and RGB; for
the non-spectral models the wavelength vector is all zeros. -/
theorem create_invariants (n0 n1 n2 n3 : Nat) (cm : ColorModel) (numWavelengths : Nat) :
    (SampleSet.create n0 n1 n2 n3 cm numWavelengths).numAngles0 = n0 ∧
    (SampleSet.create n0 n1 n2 n3 cm numWavelengths).numAngles1 = n1 ∧
    (SampleSet.create n0 n1 n2 n3 cm numWavelengths).numAngles2 = n2 ∧
    (SampleSet.create n0 n1 n2 n3 cm numWavelengths).numAngles3 = n3 ∧
    (SampleSet.create n0 n1 n2 n3 cm numWavelengths).angles0.length = n0 ∧
    (SampleSet.create n0 n1 n2 n3 cm numWavelengths).angles1.length = n1 ∧
    (SampleSet.create n0 n1 n2 n3 cm numWavelengths).angles2.length = n2 ∧
    (SampleSet.create n0 n1 n2 n3 cm numWavelengths).angles3.length = n3 ∧
    (SampleSet.create n0 n1 n2 n3 cm numWavelengths).spectra.length = n0 * n1 * n2 * n3 ∧
    (∀ sp ∈ (SampleSet.create n0 n1 n2 n3 cm numWavelengths).spectra,
      sp.length = channelCount cm numWavelengths) ∧
    (SampleSet.create n0 n1 n2 n3 cm numWavelengths).wavelengths.length =
      channelCount cm numWavelengths ∧
    (SampleSet.create n0 n1 n2 n3 cm numWavelengths).colorModel = cm ∧
    (cm ≠ ColorModel.SPECTRAL_MODEL →
      (SampleSet.create n0 n1 n2 n3 cm numWavelengths).wavelengths =
        List.replicate (channelCount cm numWavelengths) 0) ∧
    channelCount ColorModel.SPECTRAL_MODEL numWavelengths = numWavelengths ∧
    channelCount ColorModel.MONOCHROMATIC_MODEL numWavelengths = 1 ∧
    channelCount ColorModel.XYZ_MODEL numWavelengths = 3 ∧
    channelCount ColorModel.RGB_MODEL numWavelengths = 3 := by
  rw [create_closed]
  refine ⟨rfl, rfl, rfl, rfl, resizeArrayf_length _ _, resizeArrayf_length _ _,
    resizeArrayf_length _ _, resizeArrayf_length _ _, by simp, ?_, ?_, rfl, ?_,
    by simp [channelCount], by simp [channelCount], by simp [channelCount],
    by simp [channelCount]⟩
  · intro sp hsp
    simp only [List.mem_replicate] at hsp
    rw [hsp.2]
    simp [channelCount]
  · cases cm <;> simp [channelCount, resizeArrayf_length]
  · intro hne
    cases cm <;> simp [channelCount] at hne ⊢


/-- With unbounded integers, for every sample set satisfying the size
invariant: after `resizeWavelengths(W')` the set has `N0·N1·N2·N3` spectra of
length `W'`, which is the length of the wavelength vector, and sizes, axes and
colour model are unchanged; after `resizeAngles(N0',N1',N2',N3')` the set has
`N0'·N1'·N2'·N3'` spectra and axes of the new sizes, colour model and
wavelengths are preserved, the spectra added beyond the old number of samples
are empty, and every spectrum has length `W` when the number of samples does
not increase. -/
theorem resize_invariants (ss : SampleSet) (hv : ss.Valid) :
    (∀ W2 : Nat,
      (ss.resizeWavelengths W2).Valid ∧
      (ss.resizeWavelengths W2).wavelengths.length = W2 ∧
      (∀ sp ∈ (ss.resizeWavelengths W2).spectra, sp.length = W2) ∧
      (ss.resizeWavelengths W2).numAngles0 = ss.numAngles0 ∧
      (ss.resizeWavelengths W2).numAngles1 = ss.numAngles1 ∧
      (ss.resizeWavelengths W2).numAngles2 = ss.numAngles2 ∧
      (ss.resizeWavelengths W2).numAngles3 = ss.numAngles3 ∧
      (ss.resizeWavelengths W2).colorModel = ss.colorModel) ∧
    (∀ n0 n1 n2 n3 : Nat,
      (ss.resizeAngles n0 n1 n2 n3).spectra.length = n0 * n1 * n2 * n3 ∧
      (ss.resizeAngles n0 n1 n2 n3).numAngles0 = n0 ∧
      (ss.resizeAngles n0 n1 n2 n3).numAngles1 = n1 ∧
      (ss.resizeAngles n0 n1 n2 n3).numAngles2 = n2 ∧
      (ss.resizeAngles n0 n1 n2 n3).numAngles3 = n3 ∧
      (ss.resizeAngles n0 n1 n2 n3).angles0.length = n0 ∧
      (ss.resizeAngles n0 n1 n2 n3).angles1.length = n1 ∧
      (ss.resizeAngles n0 n1 n2 n3).angles2.length = n2 ∧
      (ss.resizeAngles n0 n1 n2 n3).angles3.length = n3 ∧
      (ss.resizeAngles n0 n1 n2 n3).colorModel = ss.colorModel ∧
      (ss.resizeAngles n0 n1 n2 n3).wavelengths = ss.wavelengths ∧
      (∀ i, ss.spectra.length ≤ i → i < n0 * n1 * n2 * n3 →
        (ss.resizeAngles n0 n1 n2 n3).spectra.getD i [0] = []) ∧
      (n0 * n1 * n2 * n3 ≤ ss.numAngles0 * ss.numAngles1 * ss.numAngles2 * ss.numAngles3 →
        (ss.resizeAngles n0 n1 n2 n3).Valid)) := by
  obtain ⟨h0, h1, h2, h3, h4, h5⟩ := hv
  constructor
  · intro W2
    rw [resizeWavelengths_closed ss W2 h0]
    have hsp : ∀ sp ∈ List.replicate
        (ss.numAngles0 * ss.numAngles1 * ss.numAngles2 * ss.numAngles3)
        (List.replicate W2 (0 : ℚ)), sp.length = W2 := by
      intro sp hsp
      rw [(List.mem_replicate.1 hsp).2]
      simp
    refine ⟨⟨by simp, h1, h2, h3, h4, ?_⟩, resizeArrayf_length _ _, hsp, rfl, rfl, rfl, rfl, rfl⟩
    intro sp hmem
    simp only [resizeArrayf_length]
    exact hsp sp hmem
  · intro n0 n1 n2 n3
    have hlen : (resizeVector ss.spectra (n0 * n1 * n2 * n3) ([] : Spectrum)).length =
        n0 * n1 * n2 * n3 := by
      unfold resizeVector
      simp only [List.length_append, List.length_take, List.length_replicate]
      omega
    refine ⟨hlen, rfl, rfl, rfl, rfl, resizeArrayf_length _ _, resizeArrayf_length _ _,
      resizeArrayf_length _ _, resizeArrayf_length _ _, rfl, rfl, ?_, ?_⟩
    · intro i hi1 hi2
      show (resizeVector ss.spectra (n0 * n1 * n2 * n3) ([] : Spectrum)).getD i [0] = []
      unfold resizeVector
      rw [List.getD_eq_getElem?_getD, List.getElem?_append_right (by
        simp only [List.length_take]; omega)]
      simp only [List.length_take]
      rw [List.getElem?_replicate]
      have : i - min (n0 * n1 * n2 * n3) ss.spectra.length <
          n0 * n1 * n2 * n3 - ss.spectra.length := by omega
      simp [this]
    · intro hle
      refine ⟨hlen, resizeArrayf_length _ _, resizeArrayf_length _ _,
        resizeArrayf_length _ _, resizeArrayf_length _ _, ?_⟩
      intro sp hmem
      have hmem2 : sp ∈ resizeVector ss.spectra (n0 * n1 * n2 * n3) ([] : Spectrum) := hmem
      unfold resizeVector at hmem2
      have hz : n0 * n1 * n2 * n3 - ss.spectra.length = 0 := by omega
      rw [hz, List.replicate_zero, List.append_nil] at hmem2
      exact h5 sp (List.mem_of_mem_take hmem2)

/-! ## Construction and resizing in `int` arithmetic -/

theorem toInt32_of_range (x : Int) (h1 : -2147483648 ≤ x) (h2 : x < 2147483648) :
    Machine.toInt32 x = x := by
  unfold Machine.toInt32
  omega

theorem toInt32_mul (x y : Int) :
    Machine.toInt32 (Machine.toInt32 x * y) = Machine.toInt32 (x * y) := by
  unfold Machine.toInt32
  have h1 : (x + 2147483648) % 4294967296 - 2147483648 =
      x - 4294967296 * ((x + 2147483648) / 4294967296) := by
    have := Int.emod_add_ediv (x + 2147483648) 4294967296
    omega
  rw [h1]
  have h2 : (x - 4294967296 * ((x + 2147483648) / 4294967296)) * y + 2147483648 =
      (x * y + 2147483648) + 4294967296 * (-(((x + 2147483648) / 4294967296) * y)) := by
    ring
  rw [h2, Int.add_mul_emod_self_left]

/-- The `int` product of the four sizes is their product when that is below
`2³¹`, and its wrap-around otherwise. -/
theorem machine_numSamples_eq (n0 n1 n2 n3 : Nat) :
    Machine.numSamples n0 n1 n2 n3 = Machine.toInt32 ((n0 * n1 * n2 * n3 : Nat) : Int) ∧
    (n0 * n1 * n2 * n3 < 2147483648 →
      Machine.numSamples n0 n1 n2 n3 = ((n0 * n1 * n2 * n3 : Nat) : Int)) := by
  have e : Machine.numSamples n0 n1 n2 n3 =
      Machine.toInt32 ((n0 * n1 * n2 * n3 : Nat) : Int) := by
    unfold Machine.numSamples
    rw [toInt32_mul, mul_assoc, toInt32_mul]
    push_cast
    congr 1
    ring
  refine ⟨e, fun h => ?_⟩
  rw [e]
  exact toInt32_of_range _ (by omega) (by omega)

theorem machine_resizeAngles_eq (ss : SampleSet) (n0 n1 n2 n3 : Nat)
    (h : n0 * n1 * n2 * n3 < 2147483648) :
    Machine.resizeAngles ss n0 n1 n2 n3 = some (ss.resizeAngles n0 n1 n2 n3) := by
  unfold Machine.resizeAngles SampleSet.resizeAngles
  simp only []
  rw [(machine_numSamples_eq n0 n1 n2 n3).2 h, if_neg (by omega), Int.toNat_ofNat]

theorem machine_resizeWavelengths_eq (ss : SampleSet) (W : Nat)
    (h : ss.numAngles0 * ss.numAngles1 * ss.numAngles2 * ss.numAngles3 < 2147483648) :
    Machine.resizeWavelengths ss W = ss.resizeWavelengths W := by
  unfold Machine.resizeWavelengths SampleSet.resizeWavelengths
  simp only []
  rw [(machine_numSamples_eq _ _ _ _).2 h, Int.toNat_ofNat]

theorem machine_create_eq (n0 n1 n2 n3 : Nat) (cm : ColorModel) (W : Nat)
    (h : n0 * n1 * n2 * n3 < 2147483648) :
    Machine.create n0 n1 n2 n3 cm W = some (SampleSet.create n0 n1 n2 n3 cm W) := by
  unfold Machine.create SampleSet.create
  rw [machine_resizeAngles_eq _ _ _ _ _ h, Option.map_some']
  have hs : ∀ V, Machine.resizeWavelengths
      { (SampleSet.blank cm).resizeAngles n0 n1 n2 n3 with colorModel := cm } V =
      ({ (SampleSet.blank cm).resizeAngles n0 n1 n2 n3 with colorModel := cm } :
        SampleSet).resizeWavelengths V :=
    fun V => machine_resizeWavelengths_eq _ V h
  simp only [hs]

/-- C17, as stated, fails: the sizes `256, 256, 256, 256` are positive and pass
the assertion, but their product `2³²` is computed in `int` and wraps to `0`,
so the constructed set has the sizes `256` and no spectrum at all, not
`N0·N1·N2·N3` spectra.  With the sizes `65536, 32768, 1, 1` the product wraps
to `−2³¹` and the construction fails. -/
theorem create_overflow_counterexample :
    Machine.numSamples 256 256 256 256 = 0 ∧
    (Machine.create 256 256 256 256 ColorModel.MONOCHROMATIC_MODEL 1).map
      (fun t => (t.numAngles0, t.numAngles1, t.numAngles2, t.numAngles3)) =
        some (256, 256, 256, 256) ∧
    (Machine.create 256 256 256 256 ColorModel.MONOCHROMATIC_MODEL 1).map
      (fun t => t.spectra.length) = some 0 ∧
    (Machine.create 256 256 256 256 ColorModel.MONOCHROMATIC_MODEL 1).map
      (fun t => t.spectra.length) ≠ some (256 * 256 * 256 * 256) ∧
    Machine.numSamples 65536 32768 1 1 = -2147483648 ∧
    Machine.create 65536 32768 1 1 ColorModel.MONOCHROMATIC_MODEL 1 = none := by
  decide!

/-- C17, amended. For all sizes `N0, N1, N2, N3` whose product is below `2³¹`
(the range of `int`), every colour model and every requested
`numWavelengths`, the constructor returns a sample set with the sizes
`N0..N3` and axes of these sizes, exactly `N0·N1·N2·N3` spectra, every
spectrum of length `W` and a wavelength vector of length `W`, where `W` is
`numWavelengths` for the spectral model, `1` for the monochromatic model and
`3` for XYZ and RGB; for the non-spectral models the wavelength vector is all
zeros.  This holds in particular for the positive sizes and numbers of
wavelengths that the assertions admit. -/
theorem construction_invariants (n0 n1 n2 n3 : Nat) (cm : ColorModel) (numWavelengths : Nat)
    (hb : n0 * n1 * n2 * n3 < 2147483648) :
    ∃ t, Machine.create n0 n1 n2 n3 cm numWavelengths = some t ∧
      t.numAngles0 = n0 ∧ t.numAngles1 = n1 ∧ t.numAngles2 = n2 ∧ t.numAngles3 = n3 ∧
      t.angles0.length = n0 ∧ t.angles1.length = n1 ∧
      t.angles2.length = n2 ∧ t.angles3.length = n3 ∧
      t.spectra.length = n0 * n1 * n2 * n3 ∧
      (∀ sp ∈ t.spectra, sp.length = channelCount cm numWavelengths) ∧
      t.wavelengths.length = channelCount cm numWavelengths ∧
      t.colorModel = cm ∧
      (cm ≠ ColorModel.SPECTRAL_MODEL →
        t.wavelengths = List.replicate (channelCount cm numWavelengths) 0) ∧
      channelCount ColorModel.SPECTRAL_MODEL numWavelengths = numWavelengths ∧
      channelCount ColorModel.MONOCHROMATIC_MODEL numWavelengths = 1 ∧
      channelCount ColorModel.XYZ_MODEL numWavelengths = 3 ∧
      channelCount ColorModel.RGB_MODEL numWavelengths = 3 :=
  ⟨SampleSet.create n0 n1 n2 n3 cm numWavelengths,
    machine_create_eq n0 n1 n2 n3 cm numWavelengths hb,
    create_invariants n0 n1 n2 n3 cm numWavelengths⟩

/-- The amended C17 on a spectral set of `2·3·4·5` samples with 7
wavelengths. -/
theorem construction_invariants_witness :
    2 * 3 * 4 * 5 < 2147483648 ∧
    ∃ t, Machine.create 2 3 4 5 ColorModel.SPECTRAL_MODEL 7 = some t ∧
      t.spectra.length = 2 * 3 * 4 * 5 ∧ t.wavelengths.length = 7 :=
  ⟨by decide,
    (construction_invariants 2 3 4 5 ColorModel.SPECTRAL_MODEL 7 (by decide)).imp
      (fun _ h => ⟨h.1, h.2.2.2.2.2.2.2.2.2.1, by
        have := h.2.2.2.2.2.2.2.2.2.2.2.1
        simpa [channelCount] using this⟩)⟩

/-- C18, as stated, fails: the monochromatic sample set constructed with one
sample satisfies the size invariants, but after `resizeAngles(1,1,1,2)` the
added spectrum is empty, so not every spectrum has the length `W = 1` of the
wavelength vector. -/
theorem resizeAngles_growth_counterexample :
    Machine.create 1 1 1 1 ColorModel.MONOCHROMATIC_MODEL 1 = some singleSample ∧
    singleSample.Valid ∧
    (Machine.resizeAngles singleSample 1 1 1 2).map (fun t => t.spectra) = some [[0], []] ∧
    (Machine.resizeAngles singleSample 1 1 1 2).map (fun t => t.wavelengths) = some [0] ∧
    (Machine.resizeAngles singleSample 1 1 1 2).map
      (fun t => decide (∀ sp ∈ t.spectra, sp.length = t.wavelengths.length)) = some false ∧
    (Machine.resizeAngles singleSample 1 1 1 2).map (fun t => decide t.Valid) = some false := by
  decide!

/-- C18, amended. For every sample set `S` satisfying the size invariant:
when `N0·N1·N2·N3` is below `2³¹`, after `resizeWavelengths(W')` the set has
`N0·N1·N2·N3` spectra, every spectrum has length `W'`, which is the length of
the wavelength vector, and sizes, axes and colour model are unchanged; for
sizes `N0',N1',N2',N3'` whose product is below `2³¹`, `resizeAngles` returns a
set with `N0'·N1'·N2'·N3'` spectra and axes of the new sizes, colour model and
wavelengths are preserved, the spectra added beyond the old number of samples
are empty, and every spectrum has length `W` when the number of samples does
not increase. -/
theorem resizing_invariants (ss : SampleSet) (hv : ss.Valid) :
    (ss.numAngles0 * ss.numAngles1 * ss.numAngles2 * ss.numAngles3 < 2147483648 →
      ∀ W2 : Nat,
      (Machine.resizeWavelengths ss W2).Valid ∧
      (Machine.resizeWavelengths ss W2).wavelengths.length = W2 ∧
      (∀ sp ∈ (Machine.resizeWavelengths ss W2).spectra, sp.length = W2) ∧
      (Machine.resizeWavelengths ss W2).numAngles0 = ss.numAngles0 ∧
      (Machine.resizeWavelengths ss W2).numAngles1 = ss.numAngles1 ∧
      (Machine.resizeWavelengths ss W2).numAngles2 = ss.numAngles2 ∧
      (Machine.resizeWavelengths ss W2).numAngles3 = ss.numAngles3 ∧
      (Machine.resizeWavelengths ss W2).colorModel = ss.colorModel) ∧
    (∀ n0 n1 n2 n3 : Nat, n0 * n1 * n2 * n3 < 2147483648 →
      ∃ t, Machine.resizeAngles ss n0 n1 n2 n3 = some t ∧
      t.spectra.length = n0 * n1 * n2 * n3 ∧
      t.numAngles0 = n0 ∧ t.numAngles1 = n1 ∧ t.numAngles2 = n2 ∧ t.numAngles3 = n3 ∧
      t.angles0.length = n0 ∧ t.angles1.length = n1 ∧
      t.angles2.length = n2 ∧ t.angles3.length = n3 ∧
      t.colorModel = ss.colorModel ∧
      t.wavelengths = ss.wavelengths ∧
      (∀ i, ss.spectra.length ≤ i → i < n0 * n1 * n2 * n3 → t.spectra.getD i [0] = []) ∧
      (n0 * n1 * n2 * n3 ≤ ss.numAngles0 * ss.numAngles1 * ss.numAngles2 * ss.numAngles3 →
        t.Valid)) := by
  constructor
  · intro hs W2
    rw [machine_resizeWavelengths_eq ss W2 hs]
    exact (resize_invariants ss hv).1 W2
  · intro n0 n1 n2 n3 hb
    exact ⟨ss.resizeAngles n0 n1 n2 n3, machine_resizeAngles_eq ss n0 n1 n2 n3 hb,
      (resize_invariants ss hv).2 n0 n1 n2 n3⟩

/-- The amended C18 on a monochromatic sample set of two samples: resizing the
wavelengths to 2 keeps the invariant, and so does shrinking the angles. -/
theorem resizing_invariants_witness :
    (azimuthSamples [0, 1] [[1], [2]]).Valid ∧
    (Machine.resizeWavelengths (azimuthSamples [0, 1] [[1], [2]]) 2).Valid ∧
    ∃ t, Machine.resizeAngles (azimuthSamples [0, 1] [[1], [2]]) 1 1 1 1 = some t ∧ t.Valid :=
  ⟨by decide!,
   ((resizing_invariants (azimuthSamples [0, 1] [[1], [2]]) (by decide!)).1 (by decide!) 2).1,
   ((resizing_invariants (azimuthSamples [0, 1] [[1], [2]]) (by decide!)).2 1 1 1 1
      (by decide)).imp
     (fun _ h => ⟨h.1, h.2.2.2.2.2.2.2.2.2.2.2.2.2 (by decide!)⟩)⟩

/-! ## xyzToSrgb on a sample set -/

/-- Four nested loops that rewrite every sample from its own previous value. -/
theorem mapSpectra_upd (f : Nat → Nat → Nat → Nat → Spectrum → Spectrum) (ss : SampleSet)
    (hs : ss.SizeOk) :
    Upd ss
      (forRange ss.numAngles0 (fun i0 =>
        forRange ss.numAngles1 (fun i1 =>
        forRange ss.numAngles2 (fun i2 =>
        forRange ss.numAngles3 (fun i3 s =>
          s.setSpectrum i0 i1 i2 i3 (f i0 i1 i2 i3 (s.getSpectrum i0 i1 i2 i3)))))) ss)
      (fun _ _ _ _ => True)
      (fun q0 q1 q2 q3 => f q0 q1 q2 q3 (ss.getSpectrum q0 q1 q2 q3)) := by
  have h := Upd.loop4 (s := ss) ss.numAngles0 ss.numAngles1 ss.numAngles2 ss.numAngles3
    (fun a _ _ _ => a) (fun _ b _ _ => b) (fun _ _ c _ => c) (fun _ _ _ d => d)
    (fun i0 i1 i2 i3 s =>
      s.setSpectrum i0 i1 i2 i3 (f i0 i1 i2 i3 (s.getSpectrum i0 i1 i2 i3)))
    (fun q0 q1 q2 q3 => f q0 q1 q2 q3 (ss.getSpectrum q0 q1 q2 q3))
    (by
      intro a b c d ha hb hc hd u hu
      have hp : ss.InRange a b c d := ⟨ha, hb, hc, hd⟩
      have hself : u.getSpectrum a b c d = ss.getSpectrum a b c d := by
        refine (hu.2 a b c d hp).2 ?_
        rintro ⟨x, y, z, w, -, -, -, -, hlex, e0, e1, e2, e3⟩
        simp only at e0 e1 e2 e3
        subst e0 e1 e2 e3
        unfold LexBefore at hlex
        omega
      refine Upd.write hs hu hp _ ?_
      rw [hself])
  refine Upd.congr h ?_
  intro q0 q1 q2 q3 hq
  exact ⟨fun _ => trivial, fun _ => ⟨q0, q1, q2, q3, hq.1, hq.2.1, hq.2.2.1, hq.2.2.2,
    rfl, rfl, rfl, rfl⟩⟩

/-- C15. On a sample set whose colour model is not XYZ, `xyzToSrgb` returns
the sample set unchanged.  On an XYZ sample set (with the size invariant)
every spectrum is replaced by the per-spectrum conversion of its previous
value and the colour model becomes RGB; sizes, axes, wavelengths and
attributes are unchanged. -/
theorem xyzToSrgb_spec (convert : Spectrum → Spectrum) (ss : SampleSet) :
    (ss.colorModel ≠ ColorModel.XYZ_MODEL → xyzToSrgb convert ss = ss) ∧
    (ss.colorModel = ColorModel.XYZ_MODEL → ss.SizeOk →
      (xyzToSrgb convert ss).colorModel = ColorModel.RGB_MODEL ∧
      (∀ i0 i1 i2 i3, ss.InRange i0 i1 i2 i3 →
        (xyzToSrgb convert ss).getSpectrum i0 i1 i2 i3 =
          convert (ss.getSpectrum i0 i1 i2 i3)) ∧
      xyzToSrgb convert ss =
        { ss with spectra := (xyzToSrgb convert ss).spectra,
                  colorModel := ColorModel.RGB_MODEL } ∧
      (xyzToSrgb convert ss).spectra.length = ss.spectra.length) := by
  constructor
  · intro h
    unfold xyzToSrgb
    rw [if_pos h]
  · intro h hs
    have hu := mapSpectra_upd (fun _ _ _ _ sp => convert sp) ss hs
    have e : xyzToSrgb convert ss =
        { (forRange ss.numAngles0 (fun i0 =>
            forRange ss.numAngles1 (fun i1 =>
            forRange ss.numAngles2 (fun i2 =>
            forRange ss.numAngles3 (fun i3 s =>
              s.setSpectrum i0 i1 i2 i3 (convert (s.getSpectrum i0 i1 i2 i3)))))) ss) with
          colorModel := ColorModel.RGB_MODEL } := by
      unfold xyzToSrgb
      rw [if_neg (not_not.2 h)]
    refine ⟨by rw [e], ?_, ?_, ?_⟩
    · intro i0 i1 i2 i3 hq
      rw [e]
      exact (hu.2 i0 i1 i2 i3 hq).1 trivial
    · rw [e]
      simp only []
      rw [hu.1.1]
    · rw [e]
      exact hu.1.2

/-- C15 on the D65 white point in XYZ mode, with the conversion that maps every
spectrum to `(1,1,1)`: the colour model becomes RGB and the sample is
converted; a monochromatic sample set is returned as it is. -/
theorem xyzToSrgb_spec_witness :
    (xyzToSrgb (fun _ => [1, 1, 1]) polarSamples = polarSamples) ∧
    ((xyzToSrgb (fun _ => [1, 1, 1]) xyzSamples).colorModel = ColorModel.RGB_MODEL ∧
      (xyzToSrgb (fun _ => [1, 1, 1]) xyzSamples).getSpectrum 0 0 0 0 = [1, 1, 1]) :=
  ⟨(xyzToSrgb_spec (fun _ => [1, 1, 1]) polarSamples).1 (by decide),
   ((xyzToSrgb_spec (fun _ => [1, 1, 1]) xyzSamples).2 (by decide) (by decide!)).1,
   ((xyzToSrgb_spec (fun _ => [1, 1, 1]) xyzSamples).2 (by decide) (by decide!)).2.1
     0 0 0 0 (by decide!)⟩

/-! ## setupBrdf -/

/-- C16, as stated, fails: the sample set `xyzSamples` is in XYZ mode, not RGB,
and has three channels; `setupBrdf` accepts it, returns `true` and overwrites
its spectrum. -/
theorem setupBrdf_counterexample :
    xyzSamples.Valid ∧ xyzSamples.ColorOk ∧
    xyzSamples.colorModel ≠ ColorModel.RGB_MODEL ∧
    (setupBrdf (fun _ _ _ _ => [1, 1, 1]) xyzSamples).1 = true ∧
    (setupBrdf (fun _ _ _ _ => [1, 1, 1]) xyzSamples).2.spectra = [[1, 1, 1]] ∧
    (setupBrdf (fun _ _ _ _ => [1, 1, 1]) xyzSamples).2.spectra ≠ xyzSamples.spectra := by
  decide!

/-- C16, amended. `setupBrdf` called on a sample set whose number of channels
`W` is not 3 returns `false` and performs no mutation of the sample set; this
covers every monochromatic sample set obeying the colour rule.  A sample set
with `W = 3` is accepted (the result is `true`), whatever its colour model. -/
theorem setupBrdf_guard (values : Nat → Nat → Nat → Nat → Spectrum) (ss : SampleSet) :
    (ss.getNumWavelengths ≠ 3 → setupBrdf values ss = (false, ss)) ∧
    (ss.ColorOk → ss.colorModel = ColorModel.MONOCHROMATIC_MODEL →
      setupBrdf values ss = (false, ss)) ∧
    (ss.getNumWavelengths = 3 → (setupBrdf values ss).1 = true) := by
  refine ⟨fun h => ?_, fun hc hm => ?_, fun h => ?_⟩
  · unfold setupBrdf
    rw [if_pos h]
  · have h : ss.getNumWavelengths ≠ 3 := by
      unfold SampleSet.getNumWavelengths
      rw [hc.1 hm]
      decide
    unfold setupBrdf
    rw [if_pos h]
  · unfold setupBrdf
    rw [if_neg (not_not.2 h)]

/-- The amended C16 on the monochromatic `polarSamples` (rejected, unchanged)
and on `xyzSamples` (accepted). -/
theorem setupBrdf_guard_witness :
    polarSamples.getNumWavelengths = 1 ∧
    setupBrdf (fun _ _ _ _ => [1, 1, 1]) polarSamples = (false, polarSamples) ∧
    (setupBrdf (fun _ _ _ _ => [1, 1, 1]) xyzSamples).1 = true :=
  ⟨by decide,
   (setupBrdf_guard (fun _ _ _ _ => [1, 1, 1]) polarSamples).1 (by decide),
   (setupBrdf_guard (fun _ _ _ _ => [1, 1, 1]) xyzSamples).2.2 (by decide)⟩


/-! ## fixEnergyConservation -/

/-- Two updates in a row: the samples selected by the second are read off the
second, the others off the first. -/
theorem Upd.andThen {s u t : SampleSet} {W1 W2 : Nat → Nat → Nat → Nat → Prop}
    {g g2 : Nat → Nat → Nat → Nat → Spectrum} (h1 : Upd s u W1 g) (h2 : Upd u t W2 g2)
    (hg : ∀ a b c d, s.InRange a b c d → W2 a b c d → g2 a b c d = g a b c d) :
    Upd s t (fun a b c d => W1 a b c d ∨ W2 a b c d) g := by
  refine ⟨SameFrame.trans h1.1 h2.1, fun a b c d hq => ?_⟩
  have hqu : u.InRange a b c d := (SameFrame.inRange_iff h1.1 _ _ _ _).2 hq
  by_cases hw2 : W2 a b c d
  · refine ⟨fun _ => ?_, fun hn => absurd (Or.inr hw2) hn⟩
    rw [(h2.2 a b c d hqu).1 hw2, hg a b c d hq hw2]
  · rw [(h2.2 a b c d hqu).2 hw2]
    refine ⟨fun hw => ?_, fun hn => ?_⟩
    · rcases hw with hw | hw
      · exact (h1.2 a b c d hq).1 hw
      · exact absurd hw hw2
    · exact (h1.2 a b c d hq).2 (fun hw => hn (Or.inl hw))

/-- Two nested loops that divide every sample of the slice `(i0, i1)` by `c`. -/
theorem divideSlice_upd (u : SampleSet) (hs : u.SizeOk) (i0 i1 : Nat)
    (h0 : i0 < u.numAngles0) (h1 : i1 < u.numAngles1) (c : ℚ) :
    Upd u
      (forRange u.numAngles2 (fun i2 =>
        forRange u.numAngles3 (fun i3 t =>
          t.setSpectrum i0 i1 i2 i3 (Spectrum.divScalar (t.getSpectrum i0 i1 i2 i3) c))) u)
      (fun q0 q1 _ _ => q0 = i0 ∧ q1 = i1)
      (fun q0 q1 q2 q3 => Spectrum.divScalar (u.getSpectrum q0 q1 q2 q3) c) := by
  have e : forRange u.numAngles2 (fun i2 =>
        forRange u.numAngles3 (fun i3 t =>
          t.setSpectrum i0 i1 i2 i3 (Spectrum.divScalar (t.getSpectrum i0 i1 i2 i3) c))) u =
      forRange 1 (fun _ => forRange 1 (fun _ => forRange u.numAngles2 (fun i2 =>
        forRange u.numAngles3 (fun i3 t =>
          t.setSpectrum i0 i1 i2 i3
            (Spectrum.divScalar (t.getSpectrum i0 i1 i2 i3) c))))) u := by
    rfl
  rw [e]
  have h := Upd.loop4 (s := u) 1 1 u.numAngles2 u.numAngles3
    (fun _ _ _ _ => i0) (fun _ _ _ _ => i1) (fun _ _ c _ => c) (fun _ _ _ d => d)
    (fun _ _ i2 i3 t =>
      t.setSpectrum i0 i1 i2 i3 (Spectrum.divScalar (t.getSpectrum i0 i1 i2 i3) c))
    (fun q0 q1 q2 q3 => Spectrum.divScalar (u.getSpectrum q0 q1 q2 q3) c)
    (by
      intro a b x d ha hb hx hd t ht
      have hp : u.InRange i0 i1 x d := ⟨h0, h1, hx, hd⟩
      have hself : t.getSpectrum i0 i1 x d = u.getSpectrum i0 i1 x d := by
        refine (ht.2 i0 i1 x d hp).2 ?_
        rintro ⟨a2, b2, x2, d2, ha2, hb2, -, -, hlex, -, -, e2, e3⟩
        simp only at e2 e3
        subst e2 e3
        unfold LexBefore at hlex
        omega
      refine Upd.write hs ht hp _ ?_
      rw [hself])
  refine Upd.congr h ?_
  intro q0 q1 q2 q3 hq
  constructor
  · rintro ⟨a, b, x, d, -, -, -, -, e0, e1, -, -⟩
    exact ⟨e0.symm, e1.symm⟩
  · rintro ⟨e0, e1⟩
    exact ⟨0, 0, q2, q3, by omega, by omega, hq.2.2.1, hq.2.2.2, e0.symm, e1.symm, rfl, rfl⟩

/-- One step of the loops over `(i0, i1)`: the slice is divided when the
reflectance computed on the current state exceeds 1, and left alone otherwise. -/
theorem fixEnergyConservationSlice_upd (cr : SampleSet → ℚ → ℚ → Spectrum) (u : SampleSet)
    (hs : u.SizeOk) (i0 i1 : Nat) (h0 : i0 < u.numAngles0) (h1 : i1 < u.numAngles1) :
    Upd u (fixEnergyConservationSlice cr i0 i1 u)
      (fun q0 q1 _ _ => (q0 = i0 ∧ q1 = i1) ∧
        1 < (cr u (u.getAngle0 i0) (u.getAngle1 i1)).maxCoeff)
      (fun q0 q1 q2 q3 => Spectrum.divScalar (u.getSpectrum q0 q1 q2 q3)
        ((cr u (u.getAngle0 i0) (u.getAngle1 i1)).maxCoeff / LAMBERTIAN_COEFF)) := by
  unfold fixEnergyConservationSlice
  simp only []
  by_cases hm : 1 < (cr u (u.getAngle0 i0) (u.getAngle1 i1)).maxCoeff
  · rw [if_pos hm]
    exact Upd.congr (divideSlice_upd u hs i0 i1 h0 h1 _)
      (fun a b c d _ => ⟨fun h => ⟨h, hm⟩, fun h => h.1⟩)
  · rw [if_neg hm]
    exact Upd.start u _ _ (fun a b c d _ h => hm h.2)

/-- The loops of `fixEnergyConservation` in closed form: the samples of the
slices whose reflectance, computed when the slice is visited, exceeds 1 are
divided by `ρ_max / coeff`; all other samples and everything except the
spectra are unchanged. -/
theorem fixEnergyConservation_upd (cr : SampleSet → ℚ → ℚ → Spectrum) (ss : SampleSet)
    (hs : ss.SizeOk) :
    Upd ss (fixEnergyConservation cr ss)
      (fun q0 q1 _ _ => 1 < maxReflectanceWhenVisited cr ss q0 q1)
      (fun q0 q1 q2 q3 => Spectrum.divScalar (ss.getSpectrum q0 q1 q2 q3)
        (maxReflectanceWhenVisited cr ss q0 q1 / LAMBERTIAN_COEFF)) := by
  have outer := forRange_induct
    (fun k0 u =>
      u = forRange k0 (fun inThIndex => forRange ss.numAngles1 (fun inPhIndex s =>
        fixEnergyConservationSlice cr inThIndex inPhIndex s)) ss ∧
      Upd ss u (fun q0 q1 _ _ => q0 < k0 ∧ 1 < maxReflectanceWhenVisited cr ss q0 q1)
        (fun q0 q1 q2 q3 => Spectrum.divScalar (ss.getSpectrum q0 q1 q2 q3)
          (maxReflectanceWhenVisited cr ss q0 q1 / LAMBERTIAN_COEFF)))
    ss.numAngles0
    (fun inThIndex => forRange ss.numAngles1 (fun inPhIndex s =>
      fixEnergyConservationSlice cr inThIndex inPhIndex s))
    ss ?_ ?_
  · exact Upd.congr outer.2 (fun a b c d hq => ⟨fun h => h.2, fun h => ⟨hq.1, h⟩⟩)
  · exact ⟨rfl, Upd.start ss _ _ (fun a b c d _ h => by omega)⟩
  · intro k0 u hk0 ih
    refine ⟨by rw [forRange_succ, ← ih.1], ?_⟩
    have inner := forRange_induct
      (fun k1 t =>
        t = forRange k1 (fun inPhIndex s => fixEnergyConservationSlice cr k0 inPhIndex s) u ∧
        Upd ss t (fun q0 q1 _ _ => (q0 < k0 ∨ (q0 = k0 ∧ q1 < k1)) ∧
            1 < maxReflectanceWhenVisited cr ss q0 q1)
          (fun q0 q1 q2 q3 => Spectrum.divScalar (ss.getSpectrum q0 q1 q2 q3)
            (maxReflectanceWhenVisited cr ss q0 q1 / LAMBERTIAN_COEFF)))
      ss.numAngles1 (fun inPhIndex s => fixEnergyConservationSlice cr k0 inPhIndex s) u ?_ ?_
    · exact Upd.congr inner.2 (fun a b c d hq =>
        ⟨fun h => ⟨by rcases h.1 with h1 | h1 <;> omega, h.2⟩,
         fun h => ⟨by
            by_cases ha : a < k0
            · exact Or.inl ha
            · exact Or.inr ⟨by omega, hq.2.1⟩, h.2⟩⟩)
    · exact ⟨rfl, Upd.congr ih.2 (fun a b c d _ =>
        ⟨fun h => ⟨Or.inl h.1, h.2⟩, fun h => ⟨by rcases h.1 with h1 | h1 <;> omega, h.2⟩⟩)⟩
    · intro k1 t hk1 iht
      refine ⟨by rw [forRange_succ, ← iht.1], ?_⟩
      have hst : t = stateWhenVisited cr ss k0 k1 := by
        rw [iht.1, ih.1]
        rfl
      have hf : SameFrame ss t := iht.2.1
      have hts : t.SizeOk := SameFrame.sizeOk hf hs
      have hp : ∀ c d, ss.InRange k0 k1 c d → t.InRange k0 k1 c d :=
        fun c d h => (SameFrame.inRange_iff hf _ _ _ _).2 h
      have ht0 : k0 < t.numAngles0 := by rw [hf.1]; exact hk0
      have ht1 : k1 < t.numAngles1 := by rw [hf.1]; exact hk1
      have hm : (cr t (t.getAngle0 k0) (t.getAngle1 k1)).maxCoeff =
          maxReflectanceWhenVisited cr ss k0 k1 := by
        unfold maxReflectanceWhenVisited
        rw [← hst]
      have hsl := fixEnergyConservationSlice_upd cr t hts k0 k1 ht0 ht1
      rw [hm] at hsl
      have htr := Upd.andThen iht.2 hsl (by
        intro a b c d hq hw
        obtain ⟨⟨rfl, rfl⟩, -⟩ := hw
        have : t.getSpectrum a b c d = ss.getSpectrum a b c d :=
          (iht.2.2 a b c d hq).2 (fun h => by rcases h.1 with h1 | h1 <;> omega)
        simp only [this])
      exact Upd.congr htr (fun a b c d _ =>
        ⟨fun h => by
          rcases h with h | h
          · exact ⟨by rcases h.1 with h1 | h1
                      · exact Or.inl h1
                      · exact Or.inr ⟨h1.1, by omega⟩, h.2⟩
          · obtain ⟨⟨rfl, rfl⟩, h2⟩ := h
            exact ⟨Or.inr ⟨rfl, by omega⟩, h2⟩,
         fun h => by
          by_cases hb : a = k0 ∧ b = k1
          · obtain ⟨rfl, rfl⟩ := hb
            exact Or.inr ⟨⟨rfl, rfl⟩, h.2⟩
          · refine Or.inl ⟨?_, h.2⟩
            rcases h.1 with h1 | h1
            · exact Or.inl h1
            · exact Or.inr ⟨h1.1, by omega⟩⟩)

theorem foldl_max_spec (l : List ℚ) (a : ℚ) :
    a ≤ l.foldl max a ∧ (∀ x ∈ l, x ≤ l.foldl max a) ∧ (l.foldl max a = a ∨ l.foldl max a ∈ l) := by
  induction l generalizing a with
  | nil => simp
  | cons b l ih =>
    obtain ⟨h1, h2, h3⟩ := ih (max a b)
    simp only [List.foldl_cons, List.mem_cons]
    refine ⟨le_trans (le_max_left a b) h1, ?_, ?_⟩
    · intro x hx
      rcases hx with rfl | hx
      · exact le_trans (le_max_right a x) h1
      · exact h2 x hx
    · rcases h3 with h3 | h3
      · rw [h3]
        rcases max_choice a b with h | h
        · exact Or.inl h
        · exact Or.inr (Or.inl h)
      · exact Or.inr (Or.inr h3)

/-- The value `maxCoeff` of a non-empty spectrum is one of its channels and
bounds all of them. -/
theorem maxCoeff_spec (sp : Spectrum) (h : sp ≠ []) :
    sp.maxCoeff ∈ sp ∧ ∀ x ∈ sp, x ≤ sp.maxCoeff := by
  cases sp with
  | nil => exact absurd rfl h
  | cons a l =>
    obtain ⟨h1, h2, h3⟩ := foldl_max_spec l (max a a)
    simp only [Spectrum.maxCoeff, List.headD_cons, List.foldl_cons, List.mem_cons]
    rw [max_self] at h1 h2 h3
    rw [max_self]
    refine ⟨?_, ?_⟩
    · rcases h3 with h3 | h3
      · exact Or.inl h3
      · exact Or.inr h3
    · intro x hx
      rcases hx with rfl | hx
      · exact h1
      · exact h2 x hx

/-- C13. Visiting the incoming grid points `(i0,i1)` in row-major order, let
`ρ_max` be the largest channel of the spectrum that the integrator returns for
the BRDF in its state at the time `(i0,i1)` is visited.  If `ρ_max > 1`, every
spectrum at `(i0,i1,i2,i3)` is the original one divided by `ρ_max / coeff`,
that is multiplied by `coeff / ρ_max`, a factor strictly between 0 and 1; if
`ρ_max ≤ 1` the spectra of the slice are unchanged.  Sizes, axes, colour model
and wavelengths are never changed. -/
theorem fixEnergyConservation_scaling (cr : SampleSet → ℚ → ℚ → Spectrum) (ss : SampleSet)
    (hs : ss.SizeOk) :
    (∀ i0 i1 i2 i3, ss.InRange i0 i1 i2 i3 →
      (1 < maxReflectanceWhenVisited cr ss i0 i1 →
        (fixEnergyConservation cr ss).getSpectrum i0 i1 i2 i3 =
          Spectrum.divScalar (ss.getSpectrum i0 i1 i2 i3)
            (maxReflectanceWhenVisited cr ss i0 i1 / LAMBERTIAN_COEFF) ∧
        (fixEnergyConservation cr ss).getSpectrum i0 i1 i2 i3 =
          (ss.getSpectrum i0 i1 i2 i3).map
            (fun x => x * (LAMBERTIAN_COEFF / maxReflectanceWhenVisited cr ss i0 i1)) ∧
        0 < LAMBERTIAN_COEFF / maxReflectanceWhenVisited cr ss i0 i1 ∧
        LAMBERTIAN_COEFF / maxReflectanceWhenVisited cr ss i0 i1 < 1) ∧
      (maxReflectanceWhenVisited cr ss i0 i1 ≤ 1 →
        (fixEnergyConservation cr ss).getSpectrum i0 i1 i2 i3 =
          ss.getSpectrum i0 i1 i2 i3)) ∧
    fixEnergyConservation cr ss =
      { ss with spectra := (fixEnergyConservation cr ss).spectra } ∧
    (fixEnergyConservation cr ss).spectra.length = ss.spectra.length ∧
    stateWhenVisited cr ss 0 0 = ss ∧
    (∀ i0 i1, stateWhenVisited cr ss i0 (i1 + 1) =
      fixEnergyConservationSlice cr i0 i1 (stateWhenVisited cr ss i0 i1)) ∧
    (∀ i0, stateWhenVisited cr ss (i0 + 1) 0 = stateWhenVisited cr ss i0 ss.numAngles1) ∧
    fixEnergyConservation cr ss = stateWhenVisited cr ss ss.numAngles0 0 := by
  have hu := fixEnergyConservation_upd cr ss hs
  refine ⟨fun i0 i1 i2 i3 hq => ⟨fun hm => ?_, fun hm => ?_⟩, hu.1.1, hu.1.2, rfl,
    fun i0 i1 => ?_, fun i0 => ?_, rfl⟩
  · have hpos : 0 < maxReflectanceWhenVisited cr ss i0 i1 := lt_trans one_pos hm
    have hc : (0 : ℚ) < LAMBERTIAN_COEFF := by norm_num [LAMBERTIAN_COEFF]
    have hc1 : LAMBERTIAN_COEFF < 1 := by norm_num [LAMBERTIAN_COEFF]
    have e := (hu.2 i0 i1 i2 i3 hq).1 hm
    refine ⟨e, ?_, div_pos hc hpos, ?_⟩
    · rw [e]
      unfold Spectrum.divScalar
      apply List.map_congr_left
      intro x _
      rw [div_div_eq_mul_div, mul_div_assoc]
    · rw [div_lt_one hpos]
      exact lt_trans hc1 hm
  · exact (hu.2 i0 i1 i2 i3 hq).2 (not_lt.2 hm)
  · unfold stateWhenVisited
    rw [forRange_succ]
  · unfold stateWhenVisited
    rw [forRange_succ]
    rfl

/-- C13 on `energySamples`, with the reflectance read off the stored spectrum:
the slice with `ρ_max = 3` is divided by `3 / coeff`, the slice with
`ρ_max = 1/2` is unchanged. -/
theorem fixEnergyConservation_scaling_witness :
    maxReflectanceWhenVisited storedReflectance energySamples 0 0 = 3 ∧
    maxReflectanceWhenVisited storedReflectance energySamples 1 0 = 1 / 2 ∧
    (fixEnergyConservation storedReflectance energySamples).getSpectrum 0 0 0 0 =
      Spectrum.divScalar (energySamples.getSpectrum 0 0 0 0)
        (maxReflectanceWhenVisited storedReflectance energySamples 0 0 / LAMBERTIAN_COEFF) ∧
    (fixEnergyConservation storedReflectance energySamples).getSpectrum 1 0 0 0 =
      energySamples.getSpectrum 1 0 0 0 :=
  ⟨by decide!, by decide!,
   (((fixEnergyConservation_scaling storedReflectance energySamples (by decide!)).1
      0 0 0 0 (by decide!)).1 (by decide!)).1,
   ((fixEnergyConservation_scaling storedReflectance energySamples (by decide!)).1
      1 0 0 0 (by decide!)).2 (by decide!)⟩


/-! ## rotateOutPhi -/

/-- A counted loop that replaces position `i` of an array of size `n` by a
function of its own previous value maps the function over the array. -/
theorem forRange_modify_eq_map (n : Nat) (f : ℚ → ℚ) (l0 : List ℚ) (h : l0.length = n) :
    forRange n (fun i l => l.set i (f (l.getD i 0))) l0 = l0.map f := by
  have key := forRange_induct
    (fun k (l : List ℚ) => l.length = n ∧ (∀ i, i < k → l[i]? = some (f (l0.getD i 0))) ∧
      (∀ i, k ≤ i → l[i]? = l0[i]?))
    n (fun i l => l.set i (f (l.getD i 0))) l0 ⟨h, fun i hi => by omega, fun i _ => rfl⟩ ?_
  · obtain ⟨hl, hget, -⟩ := key
    apply List.ext_getElem?
    intro i
    by_cases hi : i < n
    · rw [hget i hi, List.getElem?_map, List.getD_eq_getElem?_getD,
        List.getElem?_eq_getElem (by omega : i < l0.length)]
      rfl
    · rw [List.getElem?_eq_none (by omega), List.getElem?_eq_none (by simp; omega)]
  · intro k l hk ih
    obtain ⟨hl, h1, h2⟩ := ih
    refine ⟨by simp [hl], fun i hi => ?_, fun i hi => ?_⟩
    · by_cases hik : i = k
      · subst hik
        have hkl : i < l.length := by omega
        rw [List.getElem?_set, if_pos rfl]
        simp only [hkl, if_true]
        rw [List.getD_eq_getElem?_getD, List.getD_eq_getElem?_getD, h2 i (le_refl _)]
      · rw [List.getElem?_set_ne (fun e => hik e.symm)]
        exact h1 i (by omega)
    · rw [List.getElem?_set_ne (by omega)]
      exact h2 i (by omega)

theorem forRange_modifyAngle3 (n : Nat) (f : ℚ → ℚ) (s : SampleSet) :
    forRange n (fun i t => t.setAngle3 i (f (t.getAngle3 i))) s =
      { s with angles3 := forRange n (fun i l => l.set i (f (l.getD i 0))) s.angles3 } := by
  induction n with
  | zero => rfl
  | succ n ih => rw [forRange_succ, ih, forRange_succ]; rfl

/-- The part of `rotateOutPhi` before the resampling loops yields
`rotatedFrame`. -/
theorem rotateOutPhi_frame_eq (lookup : ℚ → ℚ → ℚ → ℚ → Spectrum) (ss : SampleSet)
    (α : ℚ) (h3 : ss.angles3.length = ss.numAngles3) :
    rotateOutPhi lookup ss α =
      forRange (rotatedFrame ss α).numAngles0 (fun inThIndex =>
      forRange (rotatedFrame ss α).numAngles1 (fun inPhIndex =>
      forRange (rotatedFrame ss α).numAngles2 (fun outThIndex =>
      forRange (rotatedFrame ss α).numAngles3 (fun outPhIndex s =>
        s.setSpectrum inThIndex inPhIndex outThIndex outPhIndex
          (lookup (s.getAngle0 inThIndex) (s.getAngle1 inPhIndex) (s.getAngle2 outThIndex)
            (lookupAngle (s.getAngle3 outPhIndex) (normalizedRotation α))))))) (rotatedFrame ss α) := by
  have hframe : (if !(ss.updateAngleAttributes).isEqualIntervalAngles3 then
        { (forRange (ss.updateAngleAttributes).numAngles3 (fun i s =>
            s.setAngle3 i (wrapAbove (s.getAngle3 i + normalizedRotation α)))
            ss.updateAngleAttributes) with
          angles3 := sortAngles (forRange (ss.updateAngleAttributes).numAngles3 (fun i s =>
            s.setAngle3 i (wrapAbove (s.getAngle3 i + normalizedRotation α)))
            ss.updateAngleAttributes).angles3 }
      else ss.updateAngleAttributes) = rotatedFrame ss α := by
    have hflag : (ss.updateAngleAttributes).isEqualIntervalAngles3 = isEqualInterval ss.angles3 := rfl
    have hnum : (ss.updateAngleAttributes).numAngles3 = ss.numAngles3 := rfl
    have hang : (ss.updateAngleAttributes).angles3 = ss.angles3 := rfl
    unfold rotatedFrame rotatedAngles3
    rw [hflag]
    cases hE : isEqualInterval ss.angles3 with
    | true =>
      simp only [Bool.not_true, Bool.false_eq_true, if_false, if_true]
      rfl
    | false =>
      simp only [Bool.not_false, if_true, Bool.false_eq_true, if_false]
      have hmap := forRange_modify_eq_map ss.numAngles3
        (fun x => wrapAbove (x + normalizedRotation α)) ss.angles3 h3
      beta_reduce at hmap
      rw [forRange_modifyAngle3 _ (fun x => wrapAbove (x + normalizedRotation α)), hnum, hang,
        hmap]
  rw [← hframe]
  rfl

theorem SameFrame.getAngle0_eq {s t : SampleSet} (h : SameFrame s t) (i : Nat) :
    t.getAngle0 i = s.getAngle0 i := by
  unfold SampleSet.getAngle0
  rw [h.1]

theorem SameFrame.getAngle1_eq {s t : SampleSet} (h : SameFrame s t) (i : Nat) :
    t.getAngle1 i = s.getAngle1 i := by
  unfold SampleSet.getAngle1
  rw [h.1]

theorem SameFrame.getAngle2_eq {s t : SampleSet} (h : SameFrame s t) (i : Nat) :
    t.getAngle2 i = s.getAngle2 i := by
  unfold SampleSet.getAngle2
  rw [h.1]

/-- The resampling loops of `rotateOutPhi` in closed form: every sample holds
the lookup of the source at its own angles of axes 0 to 2 and at the angle
`ψ` derived from its axis-3 angle; everything except the spectra is as in
`rotatedFrame`. -/
theorem rotateOutPhi_upd (lookup : ℚ → ℚ → ℚ → ℚ → Spectrum) (ss : SampleSet) (α : ℚ)
    (hv : ss.Valid) :
    Upd (rotatedFrame ss α) (rotateOutPhi lookup ss α) (fun _ _ _ _ => True)
      (fun q0 q1 q2 q3 => lookup (ss.getAngle0 q0) (ss.getAngle1 q1) (ss.getAngle2 q2)
        (lookupAngle ((rotatedFrame ss α).getAngle3 q3) (normalizedRotation α))) := by
  have hs : (rotatedFrame ss α).SizeOk := hv.1
  rw [rotateOutPhi_frame_eq lookup ss α hv.2.2.2.2.1]
  have h := Upd.loop4 (s := rotatedFrame ss α)
    (rotatedFrame ss α).numAngles0 (rotatedFrame ss α).numAngles1
    (rotatedFrame ss α).numAngles2 (rotatedFrame ss α).numAngles3
    (fun a _ _ _ => a) (fun _ b _ _ => b) (fun _ _ c _ => c) (fun _ _ _ d => d)
    (fun inThIndex inPhIndex outThIndex outPhIndex s =>
      s.setSpectrum inThIndex inPhIndex outThIndex outPhIndex
        (lookup (s.getAngle0 inThIndex) (s.getAngle1 inPhIndex) (s.getAngle2 outThIndex)
          (lookupAngle (s.getAngle3 outPhIndex) (normalizedRotation α))))
    (fun q0 q1 q2 q3 => lookup (ss.getAngle0 q0) (ss.getAngle1 q1) (ss.getAngle2 q2)
      (lookupAngle ((rotatedFrame ss α).getAngle3 q3) (normalizedRotation α)))
    (by
      intro a b c d ha hb hc hd u hu
      refine Upd.write hs hu ⟨ha, hb, hc, hd⟩ _ ?_
      rw [SameFrame.getAngle0_eq hu.1, SameFrame.getAngle1_eq hu.1,
        SameFrame.getAngle2_eq hu.1, SameFrame.getAngle3_eq hu.1]
      rfl)
  refine Upd.congr h ?_
  intro q0 q1 q2 q3 hq
  exact ⟨fun _ => trivial, fun _ => ⟨q0, q1, q2, q3, hq.1, hq.2.1, hq.2.2.1, hq.2.2.2,
    rfl, rfl, rfl, rfl⟩⟩

/-- The result of `rotateOutPhi` is `rotatedFrame` with new spectra. -/
theorem rotateOutPhi_eq (lookup : ℚ → ℚ → ℚ → ℚ → Spectrum) (ss : SampleSet) (α : ℚ)
    (hv : ss.Valid) :
    rotateOutPhi lookup ss α =
      { rotatedFrame ss α with spectra := (rotateOutPhi lookup ss α).spectra } :=
  (rotateOutPhi_upd lookup ss α hv).1.1

/-- C11. For every spherical BRDF and every rotation angle `α` (in particular
`−2π < α < 2π`), with `α' = α + 2π` if `α < 0` and `α' = α` otherwise, the
result of `rotateOutPhi` has the sizes, the axes 0 to 2, the colour model and
the wavelengths of the source; if the source's axis 3 is equal-interval (per
`isEqualInterval`) the result's axis 3 is the source's axis 3; otherwise it is
the ascending sort of the values `w(φ_i + α')`, where `w(x) = x − 2π` if
`x > 2π` and `x` otherwise.  The source is a value of the model and is not
modified. -/
theorem rotateOutPhi_axes (lookup : ℚ → ℚ → ℚ → ℚ → Spectrum) (ss : SampleSet) (α : ℚ)
    (hv : ss.Valid) :
    (rotateOutPhi lookup ss α).numAngles0 = ss.numAngles0 ∧
    (rotateOutPhi lookup ss α).numAngles1 = ss.numAngles1 ∧
    (rotateOutPhi lookup ss α).numAngles2 = ss.numAngles2 ∧
    (rotateOutPhi lookup ss α).numAngles3 = ss.numAngles3 ∧
    (rotateOutPhi lookup ss α).angles0 = ss.angles0 ∧
    (rotateOutPhi lookup ss α).angles1 = ss.angles1 ∧
    (rotateOutPhi lookup ss α).angles2 = ss.angles2 ∧
    (rotateOutPhi lookup ss α).colorModel = ss.colorModel ∧
    (rotateOutPhi lookup ss α).wavelengths = ss.wavelengths ∧
    (isEqualInterval ss.angles3 = true → (rotateOutPhi lookup ss α).angles3 = ss.angles3) ∧
    (isEqualInterval ss.angles3 = false →
      (rotateOutPhi lookup ss α).angles3 =
        sortAngles (ss.angles3.map (fun x =>
          wrapAbove (x + (if α < 0 then α + 2 * PI_F else α)))) ∧
      List.Sorted (fun x y => x ≤ y) (rotateOutPhi lookup ss α).angles3 ∧
      List.Perm (rotateOutPhi lookup ss α).angles3
        (ss.angles3.map (fun x =>
          if x + (if α < 0 then α + 2 * PI_F else α) > 2 * PI_F
          then x + (if α < 0 then α + 2 * PI_F else α) - 2 * PI_F
          else x + (if α < 0 then α + 2 * PI_F else α)))) := by
  have he := rotateOutPhi_eq lookup ss α hv
  refine ⟨by rw [he]; rfl, by rw [he]; rfl, by rw [he]; rfl, by rw [he]; rfl, by rw [he]; rfl,
    by rw [he]; rfl, by rw [he]; rfl, by rw [he]; rfl, by rw [he]; rfl, ?_, ?_⟩
  · intro hE
    rw [he]
    show rotatedAngles3 ss α = ss.angles3
    unfold rotatedAngles3
    rw [hE, if_pos rfl]
  · intro hE
    have ha : (rotateOutPhi lookup ss α).angles3 =
        sortAngles (ss.angles3.map (fun x =>
          wrapAbove (x + (if α < 0 then α + 2 * PI_F else α)))) := by
      rw [he]
      show rotatedAngles3 ss α = _
      unfold rotatedAngles3
      rw [hE]
      rfl
    refine ⟨ha, ?_, ?_⟩
    · rw [ha]
      exact List.sorted_insertionSort _ _
    · rw [ha]
      exact List.perm_insertionSort _ _

/-- C11 on the axis `[0, 1, 3]`, which is not equal-interval, rotated by `−1`:
the rotated angles `2π−1, 2π, 2` are sorted to `[2, 2π−1, 2π]`; the
equal-interval axis of `rotationSamples` is kept. -/
theorem rotateOutPhi_axes_witness :
    (isEqualInterval unevenSamples.angles3 = false ∧
      (rotateOutPhi (fun _ _ _ x => [x]) unevenSamples (-1)).angles3 =
        [2, 2 * PI_F - 1, 2 * PI_F]) ∧
    (isEqualInterval rotationSamples.angles3 = true ∧
      (rotateOutPhi rotationLookup rotationSamples PI_F).angles3 = rotationSamples.angles3) :=
  ⟨⟨by decide!,
    (((rotateOutPhi_axes (fun _ _ _ x => [x]) unevenSamples (-1) (by decide!)).2.2.2.2.2.2.2.2.2.2
      (by decide!)).1).trans (by decide!)⟩,
   ⟨by decide!,
    (rotateOutPhi_axes rotationLookup rotationSamples PI_F (by decide!)).2.2.2.2.2.2.2.2.2.1
      (by decide!)⟩⟩


theorem normalizedRotation_range (α : ℚ) (h1 : -(2 * PI_F) < α) (h2 : α < 2 * PI_F) :
    0 ≤ normalizedRotation α ∧ normalizedRotation α < 2 * PI_F := by
  unfold normalizedRotation
  split
  · constructor <;> linarith
  · constructor <;> linarith

theorem wrapAbove_range (x : ℚ) (h1 : 0 ≤ x) (h2 : x < 4 * PI_F) :
    0 ≤ wrapAbove x ∧ wrapAbove x ≤ 2 * PI_F := by
  unfold wrapAbove
  split
  · constructor <;> linarith
  · constructor <;> linarith

theorem lookupAngle_range (x r : ℚ) (h1 : 0 ≤ x) (h2 : x ≤ 2 * PI_F) (h3 : 0 ≤ r)
    (h4 : r < 2 * PI_F) :
    0 ≤ lookupAngle x r ∧ lookupAngle x r ≤ 2 * PI_F := by
  unfold lookupAngle
  split
  · constructor <;> linarith
  · constructor <;> linarith

theorem rotatedAngles3_length (ss : SampleSet) (α : ℚ) :
    (rotatedAngles3 ss α).length = ss.angles3.length := by
  unfold rotatedAngles3 sortAngles
  split
  · rfl
  · rw [List.length_insertionSort, List.length_map]

/-- The angles of the rotated axis 3 stay in `[0, 2π]` when the source angles
lie there and the normalized rotation lies in `[0, 2π)`. -/
theorem rotatedAngles3_range (ss : SampleSet) (α : ℚ)
    (h1 : -(2 * PI_F) < α) (h2 : α < 2 * PI_F)
    (hφ : ∀ x ∈ ss.angles3, 0 ≤ x ∧ x ≤ 2 * PI_F) :
    ∀ y ∈ rotatedAngles3 ss α, 0 ≤ y ∧ y ≤ 2 * PI_F := by
  intro y hy
  unfold rotatedAngles3 at hy
  split at hy
  · exact hφ y hy
  · have hy2 := (List.perm_insertionSort _ _).mem_iff.1 hy
    obtain ⟨x, hx, rfl⟩ := List.mem_map.1 hy2
    obtain ⟨r1, r2⟩ := normalizedRotation_range α h1 h2
    obtain ⟨x1, x2⟩ := hφ x hx
    exact wrapAbove_range _ (by linarith) (by linarith)

theorem getD_mem_of_lt (l : List ℚ) (i : Nat) (h : i < l.length) : l.getD i 0 ∈ l := by
  rw [List.getD_eq_getElem _ _ h]
  exact List.getElem_mem _

/-- C12. For every index `(i0,i1,i2,i3)` the result's spectrum is the source's
continuous lookup at `(inθ_i0, inφ_i1, outθ_i2, ψ)`, where `ψ = φ'_i3 − α'`,
taken from the result's axis 3, plus `2π` if negative; for `−2π < α < 2π` and
source axis values in `[0, 2π]`, `ψ` lies in `[0, 2π]`.  Consequently, when
the lookup returns the stored sample at grid angles: with axis 3
`[0, π/2, π, 3π/2]`, spectrum `(1,0,0)` at `i3 = 0` and zero elsewhere,
`rotateOutPhi(·, π)` yields `(1,0,0)` at `i3 = 2` and zero at `i3 = 0, 1, 3`. -/
theorem rotateOutPhi_resampling (lookup : ℚ → ℚ → ℚ → ℚ → Spectrum) (ss : SampleSet) (α : ℚ)
    (hv : ss.Valid) :
    (∀ i0 i1 i2 i3, ss.InRange i0 i1 i2 i3 →
      (rotateOutPhi lookup ss α).getSpectrum i0 i1 i2 i3 =
        lookup ((rotateOutPhi lookup ss α).getAngle0 i0)
          ((rotateOutPhi lookup ss α).getAngle1 i1)
          ((rotateOutPhi lookup ss α).getAngle2 i2)
          (if (rotateOutPhi lookup ss α).getAngle3 i3 -
                (if α < 0 then α + 2 * PI_F else α) < 0
           then (rotateOutPhi lookup ss α).getAngle3 i3 -
                (if α < 0 then α + 2 * PI_F else α) + 2 * PI_F
           else (rotateOutPhi lookup ss α).getAngle3 i3 -
                (if α < 0 then α + 2 * PI_F else α))) ∧
    (-(2 * PI_F) < α → α < 2 * PI_F →
      (∀ j, j < ss.numAngles3 → 0 ≤ ss.getAngle3 j ∧ ss.getAngle3 j ≤ 2 * PI_F) →
      ∀ i3, i3 < ss.numAngles3 →
        0 ≤ lookupAngle ((rotateOutPhi lookup ss α).getAngle3 i3) (normalizedRotation α) ∧
        lookupAngle ((rotateOutPhi lookup ss α).getAngle3 i3) (normalizedRotation α) ≤
          2 * PI_F) ∧
    (ss.angles3 = [0, PI_F / 2, PI_F, 3 * PI_F / 2] →
      (∀ i0 i1 i2 i3, ss.InRange i0 i1 i2 i3 →
        lookup (ss.getAngle0 i0) (ss.getAngle1 i1) (ss.getAngle2 i2) (ss.getAngle3 i3) =
          ss.getSpectrum i0 i1 i2 i3) →
      ∀ i0 i1 i2, i0 < ss.numAngles0 → i1 < ss.numAngles1 → i2 < ss.numAngles2 →
        ss.getSpectrum i0 i1 i2 0 = [1, 0, 0] → ss.getSpectrum i0 i1 i2 1 = [0, 0, 0] →
        ss.getSpectrum i0 i1 i2 2 = [0, 0, 0] → ss.getSpectrum i0 i1 i2 3 = [0, 0, 0] →
        (rotateOutPhi lookup ss PI_F).getSpectrum i0 i1 i2 2 = [1, 0, 0] ∧
        (rotateOutPhi lookup ss PI_F).getSpectrum i0 i1 i2 0 = [0, 0, 0] ∧
        (rotateOutPhi lookup ss PI_F).getSpectrum i0 i1 i2 1 = [0, 0, 0] ∧
        (rotateOutPhi lookup ss PI_F).getSpectrum i0 i1 i2 3 = [0, 0, 0]) := by
  have h3 : ss.angles3.length = ss.numAngles3 := hv.2.2.2.2.1
  have hget : ∀ β i0 i1 i2 i3, ss.InRange i0 i1 i2 i3 →
      (rotateOutPhi lookup ss β).getSpectrum i0 i1 i2 i3 =
        lookup (ss.getAngle0 i0) (ss.getAngle1 i1) (ss.getAngle2 i2)
          (lookupAngle ((rotatedAngles3 ss β).getD i3 0) (normalizedRotation β)) :=
    fun β i0 i1 i2 i3 hq => ((rotateOutPhi_upd lookup ss β hv).2 i0 i1 i2 i3 hq).1 trivial
  have hang : ∀ β i, (rotateOutPhi lookup ss β).getAngle3 i = (rotatedAngles3 ss β).getD i 0 :=
    fun β i => SameFrame.getAngle3_eq (rotateOutPhi_upd lookup ss β hv).1 i
  refine ⟨fun i0 i1 i2 i3 hq => ?_, fun h1 h2 hφ i3 hi3 => ?_, fun ha hgrid i0 i1 i2 h0 h1 h2
    e0 e1 e2 e3 => ?_⟩
  · rw [hget α i0 i1 i2 i3 hq, hang,
      SameFrame.getAngle0_eq (rotateOutPhi_upd lookup ss α hv).1,
      SameFrame.getAngle1_eq (rotateOutPhi_upd lookup ss α hv).1,
      SameFrame.getAngle2_eq (rotateOutPhi_upd lookup ss α hv).1]
    rfl
  · rw [hang]
    have hmem : (rotatedAngles3 ss α).getD i3 0 ∈ rotatedAngles3 ss α :=
      getD_mem_of_lt _ _ (by rw [rotatedAngles3_length, h3]; exact hi3)
    have hφ2 : ∀ x ∈ ss.angles3, 0 ≤ x ∧ x ≤ 2 * PI_F := by
      intro x hx
      obtain ⟨j, hj, rfl⟩ := List.getElem_of_mem hx
      have := hφ j (by omega)
      unfold SampleSet.getAngle3 at this
      rw [List.getD_eq_getElem _ _ hj] at this
      exact this
    obtain ⟨y1, y2⟩ := rotatedAngles3_range ss α h1 h2 hφ2 _ hmem
    obtain ⟨r1, r2⟩ := normalizedRotation_range α h1 h2
    exact lookupAngle_range _ _ y1 y2 r1 r2
  · have hn : ss.numAngles3 = 4 := by rw [← h3, ha]; rfl
    have hrot : rotatedAngles3 ss PI_F = [0, PI_F / 2, PI_F, 3 * PI_F / 2] := by
      unfold rotatedAngles3
      rw [ha, if_pos (by decide!)]
    have hgrid2 : ∀ k, k < 4 →
        lookup (ss.getAngle0 i0) (ss.getAngle1 i1) (ss.getAngle2 i2)
          (([0, PI_F / 2, PI_F, 3 * PI_F / 2] : List ℚ).getD k 0) =
          ss.getSpectrum i0 i1 i2 k := by
      intro k hk
      have := hgrid i0 i1 i2 k ⟨h0, h1, h2, by omega⟩
      unfold SampleSet.getAngle3 at this
      rw [ha] at this
      exact this
    have hres : ∀ k k2, k < 4 → k2 < 4 →
        lookupAngle (([0, PI_F / 2, PI_F, 3 * PI_F / 2] : List ℚ).getD k 0)
            (normalizedRotation PI_F) =
          ([0, PI_F / 2, PI_F, 3 * PI_F / 2] : List ℚ).getD k2 0 →
        (rotateOutPhi lookup ss PI_F).getSpectrum i0 i1 i2 k = ss.getSpectrum i0 i1 i2 k2 := by
      intro k k2 hk hk2 e
      rw [hget PI_F i0 i1 i2 k ⟨h0, h1, h2, by omega⟩, hrot, e, hgrid2 k2 hk2]
    refine ⟨?_, ?_, ?_, ?_⟩
    · rw [hres 2 0 (by decide) (by decide) (by decide!), e0]
    · rw [hres 0 2 (by decide) (by decide) (by decide!), e2]
    · rw [hres 1 3 (by decide) (by decide) (by decide!), e3]
    · rw [hres 3 1 (by decide) (by decide) (by decide!), e1]

theorem rotationLookup_grid (i0 i1 i2 i3 : Nat) (hq : rotationSamples.InRange i0 i1 i2 i3) :
    rotationLookup (rotationSamples.getAngle0 i0) (rotationSamples.getAngle1 i1)
        (rotationSamples.getAngle2 i2) (rotationSamples.getAngle3 i3) =
      rotationSamples.getSpectrum i0 i1 i2 i3 := by
  obtain ⟨h0, h1, h2, h3⟩ := hq
  have h0b : i0 < 1 := h0
  have h1b : i1 < 1 := h1
  have h2b : i2 < 1 := h2
  have h3b : i3 < 4 := h3
  obtain rfl : i0 = 0 := by omega
  obtain rfl : i1 = 0 := by omega
  obtain rfl : i2 = 0 := by omega
  interval_cases i3 <;> decide!

/-- C12 on scenario 6 with a lookup that returns the stored samples at the grid
angles: after the rotation by `π` the spectrum `(1,0,0)` is at `i3 = 2`, and
the lookup angle of `i3 = 1` lies in `[0, 2π]`. -/
theorem rotateOutPhi_resampling_witness :
    rotationSamples.Valid ∧
    ((rotateOutPhi rotationLookup rotationSamples PI_F).getSpectrum 0 0 0 2 = [1, 0, 0] ∧
      (rotateOutPhi rotationLookup rotationSamples PI_F).getSpectrum 0 0 0 0 = [0, 0, 0] ∧
      (rotateOutPhi rotationLookup rotationSamples PI_F).getSpectrum 0 0 0 1 = [0, 0, 0] ∧
      (rotateOutPhi rotationLookup rotationSamples PI_F).getSpectrum 0 0 0 3 = [0, 0, 0]) ∧
    (0 ≤ lookupAngle ((rotateOutPhi rotationLookup rotationSamples PI_F).getAngle3 1)
        (normalizedRotation PI_F) ∧
      lookupAngle ((rotateOutPhi rotationLookup rotationSamples PI_F).getAngle3 1)
        (normalizedRotation PI_F) ≤ 2 * PI_F) :=
  ⟨by decide!,
   (rotateOutPhi_resampling rotationLookup rotationSamples PI_F (by decide!)).2.2
     (by decide!) rotationLookup_grid 0 0 0 (by decide) (by decide) (by decide)
     (by decide!) (by decide!) (by decide!) (by decide!),
   (rotateOutPhi_resampling rotationLookup rotationSamples PI_F (by decide!)).2.1
     (by decide!) (by decide!) (by decide!) 1 (by decide)⟩


/-! ## The guard of fillIncomingPolar0Data, for every parametrization -/

/-- C27. No kind of BRDF is both a Spherical and a SpecularCentered view, so
the disjunction `!Spherical || !SpecularCentered` of the guard is always
true; the early return of `fillIncomingPolar0Data` is taken if and only if the
sample set is not isotropic and `axis0[0] == 0`, for every kind of BRDF; when
it is taken the sample set is returned as it is, and otherwise the averaging
is performed. -/
theorem fillIncomingPolar0Data_guard_any_kind (kind : BrdfKind) (ss : SampleSet) :
    ¬ (kind.isSphericalCoordinatesBrdf = true ∧ kind.isSpecularCoordinatesBrdf = true) ∧
    (!kind.isSphericalCoordinatesBrdf || !kind.isSpecularCoordinatesBrdf) = true ∧
    (fillIncomingPolar0Guard kind ss = true ↔
      (ss.isIsotropic = false ∧ ss.getAngle0 0 = 0)) ∧
    (fillIncomingPolar0Guard kind ss = true → fillIncomingPolar0Data kind ss = ss) ∧
    (fillIncomingPolar0Guard kind ss = false →
      fillIncomingPolar0Data kind ss = fillIncomingPolar0Average ss) ∧
    fillIncomingPolar0Guard kind ss = fillIncomingPolar0Guard BrdfKind.Spherical ss := by
  have hd : (!kind.isSphericalCoordinatesBrdf || !kind.isSpecularCoordinatesBrdf) = true := by
    cases kind <;> rfl
  have hg : ∀ k : BrdfKind, fillIncomingPolar0Guard k ss =
      (!ss.isIsotropic && decide (ss.getAngle0 0 = 0)) := by
    intro k
    unfold fillIncomingPolar0Guard
    cases k <;> simp [BrdfKind.isSphericalCoordinatesBrdf, BrdfKind.isSpecularCoordinatesBrdf]
  refine ⟨by cases kind <;> simp [BrdfKind.isSphericalCoordinatesBrdf,
    BrdfKind.isSpecularCoordinatesBrdf], hd, ?_, ?_, ?_, ?_⟩
  · rw [hg]
    simp
  · intro h
    unfold fillIncomingPolar0Data
    rw [if_pos h]
  · intro h
    unfold fillIncomingPolar0Data
    rw [h]
    simp
  · rw [hg, hg]


/-! ## fixNegativeSpectra -/

theorem forallTwo_map_max (a b : List ℚ) (h : List.Forall₂ (fun x y : ℚ => x ≤ y) a b) :
    List.Forall₂ (fun x y : ℚ => x ≤ y) (a.map (fun x => max x 0)) (b.map (fun x => max x 0)) := by
  induction h with
  | nil => exact List.Forall₂.nil
  | cons hxy _ ih => exact List.Forall₂.cons (max_le_max hxy (le_refl 0)) ih

theorem forallTwo_map_map_max (a b : List (List ℚ))
    (h : List.Forall₂ (List.Forall₂ (fun x y : ℚ => x ≤ y)) a b) :
    List.Forall₂ (List.Forall₂ (fun x y : ℚ => x ≤ y))
      (a.map (fun sp => sp.map (fun x => max x 0)))
      (b.map (fun sp => sp.map (fun x => max x 0))) := by
  induction h with
  | nil => exact List.Forall₂.nil
  | cons hxy _ ih => exact List.Forall₂.cons (forallTwo_map_max _ _ hxy) ih

/-- C25. `fixNegativeSpectra` replaces every component `x` of every spectrum
by `max(x, 0)`; applying it twice equals applying it once; if the sample set
`a` is component-wise `≤` the sample set `b`, then `fixNegativeSpectra a` is
component-wise `≤` `fixNegativeSpectra b`; every resulting component is `≥ 0`;
sizes, axes, colour model and wavelengths are unchanged. -/
theorem fixNegativeSpectra_spec (ss : SampleSet) :
    (fixNegativeSpectra ss).spectra.length = ss.spectra.length ∧
    (∀ i0 i1 i2 i3 w,
      ((fixNegativeSpectra ss).getSpectrum i0 i1 i2 i3).getD w 0 =
        max ((ss.getSpectrum i0 i1 i2 i3).getD w 0) 0) ∧
    (∀ i0 i1 i2 i3,
      ((fixNegativeSpectra ss).getSpectrum i0 i1 i2 i3).length =
        (ss.getSpectrum i0 i1 i2 i3).length) ∧
    fixNegativeSpectra (fixNegativeSpectra ss) = fixNegativeSpectra ss ∧
    (∀ b : SampleSet, ss.SpectraLe b →
      (fixNegativeSpectra ss).SpectraLe (fixNegativeSpectra b)) ∧
    (∀ sp ∈ (fixNegativeSpectra ss).spectra, ∀ x ∈ sp, 0 ≤ x) ∧
    fixNegativeSpectra ss = { ss with spectra := (fixNegativeSpectra ss).spectra } := by
  have hget : ∀ i0 i1 i2 i3, (fixNegativeSpectra ss).getSpectrum i0 i1 i2 i3 =
      (ss.getSpectrum i0 i1 i2 i3).map (fun x => max x 0) := by
    intro i0 i1 i2 i3
    unfold SampleSet.getSpectrum fixNegativeSpectra SampleSet.index
    simp only [List.getD_eq_getElem?_getD, List.getElem?_map]
    cases ss.spectra[((i0 * ss.numAngles1 + i1) * ss.numAngles2 + i2) * ss.numAngles3 + i3]? <;> rfl
  refine ⟨by simp [fixNegativeSpectra], ?_, ?_, ?_, ?_, ?_, rfl⟩
  · intro i0 i1 i2 i3 w
    rw [hget]
    simp only [List.getD_eq_getElem?_getD, List.getElem?_map]
    cases (ss.getSpectrum i0 i1 i2 i3)[w]? <;> simp
  · intro i0 i1 i2 i3
    rw [hget, List.length_map]
  · unfold fixNegativeSpectra
    simp only [List.map_map]
    congr 1
    apply List.map_congr_left
    intro sp _
    simp only [Function.comp_apply, List.map_map]
    apply List.map_congr_left
    intro x _
    simp
  · intro b hle
    exact forallTwo_map_map_max _ _ hle
  · intro sp hsp x hx
    unfold fixNegativeSpectra at hsp
    simp only [List.mem_map] at hsp
    obtain ⟨sp0, -, rfl⟩ := hsp
    obtain ⟨y, -, rfl⟩ := List.mem_map.1 hx
    exact le_max_right _ _

/-- C25 on a sample set with negative components: they become 0, and the
order between `signedSamples` and `signedSamplesAbove` is kept. -/
theorem fixNegativeSpectra_spec_witness :
    (fixNegativeSpectra signedSamples).spectra = [[0, 2], [0, 0]] ∧
    (fixNegativeSpectra signedSamplesAbove).spectra = [[0, 3], [1, 0]] ∧
    signedSamples.SpectraLe signedSamplesAbove ∧
    (fixNegativeSpectra signedSamples).SpectraLe (fixNegativeSpectra signedSamplesAbove) :=
  have hle : signedSamples.SpectraLe signedSamplesAbove := by
    unfold SampleSet.SpectraLe signedSamples signedSamplesAbove
    simp only [List.forall₂_cons, List.forall₂_nil_left_iff, and_true]
    norm_num
  ⟨by decide!, by decide!, hle,
    (fixNegativeSpectra_spec signedSamples).2.2.2.2.1 signedSamplesAbove hle⟩


/-! ## Ordinary division in divideByCosineOutTheta -/

/-- C26. For every sample index `(i0,i1,i2,i3)` whose outgoing cosine `c` is
positive, and for every sample with `i2 = 0` and `c ≠ 0` (negative `c`
included), the spectrum after `divideByCosineOutTheta` is the spectrum stored
at that index before the call divided by `c`; the iteration of the counters
`(i0,i1,i2,i3)` is a single write at the position `(i0,i1,i2,i3)`; sizes,
axes, colour model and wavelengths are unchanged. -/
theorem divideByCosineOutTheta_ordinary (cosOutTheta : Nat → Nat → Nat → Nat → ℚ)
    (ss : SampleSet) (hs : ss.SizeOk) :
    (∀ i0 i1 i2 i3, ss.InRange i0 i1 i2 i3 → 0 < cosOutTheta i0 i1 i2 i3 →
      (divideByCosineOutTheta cosOutTheta ss).getSpectrum i0 i1 i2 i3 =
        (ss.getSpectrum i0 i1 i2 i3).map (fun x => x / cosOutTheta i0 i1 i2 i3)) ∧
    (∀ i0 i1 i3, ss.InRange i0 i1 0 i3 → cosOutTheta i0 i1 0 i3 ≠ 0 →
      (divideByCosineOutTheta cosOutTheta ss).getSpectrum i0 i1 0 i3 =
        (ss.getSpectrum i0 i1 0 i3).map (fun x => x / cosOutTheta i0 i1 0 i3)) ∧
    divideByCosineOutTheta cosOutTheta ss =
      forRange ss.numAngles0 (fun i0 =>
      forRange ss.numAngles1 (fun i1 =>
      forRange ss.numAngles2 (fun i2 =>
      forRange ss.numAngles3 (fun i3 s =>
        divideByCosineOutThetaStep cosOutTheta i0 i1 i2 i3 s)))) ss ∧
    (∀ i0 i1 i2 i3 (u : SampleSet), ∃ sp,
      divideByCosineOutThetaStep cosOutTheta i0 i1 i2 i3 u = u.setSpectrum i0 i1 i2 i3 sp) ∧
    divideByCosineOutTheta cosOutTheta ss =
      { ss with spectra := (divideByCosineOutTheta cosOutTheta ss).spectra } ∧
    (divideByCosineOutTheta cosOutTheta ss).spectra.length = ss.spectra.length := by
  have hu := divideByCosineOutTheta_upd cosOutTheta ss hs
  refine ⟨fun i0 i1 i2 i3 hq hc => ?_, fun i0 i1 i3 hq _ => ?_, rfl, fun i0 i1 i2 i3 u => ?_,
    hu.1.1, hu.1.2⟩
  · rw [(hu.2 i0 i1 i2 i3 hq).1 trivial]
    cases i2 with
    | zero => rfl
    | succ k =>
      simp only [dividedSpectrum, if_neg (not_le.2 hc)]
      rfl
  · rw [(hu.2 i0 i1 0 i3 hq).1 trivial]
    rfl
  · unfold divideByCosineOutThetaStep
    by_cases h : cosOutTheta i0 i1 i2 i3 ≤ 0 ∧ 0 < i2
    · rw [if_pos h]
      simp only []
      rw [setSpectrum_setSpectrum]
      exact ⟨_, rfl⟩
    · rw [if_neg h]
      exact ⟨_, rfl⟩

/-- C26 on scenario 4: the sample at `i2 = 0` with cosine `0.5` becomes
`s₀ / 0.5 = (2)`; with the cosine `-0.5` everywhere the sample at `i2 = 0`
becomes `s₀ / (-0.5) = (-2)`. -/
theorem divideByCosineOutTheta_ordinary_witness :
    (divideByCosineOutTheta grazingCosine grazingSamples).getSpectrum 0 0 0 0 =
      (grazingSamples.getSpectrum 0 0 0 0).map (fun x => x / grazingCosine 0 0 0 0) ∧
    (grazingSamples.getSpectrum 0 0 0 0).map (fun x => x / grazingCosine 0 0 0 0) = [2] ∧
    (divideByCosineOutTheta (fun _ _ _ _ => -1 / 2) grazingSamples).getSpectrum 0 0 0 0 =
      (grazingSamples.getSpectrum 0 0 0 0).map (fun x => x / (-1 / 2)) ∧
    (grazingSamples.getSpectrum 0 0 0 0).map (fun x => x / (-1 / 2)) = [-2] :=
  ⟨(divideByCosineOutTheta_ordinary grazingCosine grazingSamples (by decide!)).1 0 0 0 0
      (by decide!) (by decide!),
   by decide!,
   (divideByCosineOutTheta_ordinary (fun _ _ _ _ => -1 / 2) grazingSamples (by decide!)).2.1
      0 0 0 (by decide!) (by norm_num),
   by decide!⟩


/-! ## The average of fillIncomingPolar0Data over axis 3 -/

/-- The number of samples counted by the summation loop depends on axis 3
only. -/
theorem sumLoop_numSamples (ss : SampleSet) (i2 : Nat) :
    (sumLoop ss i2).numSamples = numAveraged3 ss := by
  have key := forRange_induct
    (fun k (st : SumState) =>
      (k < ss.numAngles3 ∨ ¬ (1 < ss.numAngles3 ∧
          isEqual (ss.getAngle3 0) (ss.getAngle3 (ss.numAngles3 - 1)) = true) →
        st.stopped = false ∧ st.numSamples = k) ∧
      (k = ss.numAngles3 ∧ (1 < ss.numAngles3 ∧
          isEqual (ss.getAngle3 0) (ss.getAngle3 (ss.numAngles3 - 1)) = true) →
        st.numSamples = ss.numAngles3 - 1))
    ss.numAngles3
    (fun i3 st =>
      if st.stopped then st
      else if i3 = ss.numAngles3 - 1 ∧
          isEqual (ss.getAngle3 0) (ss.getAngle3 (ss.numAngles3 - 1)) = true ∧
          1 < ss.numAngles3 then
        { st with stopped := true }
      else
        { st with sumSp := Spectrum.add st.sumSp (ss.getSpectrum3 0 i2 i3),
                  numSamples := st.numSamples + 1 })
    { numSamples := 0, sumSp := List.replicate ss.getNumWavelengths 0, stopped := false }
    ?_ ?_
  · unfold sumLoop numAveraged3
    by_cases hB : 1 < ss.numAngles3 ∧
        isEqual (ss.getAngle3 0) (ss.getAngle3 (ss.numAngles3 - 1)) = true
    · rw [if_pos hB]
      exact key.2 ⟨rfl, hB⟩
    · rw [if_neg hB]
      exact (key.1 (Or.inr hB)).2
  · exact ⟨fun _ => ⟨rfl, rfl⟩, fun h => by omega⟩
  · intro k st hk ih
    obtain ⟨hst, hnum⟩ := ih.1 (Or.inl hk)
    by_cases hbr : k = ss.numAngles3 - 1 ∧
        isEqual (ss.getAngle3 0) (ss.getAngle3 (ss.numAngles3 - 1)) = true ∧
        1 < ss.numAngles3
    · simp only [hst, if_pos hbr, Bool.false_eq_true, if_false]
      refine ⟨fun h => ?_, fun _ => ?_⟩
      · rcases h with h | h
        · omega
        · exact absurd ⟨hbr.2.2, hbr.2.1⟩ h
      · rw [hnum]; exact hbr.1
    · simp only [hst, if_neg hbr, Bool.false_eq_true, if_false]
      refine ⟨fun _ => ⟨trivial, by rw [hnum]⟩, fun h => ?_⟩
      exact absurd ⟨by omega, h.2.2, h.2.1⟩ hbr

theorem numAveraged3_bounds (ss : SampleSet) (h3 : 0 < ss.numAngles3) :
    1 ≤ numAveraged3 ss ∧ numAveraged3 ss ≤ ss.numAngles3 := by
  unfold numAveraged3
  split
  · omega
  · omega

theorem averageOverAxis3_length (ss : SampleSet) (i2 : Nat) :
    (averageOverAxis3 ss i2).length = ss.getNumWavelengths := by
  simp [averageOverAxis3]

/-- The average that the code computes on a state whose spectra have the
length of the wavelength vector. -/
theorem sumLoop_average (u : SampleSet) (i2 : Nat)
    (hlen : ∀ j, j < u.numAngles3 → (u.getSpectrum3 0 i2 j).length = u.getNumWavelengths) :
    Spectrum.divScalar (sumLoop u i2).sumSp ((sumLoop u i2).numSamples : ℚ) =
      averageOverAxis3 u i2 := by
  obtain ⟨e1, e2⟩ := sumLoop_eq u i2 hlen
  rw [e1, e2, divScalar_map_range]
  rfl

/-- Averaging a row whose samples all hold the spectrum `a` gives `a` back. -/
theorem averageOverAxis3_const (r : SampleSet) (i2 : Nat) (a : Spectrum)
    (ha : a.length = r.getNumWavelengths) (hn : 1 ≤ numAveraged3 r)
    (hrow : ∀ j, j < numAveraged3 r → r.getSpectrum3 0 i2 j = a) :
    averageOverAxis3 r i2 = a := by
  unfold averageOverAxis3
  rw [← ha]
  have hne : ((numAveraged3 r : ℕ) : ℚ) ≠ 0 := by
    have : 0 < numAveraged3 r := hn
    exact_mod_cast this.ne'
  have hsum : ∀ w, ((List.range (numAveraged3 r)).map
      (fun j => (r.getSpectrum3 0 i2 j).getD w 0)).sum = (numAveraged3 r : ℚ) * a.getD w 0 := by
    intro w
    have : (List.range (numAveraged3 r)).map (fun j => (r.getSpectrum3 0 i2 j).getD w 0) =
        List.replicate (numAveraged3 r) (a.getD w 0) := by
      apply List.ext_getElem
      · simp
      · intro j h1 h2
        simp only [List.length_map, List.length_range] at h1
        simp [hrow j h1]
    rw [this, List.sum_replicate, nsmul_eq_mul]
  conv_lhs =>
    enter [1, w]
    rw [hsum w, mul_div_cancel_left₀ _ hne]
  exact map_getD_range a

/-- The averaging loops leave a sample set unchanged when every row
`(0, i2, ·)` already holds its own average. -/
theorem fillIncomingPolar0Average_fix (r : SampleSet)
    (hrow : ∀ i2 i3, i2 < r.numAngles2 → i3 < r.numAngles3 →
      Spectrum.divScalar (sumLoop r i2).sumSp ((sumLoop r i2).numSamples : ℚ) =
        r.getSpectrum3 0 i2 i3) :
    fillIncomingPolar0Average r = r := by
  unfold fillIncomingPolar0Average
  refine forRange_induct (fun _ t => t = r) r.numAngles2 _ r rfl ?_
  intro i2 t hi2 ht
  subst ht
  simp only []
  refine forRange_induct (fun _ u => u = t) t.numAngles3 _ t rfl ?_
  intro i3 u hi3 hu
  subst hu
  rw [hrow i2 i3 hi2 hi3]
  exact setSpectrum_getSpectrum_self u 0 0 i2 i3

/-- The averaging loops are idempotent. -/
theorem fillIncomingPolar0Average_twice (ss : SampleSet) (hv : ss.Valid)
    (h0 : 0 < ss.numAngles0) (h1 : 0 < ss.numAngles1) (h3 : 0 < ss.numAngles3) :
    fillIncomingPolar0Average (fillIncomingPolar0Average ss) = fillIncomingPolar0Average ss := by
  have hu := fillIncomingPolar0Average_upd ss hv h0 h1
  have hf : SameFrame ss (fillIncomingPolar0Average ss) := hu.1
  have hcell : ∀ i2 i3, i2 < ss.numAngles2 → i3 < ss.numAngles3 →
      (fillIncomingPolar0Average ss).getSpectrum3 0 i2 i3 = averageOverAxis3 ss i2 :=
    fun i2 i3 hi2 hi3 => (hu.2 0 0 i2 i3 ⟨h0, h1, hi2, hi3⟩).1 ⟨rfl, rfl⟩
  generalize fillIncomingPolar0Average ss = r at hu hf hcell
  have d2 : r.numAngles2 = ss.numAngles2 := by rw [hf.1]
  have d3 : r.numAngles3 = ss.numAngles3 := SameFrame.numAngles3_eq hf
  have hW : r.getNumWavelengths = ss.getNumWavelengths := SameFrame.getNumWavelengths_eq hf
  have hn : numAveraged3 r = numAveraged3 ss := SameFrame.numAveraged3_eq hf
  obtain ⟨n1, n2⟩ := numAveraged3_bounds ss h3
  apply fillIncomingPolar0Average_fix
  intro i2 i3 hi2 hi3
  rw [d2] at hi2
  rw [d3] at hi3
  rw [sumLoop_average r i2 (by
    intro j hj
    rw [d3] at hj
    rw [hcell i2 j hi2 hj, averageOverAxis3_length, hW])]
  rw [hcell i2 i3 hi2 hi3]
  exact averageOverAxis3_const r i2 _ (by rw [averageOverAxis3_length, hW]) (by rw [hn]; exact n1)
    (fun j hj => hcell i2 j hi2 (by rw [hn] at hj; omega))

/-- C28. When `fillIncomingPolar0Data` does not take its early return (sizes
at least 1, size invariants): the number `n` of averaged samples is `N3 − 1`
if `N3 > 1` and `axis3[0]` is nearly equal to `axis3[N3−1]`, and `N3`
otherwise, so `n ≥ 1`, and it is the number the code divides by for every
`i2`; every spectrum addressed by the three-index accessor at `(0, i2, i3)` is
set to `(1/n)·Σ_{j<n}` of the original spectra at `(0, i2, j)`, the average
over axis 3; spectra with `i0 ≠ 0`, and everything except the spectra, are
unchanged; and the operation is idempotent. -/
theorem fillIncomingPolar0Data_average (kind : BrdfKind) (ss : SampleSet) (hv : ss.Valid)
    (h0 : 0 < ss.numAngles0) (h1 : 0 < ss.numAngles1) (h3 : 0 < ss.numAngles3)
    (hg : fillIncomingPolar0Guard kind ss = false) :
    1 ≤ numAveraged3 ss ∧
    numAveraged3 ss =
      (if 1 < ss.numAngles3 ∧
          |ss.getAngle3 0 - ss.getAngle3 (ss.numAngles3 - 1)| ≤
            EPSILON_F * |ss.getAngle3 0 + ss.getAngle3 (ss.numAngles3 - 1)|
       then ss.numAngles3 - 1 else ss.numAngles3) ∧
    (∀ u i2, SameFrame ss u → (sumLoop u i2).numSamples = numAveraged3 ss) ∧
    (∀ i2 i3 w, i2 < ss.numAngles2 → i3 < ss.numAngles3 → w < ss.getNumWavelengths →
      ((fillIncomingPolar0Data kind ss).getSpectrum3 0 i2 i3).length = ss.getNumWavelengths ∧
      ((fillIncomingPolar0Data kind ss).getSpectrum3 0 i2 i3).getD w 0 =
        ((List.range (numAveraged3 ss)).map
          (fun j => (ss.getSpectrum3 0 i2 j).getD w 0)).sum / (numAveraged3 ss : ℚ)) ∧
    (∀ i0 i1 i2 i3, ss.InRange i0 i1 i2 i3 → i0 ≠ 0 →
      (fillIncomingPolar0Data kind ss).getSpectrum i0 i1 i2 i3 =
        ss.getSpectrum i0 i1 i2 i3) ∧
    fillIncomingPolar0Data kind ss =
      { ss with spectra := (fillIncomingPolar0Data kind ss).spectra } ∧
    (fillIncomingPolar0Data kind ss).spectra.length = ss.spectra.length ∧
    fillIncomingPolar0Data kind (fillIncomingPolar0Data kind ss) =
      fillIncomingPolar0Data kind ss := by
  have hu := fillIncomingPolar0Average_upd ss hv h0 h1
  have he : fillIncomingPolar0Data kind ss = fillIncomingPolar0Average ss := by
    unfold fillIncomingPolar0Data
    rw [hg]
    simp
  have hg2 : fillIncomingPolar0Guard kind (fillIncomingPolar0Average ss) = false := by
    have : fillIncomingPolar0Guard kind (fillIncomingPolar0Average ss) =
        fillIncomingPolar0Guard kind ss := by
      unfold fillIncomingPolar0Guard SampleSet.isIsotropic SampleSet.getAngle0
      rw [hu.1.1]
    rw [this, hg]
  refine ⟨(numAveraged3_bounds ss h3).1, ?_, ?_, ?_, ?_, ?_, ?_, ?_⟩
  · unfold numAveraged3 isEqual
    simp only [decide_eq_true_eq]
  · intro u i2 hf
    rw [sumLoop_numSamples, SameFrame.numAveraged3_eq hf]
  · intro i2 i3 w hi2 hi3 hw
    have hc : (fillIncomingPolar0Average ss).getSpectrum3 0 i2 i3 = averageOverAxis3 ss i2 :=
      (hu.2 0 0 i2 i3 ⟨h0, h1, hi2, hi3⟩).1 ⟨rfl, rfl⟩
    rw [he, hc]
    refine ⟨averageOverAxis3_length ss i2, ?_⟩
    unfold averageOverAxis3
    rw [List.getD_eq_getElem?_getD, List.getElem?_map, List.getElem?_range hw]
    rfl
  · intro i0 i1 i2 i3 hq hne
    rw [he]
    exact (hu.2 i0 i1 i2 i3 hq).2 (fun h => hne h.1)
  · rw [he]
    exact hu.1.1
  · rw [he]
    exact hu.1.2
  · rw [he]
    unfold fillIncomingPolar0Data
    rw [hg2]
    simp only [Bool.false_eq_true, if_false]
    exact fillIncomingPolar0Average_twice ss hv h0 h1 h3

/-- C28 on `polarClosedSamples`, whose axis 3 ends with the angle it starts
with: two of the three samples are averaged, the third index receives the
average too, and a second application changes nothing. -/
theorem fillIncomingPolar0Data_average_witness :
    numAveraged3 polarClosedSamples = 2 ∧
    ((fillIncomingPolar0Data BrdfKind.Spherical polarClosedSamples).getSpectrum3 0 0 2).getD 0 0 =
      ((List.range (numAveraged3 polarClosedSamples)).map
        (fun j => (polarClosedSamples.getSpectrum3 0 0 j).getD 0 0)).sum /
        (numAveraged3 polarClosedSamples : ℚ) ∧
    ((List.range (numAveraged3 polarClosedSamples)).map
        (fun j => (polarClosedSamples.getSpectrum3 0 0 j).getD 0 0)).sum /
        (numAveraged3 polarClosedSamples : ℚ) = 2 ∧
    fillIncomingPolar0Data BrdfKind.Spherical
        (fillIncomingPolar0Data BrdfKind.Spherical polarClosedSamples) =
      fillIncomingPolar0Data BrdfKind.Spherical polarClosedSamples :=
  ⟨by decide!,
   ((fillIncomingPolar0Data_average BrdfKind.Spherical polarClosedSamples (by decide!)
      (by decide) (by decide) (by decide) (by decide!)).2.2.2.1 0 2 0
      (by decide) (by decide) (by decide)).2,
   by decide!,
   (fillIncomingPolar0Data_average BrdfKind.Spherical polarClosedSamples (by decide!)
      (by decide) (by decide) (by decide) (by decide!)).2.2.2.2.2.2.2⟩

/-! ## wavelengthToSrgb -/

theorem clampedSrgb_range (cie : CieData) (m : Vec3 × Vec3 × Vec3) (index : Int) :
    (0 ≤ (clampedSrgb cie m index).1 ∧ (clampedSrgb cie m index).1 ≤ 1) ∧
    (0 ≤ (clampedSrgb cie m index).2.1 ∧ (clampedSrgb cie m index).2.1 ≤ 1) ∧
    (0 ≤ (clampedSrgb cie m index).2.2 ∧ (clampedSrgb cie m index).2.2 ≤ 1) := by
  unfold clampedSrgb Vec3.cwiseMax Vec3.cwiseMin
  refine ⟨⟨le_max_right _ _, max_le (min_le_right _ _) zero_le_one⟩,
    ⟨le_max_right _ _, max_le (min_le_right _ _) zero_le_one⟩,
    ⟨le_max_right _ _, max_le (min_le_right _ _) zero_le_one⟩⟩

theorem wavelengthToSrgb_eq (cie : CieData) (m : Vec3 × Vec3 × Vec3) (wl : ℚ) (index : Int)
    (hidx : findNearestIndex cie.minWavelength cie.maxWavelength cie.numWavelengths wl =
      some index) :
    wavelengthToSrgb cie m wl =
      some (Vec3.divScalar (clampedSrgb cie m index)
        (max (Vec3.maxCoeff (clampedSrgb cie m index)) MIN_MAX_COEFF)) := by
  unfold wavelengthToSrgb
  rw [hidx]
  rfl

theorem maxCoeff_divScalar (v : Vec3) (c : ℚ) (hc : 0 ≤ c) :
    Vec3.maxCoeff (Vec3.divScalar v c) = Vec3.maxCoeff v / c := by
  unfold Vec3.maxCoeff Vec3.divScalar
  simp only []
  rw [max_div_div_right hc, max_div_div_right hc]

theorem MIN_MAX_COEFF_pos : 0 < MIN_MAX_COEFF := by norm_num [MIN_MAX_COEFF]

/-- C23. For every wavelength (at which the table index is defined), every
component of the result of `wavelengthToSrgb` lies in `[0,1]`; and whenever
the largest component `m` of the sRGB triple after clamping into `[0,1]` is at
least the literal `0.001f`, the result is the clamped triple divided by `m` and
its largest component is exactly 1.  For a float `m`, a multiple of `2⁻³³`,
`m ≥ 10⁻³` is the same as `m ≥ 0.001f`. -/
theorem wavelengthToSrgb_range (cie : CieData) (m : Vec3 × Vec3 × Vec3) (wl : ℚ) (index : Int)
    (hidx : findNearestIndex cie.minWavelength cie.maxWavelength cie.numWavelengths wl =
      some index) :
    (∃ rgb, wavelengthToSrgb cie m wl = some rgb ∧
      (0 ≤ rgb.1 ∧ rgb.1 ≤ 1) ∧ (0 ≤ rgb.2.1 ∧ rgb.2.1 ≤ 1) ∧ (0 ≤ rgb.2.2 ∧ rgb.2.2 ≤ 1)) ∧
    (MIN_MAX_COEFF ≤ Vec3.maxCoeff (clampedSrgb cie m index) →
      wavelengthToSrgb cie m wl =
        some (Vec3.divScalar (clampedSrgb cie m index)
          (Vec3.maxCoeff (clampedSrgb cie m index))) ∧
      Vec3.maxCoeff (Vec3.divScalar (clampedSrgb cie m index)
          (Vec3.maxCoeff (clampedSrgb cie m index))) = 1) ∧
    (∀ k : ℕ, (1 / 1000 ≤ (k : ℚ) / 2 ^ 33 ↔ MIN_MAX_COEFF ≤ (k : ℚ) / 2 ^ 33)) := by
  obtain ⟨⟨a0, a1⟩, ⟨b0, b1⟩, ⟨c0, c1⟩⟩ := clampedSrgb_range cie m index
  have hd : 0 < max (Vec3.maxCoeff (clampedSrgb cie m index)) MIN_MAX_COEFF :=
    lt_of_lt_of_le MIN_MAX_COEFF_pos (le_max_right _ _)
  have hM : ∀ x, x ≤ Vec3.maxCoeff (clampedSrgb cie m index) →
      x ≤ max (Vec3.maxCoeff (clampedSrgb cie m index)) MIN_MAX_COEFF :=
    fun x hx => le_trans hx (le_max_left _ _)
  have ha : (clampedSrgb cie m index).1 ≤ Vec3.maxCoeff (clampedSrgb cie m index) :=
    le_max_left _ _
  have hb : (clampedSrgb cie m index).2.1 ≤ Vec3.maxCoeff (clampedSrgb cie m index) :=
    le_trans (le_max_left _ _) (le_max_right _ _)
  have hc : (clampedSrgb cie m index).2.2 ≤ Vec3.maxCoeff (clampedSrgb cie m index) :=
    le_trans (le_max_right _ _) (le_max_right _ _)
  refine ⟨⟨_, wavelengthToSrgb_eq cie m wl index hidx, ?_, ?_, ?_⟩, fun hge => ?_, fun k => ?_⟩
  · exact ⟨div_nonneg a0 hd.le, (div_le_one hd).2 (hM _ ha)⟩
  · exact ⟨div_nonneg b0 hd.le, (div_le_one hd).2 (hM _ hb)⟩
  · exact ⟨div_nonneg c0 hd.le, (div_le_one hd).2 (hM _ hc)⟩
  · have hpos : 0 < Vec3.maxCoeff (clampedSrgb cie m index) :=
      lt_of_lt_of_le MIN_MAX_COEFF_pos hge
    refine ⟨?_, ?_⟩
    · rw [wavelengthToSrgb_eq cie m wl index hidx, max_eq_left hge]
    · rw [maxCoeff_divScalar _ _ hpos.le, div_self hpos.ne']
  · have h33 : (0 : ℚ) < 2 ^ 33 := by positivity
    have e1 : (1 / 1000 : ℚ) * 2 ^ 33 = 8589934592 / 1000 := by norm_num
    have e2 : MIN_MAX_COEFF * 2 ^ 33 = 8589935 := by norm_num [MIN_MAX_COEFF]
    rw [le_div_iff₀ h33, le_div_iff₀ h33, e1, e2]
    constructor
    · intro h
      have h2 : ((8589934 : ℕ) : ℚ) < (k : ℚ) := by
        have : ((8589934 : ℕ) : ℚ) < 8589934592 / 1000 := by norm_num
        exact lt_of_lt_of_le this h
      have h3 : 8589934 < k := by exact_mod_cast h2
      have h4 : ((8589935 : ℕ) : ℚ) ≤ (k : ℚ) := by exact_mod_cast h3
      exact_mod_cast h4
    · intro h
      have : (8589934592 / 1000 : ℚ) ≤ 8589935 := by norm_num
      exact le_trans this h

/-- C23 on `sampleCie` with the identity matrix: at 700 nm the clamped triple
is `(1/2, 1/4, 0)`, its largest component is above the threshold, and the
result is `(1, 1/2, 0)`. -/
theorem wavelengthToSrgb_range_witness :
    clampedSrgb sampleCie identityMatrix 2 = (1 / 2, 1 / 4, 0) ∧
    Vec3.divScalar (clampedSrgb sampleCie identityMatrix 2)
      (Vec3.maxCoeff (clampedSrgb sampleCie identityMatrix 2)) = (1, 1 / 2, 0) ∧
    wavelengthToSrgb sampleCie identityMatrix 700 =
      some (Vec3.divScalar (clampedSrgb sampleCie identityMatrix 2)
        (Vec3.maxCoeff (clampedSrgb sampleCie identityMatrix 2))) :=
  ⟨by decide!, by decide!,
   ((wavelengthToSrgb_range sampleCie identityMatrix 700 2 (by decide!)).2.1 (by decide!)).1⟩

/-- C24, as stated, fails: on `sampleCie` with the identity matrix the clamped
triple at 400 nm is `(1/2000, 0, 0)`, whose largest component is below
`10⁻³`; the result is this triple divided by `0.001f`, with the largest
component `536870912/1073741875 ≈ 0.5`, not the zero colour. -/
theorem wavelengthToSrgb_threshold_counterexample :
    findNearestIndex sampleCie.minWavelength sampleCie.maxWavelength
      sampleCie.numWavelengths 400 = some 0 ∧
    clampedSrgb sampleCie identityMatrix 0 = (1 / 2000, 0, 0) ∧
    Vec3.maxCoeff (clampedSrgb sampleCie identityMatrix 0) < 1 / 1000 ∧
    wavelengthToSrgb sampleCie identityMatrix 400 =
      some (536870912 / 1073741875, 0, 0) ∧
    (wavelengthToSrgb sampleCie identityMatrix 400).map Vec3.maxCoeff ≠ some 0 := by
  decide!

/-- C24, amended. For every wavelength whose clamped sRGB triple has its
largest component `m` below the literal `0.001f`, the result of
`wavelengthToSrgb` is the clamped triple divided by `0.001f`; its largest
component is `m / 0.001f`, which is below 1, and is 0 exactly when the clamped
triple is the zero colour. -/
theorem wavelengthToSrgb_threshold (cie : CieData) (m : Vec3 × Vec3 × Vec3) (wl : ℚ)
    (index : Int)
    (hidx : findNearestIndex cie.minWavelength cie.maxWavelength cie.numWavelengths wl =
      some index)
    (hlt : Vec3.maxCoeff (clampedSrgb cie m index) < MIN_MAX_COEFF) :
    wavelengthToSrgb cie m wl =
      some (Vec3.divScalar (clampedSrgb cie m index) MIN_MAX_COEFF) ∧
    Vec3.maxCoeff (Vec3.divScalar (clampedSrgb cie m index) MIN_MAX_COEFF) =
      Vec3.maxCoeff (clampedSrgb cie m index) / MIN_MAX_COEFF ∧
    Vec3.maxCoeff (Vec3.divScalar (clampedSrgb cie m index) MIN_MAX_COEFF) < 1 ∧
    (Vec3.maxCoeff (Vec3.divScalar (clampedSrgb cie m index) MIN_MAX_COEFF) = 0 ↔
      clampedSrgb cie m index = (0, 0, 0)) := by
  obtain ⟨⟨a0, -⟩, ⟨b0, -⟩, ⟨c0, -⟩⟩ := clampedSrgb_range cie m index
  have hpos := MIN_MAX_COEFF_pos
  have hmc := maxCoeff_divScalar (clampedSrgb cie m index) MIN_MAX_COEFF hpos.le
  refine ⟨?_, hmc, ?_, ?_⟩
  · rw [wavelengthToSrgb_eq cie m wl index hidx, max_eq_right hlt.le]
  · rw [hmc, div_lt_one hpos]
    exact hlt
  · rw [hmc, div_eq_zero_iff]
    constructor
    · intro h
      rcases h with h | h
      · have h1 : (clampedSrgb cie m index).1 ≤ 0 := h ▸ le_max_left _ _
        have h2 : (clampedSrgb cie m index).2.1 ≤ 0 :=
          h ▸ le_trans (le_max_left _ _) (le_max_right _ _)
        have h3 : (clampedSrgb cie m index).2.2 ≤ 0 :=
          h ▸ le_trans (le_max_right _ _) (le_max_right _ _)
        exact Prod.ext (le_antisymm h1 a0) (Prod.ext (le_antisymm h2 b0) (le_antisymm h3 c0))
      · exact absurd h hpos.ne'
    · intro h
      left
      rw [h]
      simp [Vec3.maxCoeff]

/-- The amended C24 on `sampleCie` at 400 nm: the result is `(1/2000, 0, 0)`
divided by `0.001f`. -/
theorem wavelengthToSrgb_threshold_witness :
    Vec3.maxCoeff (clampedSrgb sampleCie identityMatrix 0) < MIN_MAX_COEFF ∧
    wavelengthToSrgb sampleCie identityMatrix 400 =
      some (Vec3.divScalar (clampedSrgb sampleCie identityMatrix 0) MIN_MAX_COEFF) :=
  ⟨by decide!,
   (wavelengthToSrgb_threshold sampleCie identityMatrix 400 0 (by decide!) (by decide!)).1⟩

/-! ## spectrumToXyz and spectrumToSrgb -/

theorem divScalar_two (v : Vec3) : Vec3.divScalar v 2 = (1 / 2 : ℚ) • v := by
  obtain ⟨x, y, z⟩ := v
  simp only [Vec3.divScalar, Prod.smul_mk, smul_eq_mul]
  refine Prod.ext ?_ (Prod.ext ?_ ?_) <;> simp only [] <;> ring

/-- The function `spectrumToXyz` in closed form, when the table index of every
wavelength it reads is defined: the trapezoidal sum of the weighted rows. -/
theorem spectrumToXyz_trapezoid (cie : CieData) (values wavelengths : Arrayf) (n : Nat)
    (idx : Nat → Int)
    (hidx : ∀ i, i < n ∨ i = 0 →
      findNearestIndex cie.minWavelength cie.maxWavelength cie.numWavelengths
        (wavelengths.getD i 0) = some (idx i)) :
    spectrumToXyz cie values wavelengths n =
      some (trapezoidalSum wavelengths (cieWeighted cie idx values) n) := by
  unfold spectrumToXyz
  simp only []
  rw [hidx 0 (Or.inr rfl), Option.some_bind]
  have key := forRange_induct
    (fun k (st : Option XyzState) =>
      st = some (wavelengths.getD k 0, cieWeighted cie idx values k,
        ((List.range k).map (fun i =>
          (wavelengths.getD (i + 1) 0 - wavelengths.getD i 0) •
            (cieWeighted cie idx values i + cieWeighted cie idx values (i + 1)))).sum))
    (n - 1)
    (fun k (st : Option XyzState) =>
      st.bind fun st =>
        (findNearestIndex cie.minWavelength cie.maxWavelength cie.numWavelengths
            (wavelengths.getD (k + 1) 0)).map
          fun index =>
            ((wavelengths.getD (k + 1) 0,
              (cie.d65At index * values.getD (k + 1) 0) • cie.xyzAt index,
              st.2.2 + (wavelengths.getD (k + 1) 0 - st.1) •
                (st.2.1 + (cie.d65At index * values.getD (k + 1) 0) • cie.xyzAt index)) :
              XyzState))
    (some (wavelengths.getD 0 0,
      (cie.d65At (idx 0) * values.getD 0 0) • cie.xyzAt (idx 0), (0 : Vec3)))
    (by simp [cieWeighted]) ?_
  · rw [key]
    simp only [Option.map_some']
    rw [divScalar_two]
    rfl
  · intro k st hk hst
    subst hst
    beta_reduce
    rw [Option.some_bind, hidx (k + 1) (Or.inl (by omega)), Option.map_some']
    simp only [List.range_succ, List.map_append, List.sum_append, List.map_cons, List.map_nil,
      List.sum_cons, List.sum_nil, add_zero]
    rfl

theorem combine_getD (a b : ℚ) (u v : Spectrum) (h : u.length = v.length) (i : Nat) :
    (Spectrum.combine a u b v).getD i 0 = a * u.getD i 0 + b * v.getD i 0 := by
  unfold Spectrum.combine
  simp only [List.getD_eq_getElem?_getD]
  by_cases hi : i < u.length
  · have hv : i < v.length := by omega
    rw [List.getElem?_eq_getElem (by simp; omega), List.getElem?_eq_getElem hi,
      List.getElem?_eq_getElem hv]
    simp
  · rw [List.getElem?_eq_none (by simp; omega), List.getElem?_eq_none (by omega),
      List.getElem?_eq_none (by omega)]
    simp

theorem cieWeighted_combine (cie : CieData) (idx : Nat → Int) (a b : ℚ) (u v : Spectrum)
    (h : u.length = v.length) (i : Nat) :
    cieWeighted cie idx (Spectrum.combine a u b v) i =
      a • cieWeighted cie idx u i + b • cieWeighted cie idx v i := by
  unfold cieWeighted
  rw [combine_getD a b u v h]
  refine Prod.ext ?_ (Prod.ext ?_ ?_) <;>
    simp only [Prod.smul_fst, Prod.smul_snd, Prod.fst_add, Prod.snd_add, smul_eq_mul] <;> ring

/-- The trapezoidal sum is linear in the terms `f_i`. -/
theorem trapezoidalSum_linear (wavelengths : Arrayf) (f g h : Nat → Vec3) (a b : ℚ) (n : Nat)
    (hf : ∀ i, f i = a • g i + b • h i) :
    trapezoidalSum wavelengths f n =
      a • trapezoidalSum wavelengths g n + b • trapezoidalSum wavelengths h n := by
  obtain rfl : f = fun i => a • g i + b • h i := funext hf
  unfold trapezoidalSum
  have key : ∀ k, ((List.range k).map (fun i =>
        (wavelengths.getD (i + 1) 0 - wavelengths.getD i 0) •
          ((a • g i + b • h i) + (a • g (i + 1) + b • h (i + 1))))).sum =
      a • ((List.range k).map (fun i =>
        (wavelengths.getD (i + 1) 0 - wavelengths.getD i 0) • (g i + g (i + 1)))).sum +
      b • ((List.range k).map (fun i =>
        (wavelengths.getD (i + 1) 0 - wavelengths.getD i 0) • (h i + h (i + 1)))).sum := by
    intro k
    induction k with
    | zero => simp
    | succ k ih =>
      simp only [List.range_succ, List.map_append, List.sum_append, List.map_cons, List.map_nil,
        List.sum_cons, List.sum_nil, add_zero, ih]
      refine Prod.ext ?_ (Prod.ext ?_ ?_) <;>
        simp only [Prod.smul_fst, Prod.smul_snd, Prod.fst_add, Prod.snd_add, smul_eq_mul] <;>
        ring
  rw [key]
  refine Prod.ext ?_ (Prod.ext ?_ ?_) <;>
    simp only [Prod.smul_fst, Prod.smul_snd, Prod.fst_add, Prod.snd_add, smul_eq_mul] <;> ring

theorem xyzToSrgbVec3_linear (m : Vec3 × Vec3 × Vec3) (a b : ℚ) (x y : Vec3) :
    xyzToSrgbVec3 m (a • x + b • y) = a • xyzToSrgbVec3 m x + b • xyzToSrgbVec3 m y := by
  unfold xyzToSrgbVec3
  refine Prod.ext ?_ (Prod.ext ?_ ?_) <;>
    simp only [Prod.smul_fst, Prod.smul_snd, Prod.fst_add, Prod.snd_add, smul_eq_mul] <;> ring

/-- C21. When the table index `idx(λ_i)` of every wavelength is defined,
`spectrumToXyz` is the trapezoidal sum
`½·Σ_{i=0}^{n-2} (λ_{i+1} − λ_i)·(f_i + f_{i+1})` with
`f_i = values[i]·D65[idx(λ_i)]·XYZ[idx(λ_i)]` (zero when `n = 1`); it is linear
in the input spectrum for fixed wavelengths:
`spectrumToXyz(a·u + b·v, λ) = a·spectrumToXyz(u, λ) + b·spectrumToXyz(v, λ)`
for all spectra `u`, `v` of equal length and scalars `a`, `b`; and composing
with the linear map `xyzToSrgb` preserves linearity. -/
theorem spectrumToXyz_linear (cie : CieData) (wavelengths : Arrayf) (n : Nat)
    (idx : Nat → Int)
    (hidx : ∀ i, i < n ∨ i = 0 →
      findNearestIndex cie.minWavelength cie.maxWavelength cie.numWavelengths
        (wavelengths.getD i 0) = some (idx i)) :
    (∀ values, spectrumToXyz cie values wavelengths n =
      some ((1 / 2 : ℚ) • ((List.range (n - 1)).map (fun i =>
        (wavelengths.getD (i + 1) 0 - wavelengths.getD i 0) •
          ((cie.d65At (idx i) * values.getD i 0) • cie.xyzAt (idx i) +
           (cie.d65At (idx (i + 1)) * values.getD (i + 1) 0) • cie.xyzAt (idx (i + 1))))).sum)) ∧
    (n = 1 → ∀ values, spectrumToXyz cie values wavelengths n = some 0) ∧
    (∀ (u v : Spectrum) (a b : ℚ), u.length = v.length →
      ∃ x y, spectrumToXyz cie u wavelengths n = some x ∧
        spectrumToXyz cie v wavelengths n = some y ∧
        spectrumToXyz cie (Spectrum.combine a u b v) wavelengths n = some (a • x + b • y) ∧
        ∀ m, (spectrumToXyz cie (Spectrum.combine a u b v) wavelengths n).map (xyzToSrgbVec3 m) =
          some (a • xyzToSrgbVec3 m x + b • xyzToSrgbVec3 m y)) := by
  have hT := fun values => spectrumToXyz_trapezoid cie values wavelengths n idx hidx
  refine ⟨fun values => hT values, fun hn values => ?_, fun u v a b huv => ?_⟩
  · rw [hT values, hn]
    simp [trapezoidalSum]
  · have hlin := trapezoidalSum_linear wavelengths
      (cieWeighted cie idx (Spectrum.combine a u b v)) (cieWeighted cie idx u)
      (cieWeighted cie idx v) a b n (cieWeighted_combine cie idx a b u v huv)
    refine ⟨_, _, hT u, hT v, ?_, fun m => ?_⟩
    · rw [hT, hlin]
    · rw [hT, hlin, Option.map_some', xyzToSrgbVec3_linear]

theorem sampleCie_indices (i : Nat) (hi : i < 3 ∨ i = 0) :
    findNearestIndex sampleCie.minWavelength sampleCie.maxWavelength sampleCie.numWavelengths
      (([400, 550, 700] : Arrayf).getD i 0) = some (i : Int) := by
  have h3 : i < 3 := by omega
  interval_cases i <;> decide!

/-- C21 on `sampleCie` with the wavelengths 400, 550 and 700 nm: the spectrum
`(1,2,3) = 1·(1,0,0) + 2·(0,1,1.5)` is converted to the same combination of
the converted spectra. -/
theorem spectrumToXyz_linear_witness :
    Spectrum.combine 1 [1, 0, 0] 2 [0, 1, 3 / 2] = [1, 2, 3] ∧
    spectrumToXyz sampleCie [1, 2, 3] [400, 550, 700] 3 =
      some (57003 / 80, 5025 / 4, 1800) ∧
    ∃ x y, spectrumToXyz sampleCie [1, 0, 0] [400, 550, 700] 3 = some x ∧
      spectrumToXyz sampleCie [0, 1, 3 / 2] [400, 550, 700] 3 = some y ∧
      spectrumToXyz sampleCie (Spectrum.combine 1 [1, 0, 0] 2 [0, 1, 3 / 2])
        [400, 550, 700] 3 = some ((1 : ℚ) • x + (2 : ℚ) • y) ∧
      ∀ m, (spectrumToXyz sampleCie (Spectrum.combine 1 [1, 0, 0] 2 [0, 1, 3 / 2])
          [400, 550, 700] 3).map (xyzToSrgbVec3 m) =
        some ((1 : ℚ) • xyzToSrgbVec3 m x + (2 : ℚ) • xyzToSrgbVec3 m y) :=
  ⟨by decide!, by decide!,
   (spectrumToXyz_linear sampleCie [400, 550, 700] 3 (fun i => (i : Int)) sampleCie_indices).2.2
     [1, 0, 0] [0, 1, 3 / 2] 1 2 rfl⟩

/-- C22. When the normalization constant is
`xyzToSrgb(spectrumToXyz(ones, grid))` for the all-ones spectrum over the
wavelength grid and its components are positive, `spectrumToSrgb` applied to
that spectrum and grid yields exactly `(1,1,1)`. -/
theorem spectrumToSrgb_ones (cie : CieData) (m : Vec3 × Vec3 × Vec3) (grid : Arrayf) (n : Nat)
    (xyz normalizingConstant : Vec3)
    (hxyz : spectrumToXyz cie (List.replicate n 1) grid n = some xyz)
    (hnorm : normalizingConstant = xyzToSrgbVec3 m xyz)
    (hpos : 0 < normalizingConstant.1 ∧ 0 < normalizingConstant.2.1 ∧
      0 < normalizingConstant.2.2) :
    spectrumToSrgb cie m normalizingConstant (List.replicate n 1) grid n = some (1, 1, 1) := by
  unfold spectrumToSrgb
  rw [hxyz, Option.map_some', ← hnorm]
  obtain ⟨h1, h2, h3⟩ := hpos
  simp only [Vec3.cwiseMax, Vec3.cwiseQuotient, max_eq_left h1.le, max_eq_left h2.le,
    max_eq_left h3.le, div_self h1.ne', div_self h2.ne', div_self h3.ne']

/-- C22 on `sampleCie` with the identity matrix: the constant is
`(27003/80, 2475/4, 900)` and the all-ones spectrum is converted to `(1,1,1)`. -/
theorem spectrumToSrgb_ones_witness :
    spectrumToXyz sampleCie (List.replicate 3 1) [400, 550, 700] 3 =
      some (27003 / 80, 2475 / 4, 900) ∧
    spectrumToSrgb sampleCie identityMatrix (27003 / 80, 2475 / 4, 900) (List.replicate 3 1)
      [400, 550, 700] 3 = some (1, 1, 1) :=
  ⟨by decide!,
   spectrumToSrgb_ones sampleCie identityMatrix [400, 550, 700] 3 (27003 / 80, 2475 / 4, 900)
     (27003 / 80, 2475 / 4, 900) (by decide!) (by decide!) (by decide!)⟩

end lb
